import Mathlib

/-!
# servertech_exporter: the `collector` package

A shallow embedding of the metric mappers of `collector/*.go` together with
the pieces of the Go standard library and of the Prometheus client they call.

* A Go `string` is a Lean `String`; `[]byte` payloads are lists of bytes.
* A `float64` is represented by the rational number it denotes.
* A Go `int` is a 64-bit two's complement integer: arithmetic on it is
  integer arithmetic followed by `wrapInt64`.
* Sending on `ch chan<- prometheus.Metric` appends to the list of metrics the
  sink has received.  A Go function that may panic is a function from the
  sink contents to an `Exec`, which keeps what had been sent before the panic.
* `encoding/json` is not part of the repository: every mapper takes the
  instance of `json.Unmarshal` at its destination type as an argument.
* The Unicode case table behind `unicode.ToLower` (for runes above
  `unicode.MaxASCII`) is an argument as well.
* The package-level `float64` counters are given by the natural number they
  hold, and `x++` on them is `float64Inc`; the functions that touch them take
  and return the record `Globals` of all counters.
* `net/http` is an argument (`http.Client`), and so is the time that
  `runCollector` measures.  `Collect` is modelled for the schedule in which
  the collectors run one after the other, and, as `Exporter.step`, by the
  steps that the calling goroutine and the goroutines it starts take under
  any schedule, with the counter of the `sync.WaitGroup` in the state.
* kingpin is an argument of `registerCollector`: the value of the flag it
  declares.  A Go map is the list of its entries.
-/

/-! ## Go runtime -/

/-- Value of a Go `float64`, given by the rational number it denotes. -/
abbrev Float64 := Rat

/-- Contents of a Go `[]byte`. -/
abbrev Bytes := List UInt8

/-- Reduction of a mathematical integer to the 64-bit two's complement `int`. -/
def wrapInt64 (x : Int) : Int :=
  (x + 2 ^ 63) % 2 ^ 64 - 2 ^ 63

/-- Number of low bits that do not fit the 53-bit significand of a `float64`
(at most `fuel` of them are counted). -/
def roundShift : Nat → Nat → Nat
  | 0, _ => 0
  | fuel + 1, n => if n < 2 ^ 53 then 0 else roundShift fuel (n / 2) + 1

/-- Nearest `float64` to a natural number of at most 64 bits, ties to even. -/
def roundNat (n : Nat) : Nat :=
  let e := roundShift 11 n
  let q := n / 2 ^ e
  let r := n % 2 ^ e
  let q1 := if 2 ^ e < 2 * r ∨ (2 ^ e = 2 * r ∧ q % 2 = 1) then q + 1 else q
  q1 * 2 ^ e

/-- Go conversion `float64(i)` of an `int`. -/
def float64OfInt (i : Int) : Float64 :=
  if 0 ≤ i then ((roundNat i.toNat : Nat) : Rat) else -((roundNat (-i).toNat : Nat) : Rat)

/-- Go `x++` on a `float64` variable that holds the natural number `n`: the sum
`n + 1` rounded to the nearest `float64`.  The counters of the package start
at `0.0` and change only by `++`, so they hold natural numbers. -/
def float64Inc (n : Nat) : Nat :=
  roundNat (n + 1)

/-- Why a `strconv` conversion failed (`strconv.ErrSyntax`, `strconv.ErrRange`). -/
inductive NumErr
  | ErrSyntax
  | ErrRange
deriving DecidableEq, Repr

/-- A Go `error` value.  `fmt.Errorf(format, err)` is kept as the format
together with the wrapped error instead of the rendered text. -/
inductive Error
  | text (msg : String)
  | numError (func num : String) (err : NumErr)
  | errorf (format : String) (arg : Error)
  | errorfInt (format : String) (arg : Int)
deriving DecidableEq, Repr

/-- A run-time panic of the Go program. -/
inductive Panic
  | nilDereference
  | indexOutOfRange (index length : Nat)
  | inconsistentCardinality (expected got : Nat)
deriving DecidableEq, Repr

/-! ## `unicode` and `strings` -/

namespace unicode

/-- Go `unicode.ToLower`: ASCII runes are handled inline, all others are
looked up in the case table `lowerCase`. -/
def ToLower (lowerCase : Char → Char) (r : Char) : Char :=
  if r.toNat ≤ 0x7F then
    if 'A'.toNat ≤ r.toNat ∧ r.toNat ≤ 'Z'.toNat then Char.ofNat (r.toNat + 32) else r
  else lowerCase r

end unicode

namespace strings

/-- Go `strings.ToLower`: every rune is mapped by `unicode.ToLower`. -/
def ToLower (lowerCase : Char → Char) (s : String) : String :=
  ⟨s.data.map (unicode.ToLower lowerCase)⟩

end strings

/-! ## `strconv` -/

namespace strconv

/-- The loop of Go `strconv.ParseUint(s, 10, 64)` over the remaining characters,
with `n` the value accumulated so far: a character that is not a decimal digit
is a syntax error, an accumulator that leaves 64 bits is a range error. -/
def parseUintLoop : List Char → Nat → Except NumErr Nat
  | [], n => .ok n
  | c :: cs, n =>
    if '0'.toNat ≤ c.toNat ∧ c.toNat ≤ '9'.toNat then
      let d := c.toNat - '0'.toNat
      if n ≥ (2 ^ 64 - 1) / 10 + 1 then .error .ErrRange
      else
        let n1 := n * 10 + d
        if n1 > 2 ^ 64 - 1 then .error .ErrRange
        else parseUintLoop cs n1
    else .error .ErrSyntax

/-- Go `strconv.Atoi` on a platform whose `int` has 64 bits: an optional sign
followed by one or more decimal digits, with value in `[-2^63, 2^63 - 1]`.
(The fast path of the library for short inputs computes the same result.) -/
def Atoi (s : String) : Except Error Int :=
  let fail (e : NumErr) : Except Error Int := .error (.numError "Atoi" s e)
  match s.data with
  | [] => fail .ErrSyntax
  | c :: cs =>
    let neg := decide (c = '-')
    let digits := if c = '-' ∨ c = '+' then cs else c :: cs
    if digits = [] then fail .ErrSyntax
    else
      match parseUintLoop digits 0 with
      | .error .ErrSyntax => fail .ErrSyntax
      | .error .ErrRange => fail .ErrRange
      | .ok un =>
        if ¬ neg ∧ un ≥ 2 ^ 63 then fail .ErrRange
        else if neg ∧ un > 2 ^ 63 then fail .ErrRange
        else .ok (if neg then -(un : Int) else (un : Int))

end strconv

/-! ## `regexp` -/

namespace regexp

/-- Abstract syntax of the regular expressions the exporter compiles. -/
inductive Node
  | literal (s : List Char)
  | dotStar
  | concat (a b : Node)
  | quest (a : Node)
  | capture (i : Nat) (a : Node)
deriving DecidableEq, Repr

/-- Text of the capture groups set so far. -/
abbrev Caps := Nat → Option (List Char)

/-- Records the text of group `i`. -/
def setCap (caps : Caps) (i : Nat) (text : List Char) : Caps :=
  fun j => if j = i then some text else caps j

/-- Consumes the literal `lit` at the start of the input. -/
def matchLiteral : List Char → List Char → Option (List Char)
  | [], inp => some inp
  | _ :: _, [] => none
  | c :: cs, x :: xs => if x = c then matchLiteral cs xs else none

/-- Greedy `.*` followed by the continuation `k`: the longest run of
characters other than newline is tried first, then shorter ones. -/
def matchDotStar {β : Type} (k : List Char → Option β) : List Char → Option β
  | [] => k []
  | c :: cs =>
    if c = '\n' then k (c :: cs)
    else
      match matchDotStar k cs with
      | some r => some r
      | none => k (c :: cs)

/-- Backtracking matcher in continuation-passing style.  The alternatives are
explored in the priority order of a backtracking engine, which is the order
that defines the match Go's `regexp` reports (leftmost-first). -/
def run {β : Type} : Node → List Char → Caps → (List Char → Caps → Option β) → Option β
  | .literal s, inp, caps, k =>
    match matchLiteral s inp with
    | some rest => k rest caps
    | none => none
  | .dotStar, inp, caps, k => matchDotStar (fun rest => k rest caps) inp
  | .concat a b, inp, caps, k => run a inp caps (fun rest caps1 => run b rest caps1 k)
  | .quest a, inp, caps, k =>
    match run a inp caps k with
    | some r => some r
    | none => k inp caps
  | .capture i a, inp, caps, k =>
    run a inp caps (fun rest caps1 =>
      k rest (setCap caps1 i (inp.take (inp.length - rest.length))))

/-- Match anchored at the start of `inp`: the matched text and the groups. -/
def matchHere (re : Node) (inp : List Char) : Option (List Char × Caps) :=
  run re inp (fun _ => none) (fun rest caps => some (inp.take (inp.length - rest.length), caps))

/-- Leftmost match: start positions are tried from left to right. -/
def search (re : Node) : List Char → Option (List Char × Caps)
  | [] => matchHere re []
  | c :: cs =>
    match matchHere re (c :: cs) with
    | some r => some r
    | none => search re cs

/-- A compiled regular expression. -/
structure Regexp where
  expr : Node
  numSubexp : Nat
deriving DecidableEq, Repr

/-- Go `(*Regexp).FindStringSubmatch`: nil (the empty slice) without a match,
otherwise the text of the match followed by the text of each group, the empty
string for a group that did not take part in the match. -/
def Regexp.FindStringSubmatch (r : Regexp) (s : String) : List String :=
  match search r.expr s.data with
  | none => []
  | some (whole, caps) =>
    String.mk whole :: (List.range r.numSubexp).map (fun i => String.mk ((caps (i + 1)).getD []))

/-- Syntax tree of `(?:(.*) days )?(?:(.*) hours )?(?:(.*) minutes )?(.*) seconds`. -/
def uptimeExpr : Node :=
  .concat (.quest (.concat (.capture 1 .dotStar) (.literal [' ', 'd', 'a', 'y', 's', ' '])))
    (.concat (.quest (.concat (.capture 2 .dotStar) (.literal [' ', 'h', 'o', 'u', 'r', 's', ' '])))
      (.concat
        (.quest (.concat (.capture 3 .dotStar) (.literal [' ', 'm', 'i', 'n', 'u', 't', 'e', 's', ' '])))
        (.concat (.capture 4 .dotStar) (.literal [' ', 's', 'e', 'c', 'o', 'n', 'd', 's']))))

/-- Go `regexp.Compile`, for the one pattern the exporter uses. -/
def Compile (expr : String) : Except Error Regexp :=
  if expr = "(?:(.*) days )?(?:(.*) hours )?(?:(.*) minutes )?(.*) seconds" then
    .ok { expr := uptimeExpr, numSubexp := 4 }
  else .error (.text "regexp: pattern outside the modelled fragment")

end regexp

/-! ## `prometheus` -/

namespace prometheus

/-- The fields of `prometheus.Desc` that the exporter sets. -/
structure Desc where
  fqName : String
  help : String
  variableLabels : List String
deriving DecidableEq, Repr

/-- Go `prometheus.ValueType`. -/
inductive ValueType
  | CounterValue
  | GaugeValue
deriving DecidableEq, Repr

/-- A constant metric as built by `prometheus.MustNewConstMetric`. -/
structure Metric where
  desc : Desc
  valType : ValueType
  value : Float64
  labelValues : List String
deriving DecidableEq

/-- Go `prometheus.BuildFQName`. -/
def BuildFQName (namespace_ subsystem name : String) : String :=
  if name = "" then ""
  else if namespace_ ≠ "" ∧ subsystem ≠ "" then namespace_ ++ "_" ++ subsystem ++ "_" ++ name
  else if namespace_ ≠ "" then namespace_ ++ "_" ++ name
  else if subsystem ≠ "" then subsystem ++ "_" ++ name
  else name

/-- Go `prometheus.NewDesc` without constant labels. -/
def NewDesc (fqName help : String) (variableLabels : List String) : Desc :=
  { fqName := fqName, help := help, variableLabels := variableLabels }

/-- Go `prometheus.MustNewConstMetric`: panics on a nil descriptor and when the
number of label values differs from the number of variable labels. -/
def MustNewConstMetric (desc : Option Desc) (valueType : ValueType) (value : Float64)
    (labelValues : List String) : Except Panic Metric :=
  match desc with
  | none => .error .nilDereference
  | some d =>
    if labelValues.length = d.variableLabels.length then
      .ok { desc := d, valType := valueType, value := value, labelValues := labelValues }
    else .error (.inconsistentCardinality d.variableLabels.length labelValues.length)

end prometheus

/-! ## Execution of Go code that writes to the metric channel -/

/-- What the sink has received on `ch chan<- prometheus.Metric`. -/
abbrev Chan := List prometheus.Metric

/-- Outcome of a Go call: it returned `a`, or it panicked; in both cases `ch`
is what the sink holds at that point. -/
inductive Exec (α : Type)
  | done (ch : Chan) (a : α)
  | panicked (ch : Chan) (p : Panic)
deriving DecidableEq

namespace Exec

/-- Sink contents when the call ended. -/
def sent {α : Type} : Exec α → Chan
  | done ch _ => ch
  | panicked ch _ => ch

/-- Returned value, if the call returned. -/
def returned {α : Type} : Exec α → Option α
  | done _ a => some a
  | panicked _ _ => none

end Exec

/-- A Go computation with access to the metric channel. -/
def Go (α : Type) : Type := Chan → Exec α

namespace Go

/-- Return without touching the channel. -/
def ret {α : Type} (a : α) : Go α := fun ch => .done ch a

/-- Sequencing: a panic ends the computation. -/
def andThen {α β : Type} (m : Go α) (f : α → Go β) : Go β := fun ch =>
  match m ch with
  | .done ch1 a => f a ch1
  | .panicked ch1 p => .panicked ch1 p

/-- Go `panic`. -/
def throwPanic {α : Type} (p : Panic) : Go α := fun ch => .panicked ch p

/-- Channel send `ch <- m`. -/
def send (m : prometheus.Metric) : Go Unit := fun ch => .done (ch ++ [m]) ()

/-- Evaluation of an expression that may panic. -/
def must {α : Type} : Except Panic α → Go α
  | .ok a => ret a
  | .error p => throwPanic p

/-- Go `for _, data := range xs`. -/
def forRange {α : Type} (body : α → Go Unit) : List α → Go Unit
  | [] => ret ()
  | x :: xs => andThen (body x) (fun _ => forRange body xs)

/-- Slice indexing `xs[i]`, which panics out of range. -/
def index (xs : List String) (i : Nat) : Go String :=
  match xs.get? i with
  | some s => ret s
  | none => throwPanic (.indexOutOfRange i xs.length)

end Go

instance : Monad Go where
  pure := Go.ret
  bind := Go.andThen

/-! ## `collector/collector.go` -/

namespace collector

open prometheus

/-- The namespace used by all metrics. -/
def namespace_ : String := "servertech"

/-- Go `promDesc`. -/
def promDesc (metricName metricDescription : String) (labels : List String) : Desc :=
  NewDesc (namespace_ ++ "_" ++ metricName) metricDescription labels

/-- Go `colPromDesc`. -/
def colPromDesc (subsystem metricName metricDescription : String) (labels : List String) : Desc :=
  NewDesc (BuildFQName namespace_ subsystem metricName) metricDescription labels

/-- Go `newGauge`. -/
def newGauge (descName : Option Desc) (metric : Float64) (labels : List String) : Go Unit := do
  let m ← Go.must (MustNewConstMetric descName .GaugeValue metric labels)
  Go.send m

/-- Go `newCounter`. -/
def newCounter (descName : Option Desc) (metric : Float64) (labels : List String) : Go Unit := do
  let m ← Go.must (MustNewConstMetric descName .CounterValue metric labels)
  Go.send m

/-- Go `statusMetric`. -/
def statusMetric (lowerCase : Char → Char) (desc : Option Desc) (metric statusType : String)
    (labels : List String) : Go Unit :=
  let status : Float64 := if strings.ToLower lowerCase metric = "normal" then 1 else 0
  let statusLabels := labels ++ [statusType]
  newGauge desc status statusLabels

/-- Go `stateMetric`. -/
def stateMetric (lowerCase : Char → Char) (desc : Option Desc) (stateStr : String)
    (labels : List String) : Go Unit :=
  let state : Float64 := if strings.ToLower lowerCase stateStr = "on" then 1 else 0
  newGauge desc state labels

/-- Go `reactanceMetric`. -/
def reactanceMetric (lowerCase : Char → Char) (desc : Option Desc) (reactanceStr : String)
    (labels : List String) : Go Unit :=
  let reactance : Float64 :=
    if strings.ToLower lowerCase reactanceStr = "capacitive" then 1
    else if strings.ToLower lowerCase reactanceStr = "inductive" then 2
    else if strings.ToLower lowerCase reactanceStr = "resistive" then 3
    else 0
  newGauge desc reactance labels

end collector

/-! ## `collector/system.go` -/

namespace collector

open prometheus

def systemSubsystem : String := "system"

def systemLabels : List String := ["firmware", "nic_serial_number"]

def systemStatusLabels : List String := systemLabels ++ ["status_type"]

/-- Go map `systemDesc`. -/
def systemDesc : List (String × Desc) :=
  [("active_users", colPromDesc systemSubsystem "active_users" "Integer number of active users logged in." systemLabels),
   ("uptime_seconds", colPromDesc systemSubsystem "voltamps" "System uptime" systemLabels),
   ("status", colPromDesc systemSubsystem "status" "Status (1 = Normal, 0 = Not Normal)." systemStatusLabels)]

/-- Go struct `systemData`. -/
structure systemData where
  ActiveUsers : Float64
  Firmware : String
  NicSerialNumber : String
  StatusBranches : String
  StatusCords : String
  StatusLines : String
  StatusOcps : String
  StatusOutlets : String
  StatusPhases : String
  StatusUnits : String
  Uptime : String
deriving DecidableEq

/-- Go `processSystemStats`.  `unmarshal` is `json.Unmarshal` into a `systemData`. -/
def processSystemStats (lowerCase : Char → Char) (unmarshal : Bytes → Except Error systemData)
    (jsonSystemSum : Bytes) : Go (Option Error) :=
  match unmarshal jsonSystemSum with
  | .error err => pure (some (.errorf "cannot unmarshal system json: %s" err))
  | .ok data => do
    let labels := [data.Firmware, data.NicSerialNumber]

    newGauge (systemDesc.lookup "active_users") data.ActiveUsers labels

    statusMetric lowerCase (systemDesc.lookup "status") data.StatusBranches "branches" labels
    statusMetric lowerCase (systemDesc.lookup "status") data.StatusCords "cords" labels
    statusMetric lowerCase (systemDesc.lookup "status") data.StatusLines "lines" labels
    statusMetric lowerCase (systemDesc.lookup "status") data.StatusOcps "ocps" labels
    statusMetric lowerCase (systemDesc.lookup "status") data.StatusOutlets "outlets" labels
    statusMetric lowerCase (systemDesc.lookup "status") data.StatusPhases "phases" labels
    statusMetric lowerCase (systemDesc.lookup "status") data.StatusUnits "units" labels

    match regexp.Compile "(?:(.*) days )?(?:(.*) hours )?(?:(.*) minutes )?(.*) seconds" with
    | .error err => pure (some (.errorf "could not compile uptime regex: %v" err))
    | .ok r =>
      let reUptime := r.FindStringSubmatch data.Uptime
      match strconv.Atoi (← Go.index reUptime 1) with
      | .error err => pure (some (.errorf "could not convert uptime day to int: %v" err))
      | .ok uptimeDays =>
      match strconv.Atoi (← Go.index reUptime 2) with
      | .error err => pure (some (.errorf "could not convert uptime hour to int: %v" err))
      | .ok uptimeHours =>
      match strconv.Atoi (← Go.index reUptime 3) with
      | .error err => pure (some (.errorf "could not convert uptime minute to int: %v" err))
      | .ok uptimeMinutes =>
      match strconv.Atoi (← Go.index reUptime 4) with
      | .error err => pure (some (.errorf "could not convert uptime second to int: %v" err))
      | .ok uptimeSeconds =>
        let uptime := wrapInt64 (wrapInt64 (wrapInt64 (wrapInt64 (uptimeDays * 86400)
          + wrapInt64 (uptimeHours * 3600)) + wrapInt64 (uptimeMinutes * 60)) + uptimeSeconds)

        newCounter (systemDesc.lookup "uptime_seconds") (float64OfInt uptime) labels

        pure none

end collector

/-! ## `collector/branches.go` -/

namespace collector

open prometheus

def branchesSubsystem : String := "branches"

def branchesLabels : List String := ["id", "name", "phase_id", "ocp_id"]

def branchesStatusLabels : List String := branchesLabels ++ ["status_type"]

/-- Go map `branchesDesc`. -/
def branchesDesc : List (String × Desc) :=
  [("amps", colPromDesc branchesSubsystem "amps" "Floating point branch current in hundredth Amps. Available only if branch current sensing is present and value is known." branchesLabels),
   ("amps_capacity", colPromDesc branchesSubsystem "amps_capacity" "Integer branch current capacity in whole Amps." branchesLabels),
   ("state", colPromDesc branchesSubsystem "state" "State (1 = On, 0 = Off))." branchesLabels),
   ("status", colPromDesc branchesSubsystem "status" "Status (1 = Normal, 0 = Not Normal)." branchesStatusLabels)]

/-- Element of the Go slice type `branchesData`. -/
structure branchesEntry where
  ID : String
  Name : String
  Current : Float64
  CurrentCapacity : Float64
  CurrentStatus : String
  CurrentUtilized : Float64
  OcpID : String
  PhaseID : String
  State : String
  Status : String
deriving DecidableEq

abbrev branchesData := List branchesEntry

/-- Body of the `range` loop of `processBranchesStats`. -/
def processBranchesEntry (lowerCase : Char → Char) (data : branchesEntry) : Go Unit := do
  let labels := [data.ID, data.Name, data.OcpID, data.PhaseID]

  newGauge (branchesDesc.lookup "amps") data.Current labels
  newGauge (branchesDesc.lookup "amps_capacity") data.CurrentCapacity labels

  statusMetric lowerCase (branchesDesc.lookup "status") data.CurrentStatus "current" labels
  statusMetric lowerCase (branchesDesc.lookup "status") data.Status "branche" labels

  stateMetric lowerCase (branchesDesc.lookup "state") data.State labels

/-- Go `processBranchesStats`. -/
def processBranchesStats (lowerCase : Char → Char) (unmarshal : Bytes → Except Error branchesData)
    (jsonBranchesSum : Bytes) : Go (Option Error) :=
  match unmarshal jsonBranchesSum with
  | .error err => pure (some (.errorf "cannot unmarshal branches json: %s" err))
  | .ok jsonBranchess => do
    Go.forRange (processBranchesEntry lowerCase) jsonBranchess
    pure none

end collector

/-! ## `collector/cords.go` -/

namespace collector

open prometheus

def cordsSubsystem : String := "cords"

def cordsLabels : List String := ["id", "name", "plug_type"]

def cordsStatusLabels : List String := cordsLabels ++ ["status_type"]

/-- Go map `cordsDesc`. -/
def cordsDesc : List (String × Desc) :=
  [("watts", colPromDesc cordsSubsystem "watts" "Integer cord power in Watts. Available only if cord power sensing is present and value is known (AC or DC)." cordsLabels),
   ("watts_capacity", colPromDesc cordsSubsystem "watts_capacity" "Integer cord power capacity in Watts." cordsLabels),
   ("voltamps", colPromDesc cordsSubsystem "voltamps" "Integer cord apparent power ranging from 0 to maximum rated power in Volt-Amps. Available only if AC cord power sensing is present and value is known." cordsLabels),
   ("kilowatthours", colPromDesc cordsSubsystem "kilowatthours" "Floating point cord energy in tenth kilowatt-hours (kWh). Available only if energy sensing is present and value is known." cordsLabels),
   ("hertz", colPromDesc cordsSubsystem "hertz" "Floating point cord frequency in tenth Hertz (Hz). Available only if frequency sensing is present and value is known." cordsLabels),
   ("three_phase_imbalance", colPromDesc cordsSubsystem "three_phase_imbalance" "Floating point 3 phase out of balance percentage in tenths.. Available only if 3-phase AC cord current sensing is present and value is known." cordsLabels),
   ("power_factor", colPromDesc cordsSubsystem "power_factor" "Floating point cord power factor in hundredths. Available only if AC cord power factor sensing is present and value is known." cordsLabels),
   ("state", colPromDesc cordsSubsystem "state" "State (1 = On, 0 = Off))." cordsLabels),
   ("status", colPromDesc cordsSubsystem "status" "Status (1 = Normal, 0 = Not Normal)." cordsStatusLabels)]

/-- Element of the Go slice type `cordsData`. -/
structure cordsEntry where
  ID : String
  Name : String
  ActivePower : Float64
  ActivePowerStatus : String
  ApparentPower : Float64
  ApparentPowerStatus : String
  Energy : Float64
  Frequency : Float64
  PowerCapacity : Float64
  PowerFactor : Float64
  PowerFactorStatus : String
  PowerUtilized : Float64
  PlugType : String
  State : String
  Status : String
  ThreePhaseImbalance : Float64
  ThreePhaseImbalanceStatus : String
deriving DecidableEq

abbrev cordsData := List cordsEntry

/-- Body of the `range` loop of `processCordsStats`. -/
def processCordsEntry (lowerCase : Char → Char) (data : cordsEntry) : Go Unit := do
  let labels := [data.ID, data.Name, data.PlugType]

  newGauge (cordsDesc.lookup "watts") data.ActivePower labels
  newGauge (cordsDesc.lookup "watts_capacity") data.PowerCapacity labels
  newGauge (cordsDesc.lookup "voltamps") data.ApparentPower labels
  newGauge (cordsDesc.lookup "kilowatthours") data.Energy labels
  newGauge (cordsDesc.lookup "hertz") data.Frequency labels
  newGauge (cordsDesc.lookup "three_phase_imbalance") data.ThreePhaseImbalance labels
  newGauge (cordsDesc.lookup "power_factor") data.PowerFactor labels

  statusMetric lowerCase (cordsDesc.lookup "status") data.ActivePowerStatus "active power" labels
  statusMetric lowerCase (cordsDesc.lookup "status") data.ApparentPowerStatus "apparent power" labels
  statusMetric lowerCase (cordsDesc.lookup "status") data.PowerFactorStatus "power factor" labels
  statusMetric lowerCase (cordsDesc.lookup "status") data.ThreePhaseImbalanceStatus "three phase imbalance" labels
  statusMetric lowerCase (cordsDesc.lookup "status") data.Status "cord" labels

  stateMetric lowerCase (cordsDesc.lookup "state") data.State labels

/-- Go `processCordsStats`. -/
def processCordsStats (lowerCase : Char → Char) (unmarshal : Bytes → Except Error cordsData)
    (jsonCordsSum : Bytes) : Go (Option Error) :=
  match unmarshal jsonCordsSum with
  | .error err => pure (some (.errorf "cannot unmarshal cords json: %s" err))
  | .ok jsonCords => do
    Go.forRange (processCordsEntry lowerCase) jsonCords
    pure none

end collector

/-! ## `collector/lines.go` -/

namespace collector

open prometheus

def linesSubsystem : String := "lines"

def linesLabels : List String := ["id", "name"]

def linesStatusLabels : List String := linesLabels ++ ["status_type"]

/-- Go map `linesDesc`. -/
def linesDesc : List (String × Desc) :=
  [("amps", colPromDesc linesSubsystem "amps" "Floating point branch current in hundredth Amps. Available only if branch current sensing is present and value is known." linesLabels),
   ("amps_capacity", colPromDesc linesSubsystem "amps_capacity" "Integer branch current capacity in whole Amps." linesLabels),
   ("state", colPromDesc linesSubsystem "state" "State (1 = On, 0 = Off))." linesLabels),
   ("status", colPromDesc linesSubsystem "status" "Status (1 = Normal, 0 = Not Normal)." linesStatusLabels)]

/-- Element of the Go slice type `linesData`. -/
structure linesEntry where
  ID : String
  Name : String
  Current : Float64
  CurrentCapacity : Float64
  CurrentStatus : String
  CurrentUtilized : Float64
  State : String
  Status : String
deriving DecidableEq

abbrev linesData := List linesEntry

/-- Body of the `range` loop of `processLinesStats`. -/
def processLinesEntry (lowerCase : Char → Char) (data : linesEntry) : Go Unit := do
  let labels := [data.ID, data.Name]

  newGauge (linesDesc.lookup "amps") data.Current labels
  newGauge (linesDesc.lookup "amps_capacity") data.CurrentCapacity labels

  statusMetric lowerCase (linesDesc.lookup "status") data.CurrentStatus "current" labels
  statusMetric lowerCase (linesDesc.lookup "status") data.Status "line" labels

  stateMetric lowerCase (linesDesc.lookup "state") data.State labels

/-- Go `processLinesStats`. -/
def processLinesStats (lowerCase : Char → Char) (unmarshal : Bytes → Except Error linesData)
    (jsonLinesSum : Bytes) : Go (Option Error) :=
  match unmarshal jsonLinesSum with
  | .error err => pure (some (.errorf "cannot unmarshal lines json: %s" err))
  | .ok jsonLiness => do
    Go.forRange (processLinesEntry lowerCase) jsonLiness
    pure none

end collector

/-! ## `collector/ocps.go` -/

namespace collector

open prometheus

def ocpsSubsystem : String := "ocps"

def ocpsLabels : List String := ["id", "name", "type"]

def ocpsStatusLabels : List String := ocpsLabels ++ ["status_type"]

/-- Go map `ocpsDesc`. -/
def ocpsDesc : List (String × Desc) :=
  [("amps", colPromDesc ocpsSubsystem "amps" "Floating point branch current in hundredth Amps. Available only if branch current sensing is present and value is known." ocpsLabels),
   ("amps_capacity", colPromDesc ocpsSubsystem "amps_capacity" "Integer branch current capacity in whole Amps." ocpsLabels),
   ("state", colPromDesc ocpsSubsystem "state" "State (1 = On, 0 = Off))." ocpsLabels),
   ("status", colPromDesc ocpsSubsystem "status" "Status (1 = Normal, 0 = Not Normal)." ocpsStatusLabels)]

/-- Element of the Go slice type `ocpsData`. -/
structure ocpsEntry where
  ID : String
  Name : String
  CurrentCapacity : Float64
  Status : String
  Type_ : String
deriving DecidableEq

abbrev ocpsData := List ocpsEntry

/-- Body of the `range` loop of `processOcpsStats`. -/
def processOcpsEntry (lowerCase : Char → Char) (data : ocpsEntry) : Go Unit := do
  let labels := [data.ID, data.Name, data.Type_]

  newGauge (ocpsDesc.lookup "amps_capacity") data.CurrentCapacity labels

  statusMetric lowerCase (ocpsDesc.lookup "status") data.Status "ocp" labels

/-- Go `processOcpsStats`. -/
def processOcpsStats (lowerCase : Char → Char) (unmarshal : Bytes → Except Error ocpsData)
    (jsonOcpsSum : Bytes) : Go (Option Error) :=
  match unmarshal jsonOcpsSum with
  | .error err => pure (some (.errorf "cannot unmarshal ocps json: %s" err))
  | .ok jsonOcpss => do
    Go.forRange (processOcpsEntry lowerCase) jsonOcpss
    pure none

end collector

/-! ## `collector/outlets.go` -/

namespace collector

open prometheus

def outletsSubsystem : String := "outlets"

def outletsLabels : List String :=
  ["id", "name", "branch_id", "ocp_id", "phase_id", "socket_adapter", "socket_type"]

def outletsStatusLabels : List String := outletsLabels ++ ["status_type"]

/-- Go map `outletsDesc`. -/
def outletsDesc : List (String × Desc) :=
  [("watts", colPromDesc outletsSubsystem "watts" "Integer outlet power in Watts. Available only if outlet power sensing is present and value is known (AC or DC)." outletsLabels),
   ("watts_capacity", colPromDesc outletsSubsystem "watts_capacity" "Integer power capacity in VA for AC products and Watts for DC products." outletsLabels),
   ("voltamps", colPromDesc outletsSubsystem "voltamps" "Integer outlet apparent power in Volt-Amps. Available only if outlet apparent power sensing is present and value is known." outletsLabels),
   ("amps", colPromDesc outletsSubsystem "amps" "Floating point outlet current in hundredth Amps. Available only if outlet current sensing is present and value is known." outletsLabels),
   ("amps_capacity", colPromDesc outletsSubsystem "amps_capacity" "Integer outlet current capacity in whole Amps." outletsLabels),
   ("crest_factor", colPromDesc outletsSubsystem "crest_factor" "Floating point outlet crest factor in tenths. Available only if outlet crest factor sensing is present and value is known." outletsLabels),
   ("kilowatthours", colPromDesc outletsSubsystem "kilowatthours" "Floating point outlet energy in tenth kilowatt-hours (kWh). Available only if energy sensing is present and value is known." outletsLabels),
   ("power_factor", colPromDesc outletsSubsystem "power_factor" "Floating point outlet power factor in hundredths. Available only if AC cord power factor sensing is present and value is known." outletsLabels),
   ("reactance", colPromDesc outletsSubsystem "reactance" "Status of the measured outlet reactance. Available only if outletpower factor sensing present and value is known (0 = Unknown, 1 = Capacitive, 2 = Inductive, 3 = Resistive." outletsLabels),
   ("volts", colPromDesc outletsSubsystem "volts" "Floating point outlet voltage in tenth Volts. Available only if voltage sensing is present and value is known." outletsLabels),
   ("state", colPromDesc outletsSubsystem "state" "State (1 = On, 0 = Off))." outletsLabels),
   ("status", colPromDesc outletsSubsystem "status" "Status (1 = Normal, 0 = Not Normal)." outletsStatusLabels)]

/-- Element of the Go slice type `outletsData`. -/
structure outletsEntry where
  ID : String
  Name : String
  ActivePower : Float64
  ActivePowerStatus : String
  ApparentPower : Float64
  BranchID : String
  ControlState : String
  Current : Float64
  CurrentCapacity : Float64
  CurrentStatus : String
  CurrentUtilized : Float64
  Energy : Float64
  OcpID : String
  PhaseID : String
  PowerCapacity : Float64
  PowerFactorStatus : String
  SocketAdapter : String
  SocketType : String
  State : String
  Status : String
  Voltage : Float64
  CrestFactor : Float64
  PowerFactor : Float64
  Reactance : String
deriving DecidableEq

abbrev outletsData := List outletsEntry

/-- Body of the `range` loop of `processOutletsStats`. -/
def processOutletsEntry (lowerCase : Char → Char) (data : outletsEntry) : Go Unit := do
  let labels := [data.ID, data.Name, data.BranchID, data.OcpID, data.PhaseID, data.SocketAdapter,
    data.SocketType]

  newGauge (outletsDesc.lookup "watts") data.ActivePower labels
  newGauge (outletsDesc.lookup "watts_capacity") data.PowerCapacity labels
  newGauge (outletsDesc.lookup "voltamps") data.ApparentPower labels
  newGauge (outletsDesc.lookup "amps") data.Current labels
  newGauge (outletsDesc.lookup "amps_capacity") data.CurrentCapacity labels
  newGauge (outletsDesc.lookup "crest_factor") data.CrestFactor labels
  newGauge (outletsDesc.lookup "kilowatthours") data.Energy labels
  newGauge (outletsDesc.lookup "power_factor") data.PowerFactor labels
  newGauge (outletsDesc.lookup "volts") data.Voltage labels

  let reactance : Float64 :=
    if strings.ToLower lowerCase data.Reactance = "capacitive" then 1
    else if strings.ToLower lowerCase data.Reactance = "inductive" then 2
    else if strings.ToLower lowerCase data.Reactance = "resistive" then 3
    else 0
  newGauge (outletsDesc.lookup "reactance") reactance labels

  statusMetric lowerCase (outletsDesc.lookup "status") data.ActivePowerStatus "active power" labels
  statusMetric lowerCase (outletsDesc.lookup "status") data.CurrentStatus "current" labels
  statusMetric lowerCase (outletsDesc.lookup "status") data.PowerFactorStatus "power factor" labels
  statusMetric lowerCase (outletsDesc.lookup "status") data.Status "outlet" labels

  stateMetric lowerCase (outletsDesc.lookup "state") data.State labels

/-- Go `processOutletsStats`. -/
def processOutletsStats (lowerCase : Char → Char) (unmarshal : Bytes → Except Error outletsData)
    (jsonOutletsSum : Bytes) : Go (Option Error) :=
  match unmarshal jsonOutletsSum with
  | .error err => pure (some (.errorf "cannot unmarshal outlets json: %s" err))
  | .ok jsonOutlets => do
    Go.forRange (processOutletsEntry lowerCase) jsonOutlets
    pure none

end collector

/-! ## `collector/phases.go` -/

namespace collector

open prometheus

def phasesSubsystem : String := "phases"

def phasesLabels : List String := ["id", "name"]

def phasesStatusLabels : List String := phasesLabels ++ ["status_type"]

/-- Go map `phasesDesc`. -/
def phasesDesc : List (String × Desc) :=
  [("watts", colPromDesc phasesSubsystem "watts" "Integer phase power in Watts. Available only if phase power sensing is present and value is known (AC or DC)." phasesLabels),
   ("voltamps", colPromDesc phasesSubsystem "voltamps" "Integer phase apparent power in Volt-Amps. Available only if phase apparent power sensing is present and value is known." phasesLabels),
   ("amps", colPromDesc phasesSubsystem "amps" "Floating point phase current in hundredth Amps. Available only if phase current sensing is present and value is known." phasesLabels),
   ("crest_factor", colPromDesc phasesSubsystem "crest_factor" "Floating point phase crest factor in tenths. Available only if phase crest factor sensing is present and value is known." phasesLabels),
   ("kilowatthours", colPromDesc phasesSubsystem "kilowatthours" "Floating point phase energy in tenth kilowatt-hours (kWh). Available only if energy sensing is present and value is known." phasesLabels),
   ("nominal_volts", colPromDesc phasesSubsystem "nominal_volts" "Integer phase nominal voltage in Volts. Available only if phase voltage sensing present." phasesLabels),
   ("power_factor", colPromDesc phasesSubsystem "power_factor" "Floating point phase power factor in hundredths. Available only if AC cord power factor sensing is present and value is known." phasesLabels),
   ("reactance", colPromDesc phasesSubsystem "reactance" "Status of the measured phase reactance. Available only if phasepower factor sensing present and value is known (0 = Unknown, 1 = Capacitive, 2 = Inductive, 3 = Resistive." phasesLabels),
   ("volts", colPromDesc phasesSubsystem "volts" "Floating point phase voltage in tenth Volts. Available only if voltage sensing is present and value is known. " phasesLabels),
   ("volts_deviation", colPromDesc phasesSubsystem "volts_deviation" "Floating point phase deviation percentage from nominal voltage in tenths. Available only if phase voltage sensing present." phasesLabels),
   ("state", colPromDesc phasesSubsystem "state" "State (1 = On, 0 = Off))." phasesLabels),
   ("status", colPromDesc phasesSubsystem "status" "Status (1 = Normal, 0 = Not Normal)." phasesStatusLabels)]

/-- Element of the Go slice type `phasesData`. -/
structure phasesEntry where
  ID : String
  Name : String
  ActivePower : Float64
  ApparentPower : Float64
  CrestFactor : Float64
  Current : Float64
  Energy : Float64
  NominalVoltage : Float64
  PowerFactor : Float64
  PowerFactorStatus : String
  Reactance : String
  State : String
  Status : String
  Voltage : Float64
  VoltageStatus : String
  VoltageDeviation : Float64
deriving DecidableEq

abbrev phasesData := List phasesEntry

/-- Body of the `range` loop of `processPhasesStats`. -/
def processPhasesEntry (lowerCase : Char → Char) (data : phasesEntry) : Go Unit := do
  let labels := [data.ID, data.Name]

  newGauge (phasesDesc.lookup "watts") data.ActivePower labels
  newGauge (phasesDesc.lookup "voltamps") data.ApparentPower labels
  newGauge (phasesDesc.lookup "amps") data.Current labels
  newGauge (phasesDesc.lookup "crest_factor") data.CrestFactor labels
  newGauge (phasesDesc.lookup "kilowatthours") data.Energy labels
  newGauge (phasesDesc.lookup "nominal_volts") data.NominalVoltage labels
  newGauge (phasesDesc.lookup "power_factor") data.PowerFactor labels
  newGauge (phasesDesc.lookup "volts") data.Voltage labels
  newGauge (phasesDesc.lookup "volts_deviation") data.VoltageDeviation labels

  reactanceMetric lowerCase (phasesDesc.lookup "reactance") data.Reactance labels

  statusMetric lowerCase (phasesDesc.lookup "status") data.PowerFactorStatus "power factor" labels
  statusMetric lowerCase (phasesDesc.lookup "status") data.VoltageStatus "voltage" labels
  statusMetric lowerCase (phasesDesc.lookup "status") data.Status "phase" labels

  stateMetric lowerCase (phasesDesc.lookup "state") data.State labels

/-- Go `processPhasesStats`. -/
def processPhasesStats (lowerCase : Char → Char) (unmarshal : Bytes → Except Error phasesData)
    (jsonPhasesSum : Bytes) : Go (Option Error) :=
  match unmarshal jsonPhasesSum with
  | .error err => pure (some (.errorf "cannot unmarshal phases json: %s" err))
  | .ok jsonPhases => do
    Go.forRange (processPhasesEntry lowerCase) jsonPhases
    pure none

end collector

/-! ## `collector/units.go` -/

namespace collector

open prometheus

def unitsSubsystem : String := "units"

def unitsLabels : List String := ["id", "name", "type"]

def unitsStatusLabels : List String := unitsLabels ++ ["status_type"]

/-- Go map `unitsDesc`. -/
def unitsDesc : List (String × Desc) :=
  [("display_orientation", colPromDesc unitsSubsystem "display_orientation" "0 = Unknown, 1 = Auto (inverted), 2 = Auto (Normal), 3 = Inverted, 4 = Normal." unitsLabels),
   ("unit_sequence", colPromDesc unitsSubsystem "unit_sequence" "0 = Unknown, 1 = Normal, 2 = Reversed." unitsLabels),
   ("status", colPromDesc unitsSubsystem "status" "Status (1 = Normal, 0 = Not Normal)." unitsStatusLabels)]

/-- Element of the Go slice type `unitsData`. -/
structure unitsEntry where
  ID : String
  Name : String
  DisplayOrientation : String
  OutletSequence : String
  Status : String
  Type_ : String
deriving DecidableEq

abbrev unitsData := List unitsEntry

/-- Body of the `range` loop of `processUnitsStats`. -/
def processUnitsEntry (lowerCase : Char → Char) (data : unitsEntry) : Go Unit := do
  let labels := [data.ID, data.Name, data.Type_]

  let displayOrientation : Float64 :=
    if strings.ToLower lowerCase data.DisplayOrientation = "auto (inverted)" then 1
    else if strings.ToLower lowerCase data.DisplayOrientation = "auto (normal)" then 2
    else if strings.ToLower lowerCase data.DisplayOrientation = "inverted" then 3
    else if strings.ToLower lowerCase data.DisplayOrientation = "normal" then 4
    else 0
  newGauge (unitsDesc.lookup "display_orientation") displayOrientation labels

  let unitSequence : Float64 :=
    if strings.ToLower lowerCase data.DisplayOrientation = "normal" then 1
    else if strings.ToLower lowerCase data.DisplayOrientation = "reversed" then 2
    else 0
  newGauge (unitsDesc.lookup "unit_sequence") unitSequence labels

  statusMetric lowerCase (unitsDesc.lookup "status") data.Status "unit" labels

/-- Go `processUnitsStats`. -/
def processUnitsStats (lowerCase : Char → Char) (unmarshal : Bytes → Except Error unitsData)
    (jsonUnitsSum : Bytes) : Go (Option Error) :=
  match unmarshal jsonUnitsSum with
  | .error err => pure (some (.errorf "cannot unmarshal units json: %s" err))
  | .ok jsonUnits => do
    Go.forRange (processUnitsEntry lowerCase) jsonUnits
    pure none

end collector

/-! ## `encoding/base64` and `net/http` -/

namespace base64

/-- The standard base64 alphabet. -/
def encodeStd : List Char :=
  "ABCDEFGHIJKLMNOPQRSTUVWXYZabcdefghijklmnopqrstuvwxyz0123456789+/".data

/-- Character of the standard alphabet for a 6-bit value. -/
def digit (n : Nat) : Char :=
  encodeStd.getD (n % 64) 'A'

/-- Encoding of a list of byte values, three bytes at a time, with `=` padding. -/
def encodeNat : List Nat → List Char
  | [] => []
  | [a] => [digit (a / 4), digit (a % 4 * 16), '=', '=']
  | [a, b] => [digit (a / 4), digit (a % 4 * 16 + b / 16), digit (b % 16 * 4), '=']
  | a :: b :: c :: rest =>
    digit (a / 4) :: digit (a % 4 * 16 + b / 16) :: digit (b % 16 * 4 + c / 64) :: digit (c % 64)
      :: encodeNat rest

/-- Go `base64.StdEncoding.EncodeToString([]byte(s))`. -/
def EncodeToString (s : String) : String :=
  ⟨encodeNat ((s.data.flatMap String.utf8EncodeChar).map UInt8.toNat)⟩

end base64

namespace http

/-- The fields of `http.Request` that the exporter sets. -/
structure Request where
  Method : String
  URL : String
  Header : List (String × String)
deriving DecidableEq, Repr

/-- The fields of `http.Response` that the exporter reads; `Body` is the result
of `ioutil.ReadAll(resp.Body)`. -/
structure Response where
  StatusCode : Int
  Body : Except Error Bytes

/-- What lies outside the program: the validation done by `http.NewRequest`
and the round trip to the device done by `(*http.Client).Do`. -/
structure Client where
  requestError : String → String → Option Error
  Do : Request → Except Error Response

/-- Go `http.NewRequest(method, url, nil)`. -/
def NewRequest (client : Client) (method url : String) : Except Error Request :=
  match client.requestError method url with
  | some err => .error err
  | none => .ok { Method := method, URL := url, Header := [] }

/-- Go `req.Header.Add(key, value)`. -/
def Request.addHeader (req : Request) (key value : String) : Request :=
  { req with Header := req.Header ++ [(key, value)] }

end http

/-! ## `collector/collector.go`: fetch, collectors and the exporter -/

namespace collector

open prometheus

def servertechLabels : List String := ["collector"]

/-- Go map `servertechDesc`. -/
def servertechDesc : List (String × Desc) :=
  [("scrapesTotal", promDesc "scrapes_total" "Total number of times servertech_exporter has been scraped." []),
   ("scrapeErrTotal", promDesc "scrape_errors_total" "Total number of errors from a collector." servertechLabels),
   ("scrapeDuration", promDesc "scrape_duration_seconds" "Time it took for a collector's scrape to complete." servertechLabels),
   ("collectorUp", promDesc "collector_up" "Whether the collector's last scrape was successful (1 = successful, 0 = unsuccessful)." servertechLabels)]

/-- The package-level `float64` counters: `servertechTotalScrapeCount` and the
`total<Category>Errors` variable of each collector file, each given by the
natural number it holds. -/
structure Globals where
  servertechTotalScrapeCount : Nat
  totalBranchesErrors : Nat
  totalCordsErrors : Nat
  totalLinesErrors : Nat
  totalOcpsErrors : Nat
  totalOutletsErrors : Nat
  totalPhasesErrors : Nat
  totalSystemErrors : Nat
  totalUnitsErrors : Nat
deriving DecidableEq, Repr

/-- Go `getServerTechJSON`. -/
def getServerTechJSON (client : http.Client) (target user pass path : String) :
    Except Error Bytes :=
  match http.NewRequest client "GET" ("https://" ++ target ++ "/jaws/monitor/" ++ path) with
  | .error err => .error (.errorf "failed to create http request: %v" err)
  | .ok req =>
    let basicAuth := base64.EncodeToString (user ++ ":" ++ pass)
    let req := req.addHeader "Authorization" ("Basic " ++ basicAuth)
    match client.Do req with
    | .error err => .error (.errorf "failed to perform http request: %v" err)
    | .ok resp =>
      if resp.StatusCode ≠ 200 then
        .error (.errorfInt "incorrect status code received from device: %d" resp.StatusCode)
      else
        match resp.Body with
        | .error err => .error (.errorf "failed to read body of request from device: %v" err)
        | .ok body => .ok body

/-- Go interface `Collector`: the method `Get`, which reads and writes the
package-level counters and returns `(float64, error)`. -/
abbrev Collector := String → String → String → Globals → Go (Globals × Float64 × Option Error)

/-- Go `(*BranchesCollector).Get`. -/
def BranchesCollector.Get (lowerCase : Char → Char)
    (unmarshal : Bytes → Except Error branchesData) (client : http.Client) : Collector :=
  fun target user pass g =>
  match getServerTechJSON client target user pass "branches" with
  | .error err =>
    let g := { g with totalBranchesErrors := float64Inc g.totalBranchesErrors }
    pure (g, (g.totalBranchesErrors : Float64), some (.errorf "cannot get branchess: %s" err))
  | .ok jsonBranches => do
    match ← processBranchesStats lowerCase unmarshal jsonBranches with
    | some err =>
      let g := { g with totalBranchesErrors := float64Inc g.totalBranchesErrors }
      pure (g, (g.totalBranchesErrors : Float64), some err)
    | none => pure (g, (g.totalBranchesErrors : Float64), none)

/-- Go `(*CordsCollector).Get`. -/
def CordsCollector.Get (lowerCase : Char → Char)
    (unmarshal : Bytes → Except Error cordsData) (client : http.Client) : Collector :=
  fun target user pass g =>
  match getServerTechJSON client target user pass "cords" with
  | .error err =>
    let g := { g with totalCordsErrors := float64Inc g.totalCordsErrors }
    pure (g, (g.totalCordsErrors : Float64), some (.errorf "cannot get cordss: %s" err))
  | .ok jsonCords => do
    match ← processCordsStats lowerCase unmarshal jsonCords with
    | some err =>
      let g := { g with totalCordsErrors := float64Inc g.totalCordsErrors }
      pure (g, (g.totalCordsErrors : Float64), some err)
    | none => pure (g, (g.totalCordsErrors : Float64), none)

/-- Go `(*LinesCollector).Get`. -/
def LinesCollector.Get (lowerCase : Char → Char)
    (unmarshal : Bytes → Except Error linesData) (client : http.Client) : Collector :=
  fun target user pass g =>
  match getServerTechJSON client target user pass "lines" with
  | .error err =>
    let g := { g with totalLinesErrors := float64Inc g.totalLinesErrors }
    pure (g, (g.totalLinesErrors : Float64), some (.errorf "cannot get liness: %s" err))
  | .ok jsonLines => do
    match ← processLinesStats lowerCase unmarshal jsonLines with
    | some err =>
      let g := { g with totalLinesErrors := float64Inc g.totalLinesErrors }
      pure (g, (g.totalLinesErrors : Float64), some err)
    | none => pure (g, (g.totalLinesErrors : Float64), none)

/-- Go `(*OcpsCollector).Get`. -/
def OcpsCollector.Get (lowerCase : Char → Char)
    (unmarshal : Bytes → Except Error ocpsData) (client : http.Client) : Collector :=
  fun target user pass g =>
  match getServerTechJSON client target user pass "ocps" with
  | .error err =>
    let g := { g with totalOcpsErrors := float64Inc g.totalOcpsErrors }
    pure (g, (g.totalOcpsErrors : Float64), some (.errorf "cannot get ocpss: %s" err))
  | .ok jsonOcps => do
    match ← processOcpsStats lowerCase unmarshal jsonOcps with
    | some err =>
      let g := { g with totalOcpsErrors := float64Inc g.totalOcpsErrors }
      pure (g, (g.totalOcpsErrors : Float64), some err)
    | none => pure (g, (g.totalOcpsErrors : Float64), none)

/-- Go `(*OutletsCollector).Get`. -/
def OutletsCollector.Get (lowerCase : Char → Char)
    (unmarshal : Bytes → Except Error outletsData) (client : http.Client) : Collector :=
  fun target user pass g =>
  match getServerTechJSON client target user pass "outlets" with
  | .error err =>
    let g := { g with totalOutletsErrors := float64Inc g.totalOutletsErrors }
    pure (g, (g.totalOutletsErrors : Float64), some (.errorf "cannot get outletss: %s" err))
  | .ok jsonOutlets => do
    match ← processOutletsStats lowerCase unmarshal jsonOutlets with
    | some err =>
      let g := { g with totalOutletsErrors := float64Inc g.totalOutletsErrors }
      pure (g, (g.totalOutletsErrors : Float64), some err)
    | none => pure (g, (g.totalOutletsErrors : Float64), none)

/-- Go `(*PhasesCollector).Get`. -/
def PhasesCollector.Get (lowerCase : Char → Char)
    (unmarshal : Bytes → Except Error phasesData) (client : http.Client) : Collector :=
  fun target user pass g =>
  match getServerTechJSON client target user pass "phases" with
  | .error err =>
    let g := { g with totalPhasesErrors := float64Inc g.totalPhasesErrors }
    pure (g, (g.totalPhasesErrors : Float64), some (.errorf "cannot get phasess: %s" err))
  | .ok jsonPhases => do
    match ← processPhasesStats lowerCase unmarshal jsonPhases with
    | some err =>
      let g := { g with totalPhasesErrors := float64Inc g.totalPhasesErrors }
      pure (g, (g.totalPhasesErrors : Float64), some err)
    | none => pure (g, (g.totalPhasesErrors : Float64), none)

/-- Go `(*SystemCollector).Get`. -/
def SystemCollector.Get (lowerCase : Char → Char)
    (unmarshal : Bytes → Except Error systemData) (client : http.Client) : Collector :=
  fun target user pass g =>
  match getServerTechJSON client target user pass "system" with
  | .error err =>
    let g := { g with totalSystemErrors := float64Inc g.totalSystemErrors }
    pure (g, (g.totalSystemErrors : Float64), some (.errorf "cannot get systems: %s" err))
  | .ok jsonSystem => do
    match ← processSystemStats lowerCase unmarshal jsonSystem with
    | some err =>
      let g := { g with totalSystemErrors := float64Inc g.totalSystemErrors }
      pure (g, (g.totalSystemErrors : Float64), some err)
    | none => pure (g, (g.totalSystemErrors : Float64), none)

/-- Go `(*UnitsCollector).Get`. -/
def UnitsCollector.Get (lowerCase : Char → Char)
    (unmarshal : Bytes → Except Error unitsData) (client : http.Client) : Collector :=
  fun target user pass g =>
  match getServerTechJSON client target user pass "units" with
  | .error err =>
    let g := { g with totalUnitsErrors := float64Inc g.totalUnitsErrors }
    pure (g, (g.totalUnitsErrors : Float64), some (.errorf "cannot get unitss: %s" err))
  | .ok jsonUnits => do
    match ← processUnitsStats lowerCase unmarshal jsonUnits with
    | some err =>
      let g := { g with totalUnitsErrors := float64Inc g.totalUnitsErrors }
      pure (g, (g.totalUnitsErrors : Float64), some err)
    | none => pure (g, (g.totalUnitsErrors : Float64), none)

/-- Go struct `Exporter`.  The map `Collectors` is given as the list of its
entries in the order in which `Collect` starts them. -/
structure Exporter where
  Collectors : List (String × Collector)
  Target : String
  User : String
  Pass : String

/-- Go `(*Exporter).runCollector`.  `elapsed` is the number of seconds that
`time.Since(startTime)` reports after `Get` has returned. -/
def Exporter.runCollector (e : Exporter) (elapsed : Float64) (name : String)
    (collector : Collector) (g : Globals) : Go Globals := do
  let (g, totalErrors, err) ← collector e.Target e.User e.Pass g

  Go.send (← Go.must (MustNewConstMetric (servertechDesc.lookup "scrapeDuration") .GaugeValue
    elapsed [name]))
  Go.send (← Go.must (MustNewConstMetric (servertechDesc.lookup "scrapeErrTotal") .GaugeValue
    totalErrors [name]))

  match err with
  | some _ =>
    Go.send (← Go.must (MustNewConstMetric (servertechDesc.lookup "collectorUp") .GaugeValue
      0 [name]))
  | none =>
    Go.send (← Go.must (MustNewConstMetric (servertechDesc.lookup "collectorUp") .GaugeValue
      1 [name]))
  pure g

/-- The collectors of `Collect`, run to completion one after the other. -/
def Exporter.runCollectors (e : Exporter) (elapsed : String → Float64) :
    List (String × Collector) → Globals → Go Globals
  | [], g => pure g
  | (name, collector) :: rest, g => do
    let g ← e.runCollector (elapsed name) name collector g
    Exporter.runCollectors e elapsed rest g

/-- Go `(*Exporter).Collect`, for the schedule in which the goroutines started
for the collectors run one after the other in the order of `e.Collectors`;
`elapsed` gives the duration measured for each collector. -/
def Exporter.Collect (e : Exporter) (elapsed : String → Float64) (g : Globals) : Go Globals := do
  let g := { g with servertechTotalScrapeCount := float64Inc g.servertechTotalScrapeCount }
  Go.send (← Go.must (MustNewConstMetric (servertechDesc.lookup "scrapesTotal") .CounterValue
    (g.servertechTotalScrapeCount : Float64) []))

  e.runCollectors elapsed e.Collectors g

end collector

/-! ## Notions used to state facts about the matcher -/

namespace regexp

/-- The literal `lit` starts at no position of `l`. -/
def NoOcc (lit l : List Char) : Prop :=
  ∀ t, t <:+ l → matchLiteral lit t = none

/-- Decimal digit, as tested by `strconv.parseUintLoop`. -/
def IsDigit (c : Char) : Prop :=
  '0'.toNat ≤ c.toNat ∧ c.toNat ≤ '9'.toNat

instance (c : Char) : Decidable (IsDigit c) := by
  unfold IsDigit
  infer_instance

/-- The text `D days H hours M minutes S seconds` as a list of characters. -/
def uptimeText (D H M S : List Char) : List Char :=
  D ++ ' ' :: 'd' :: 'a' :: 'y' :: 's' :: ' ' ::
    (H ++ ' ' :: 'h' :: 'o' :: 'u' :: 'r' :: 's' :: ' ' ::
      (M ++ ' ' :: 'm' :: 'i' :: 'n' :: 'u' :: 't' :: 'e' :: 's' :: ' ' ::
        (S ++ [' ', 's', 'e', 'c', 'o', 'n', 'd', 's'])))

/-- The compiled uptime pattern of `processSystemStats`. -/
def uptimeRegexp : Regexp := { expr := uptimeExpr, numSubexp := 4 }

end regexp

namespace strconv

/-- Value of a string of decimal digits read after the accumulator `acc`. -/
def digitsValue (acc : Nat) (ds : List Char) : Nat :=
  ds.foldl (fun a c => a * 10 + (c.toNat - '0'.toNat)) acc

end strconv

/-! ## Expected emissions, used to state the theorems -/

namespace collector

open prometheus

/-- Gauge value of the status encoding. -/
def statusValue (lowerCase : Char → Char) (metric : String) : Float64 :=
  if strings.ToLower lowerCase metric = "normal" then 1 else 0

/-- Descriptor stored under `key` in a descriptor table built by `colPromDesc`. -/
def descOf (table : List (String × Desc)) (key : String) : Desc :=
  (table.lookup key).getD (NewDesc "" "" [])

/-- The status gauge of the system category for one sub-entity kind. -/
def systemStatus (lowerCase : Char → Char) (data : systemData) (metric statusType : String) :
    Metric :=
  { desc := descOf systemDesc "status", valType := .GaugeValue,
    value := statusValue lowerCase metric,
    labelValues := [data.Firmware, data.NicSerialNumber, statusType] }

/-- The eight metrics `processSystemStats` sends before it looks at the uptime. -/
def systemHead (lowerCase : Char → Char) (data : systemData) : List Metric :=
  [{ desc := descOf systemDesc "active_users", valType := .GaugeValue, value := data.ActiveUsers,
     labelValues := [data.Firmware, data.NicSerialNumber] },
   systemStatus lowerCase data data.StatusBranches "branches",
   systemStatus lowerCase data data.StatusCords "cords",
   systemStatus lowerCase data data.StatusLines "lines",
   systemStatus lowerCase data data.StatusOcps "ocps",
   systemStatus lowerCase data data.StatusOutlets "outlets",
   systemStatus lowerCase data data.StatusPhases "phases",
   systemStatus lowerCase data data.StatusUnits "units"]

/-- The uptime counter sent by `processSystemStats`. -/
def systemUptime (data : systemData) (value : Float64) : Metric :=
  { desc := descOf systemDesc "uptime_seconds", valType := .CounterValue, value := value,
    labelValues := [data.Firmware, data.NicSerialNumber] }

/-- Gauge with the given descriptor, value and label values. -/
def gauge (desc : Desc) (value : Float64) (labels : List String) : Metric :=
  { desc := desc, valType := .GaugeValue, value := value, labelValues := labels }

/-- Gauge value of the state encoding. -/
def stateValue (lowerCase : Char → Char) (stateStr : String) : Float64 :=
  if strings.ToLower lowerCase stateStr = "on" then 1 else 0

/-- The five metrics `processBranchesStats` sends for one branch. -/
def branchesMetrics (lowerCase : Char → Char) (data : branchesEntry) : List Metric :=
  [gauge (descOf branchesDesc "amps") data.Current [data.ID, data.Name, data.OcpID, data.PhaseID],
   gauge (descOf branchesDesc "amps_capacity") data.CurrentCapacity
     [data.ID, data.Name, data.OcpID, data.PhaseID],
   gauge (descOf branchesDesc "status") (statusValue lowerCase data.CurrentStatus)
     [data.ID, data.Name, data.OcpID, data.PhaseID, "current"],
   gauge (descOf branchesDesc "status") (statusValue lowerCase data.Status)
     [data.ID, data.Name, data.OcpID, data.PhaseID, "branche"],
   gauge (descOf branchesDesc "state") (stateValue lowerCase data.State)
     [data.ID, data.Name, data.OcpID, data.PhaseID]]

/-- The display orientation vocabulary of the specification. -/
def displayOrientationVocabulary : List (String × Float64) :=
  [("auto (inverted)", 1), ("auto (normal)", 2), ("inverted", 3), ("normal", 4)]

/-- Code of a display orientation string according to the specification: the
entry of the vocabulary for its lowercase form, 0 for a string outside it. -/
def displayOrientationCode (lowerCase : Char → Char) (s : String) : Float64 :=
  (displayOrientationVocabulary.lookup (strings.ToLower lowerCase s)).getD 0

/-- The display orientation gauge of one unit, as the specification describes it. -/
def displayOrientationGauge (lowerCase : Char → Char) (data : unitsEntry) : Metric :=
  gauge (descOf unitsDesc "display_orientation")
    (displayOrientationCode lowerCase data.DisplayOrientation) [data.ID, data.Name, data.Type_]

/-- The unit sequence gauge `processUnitsStats` sends for one unit. -/
def unitSequenceGauge (lowerCase : Char → Char) (data : unitsEntry) : Metric :=
  gauge (descOf unitsDesc "unit_sequence")
    (if strings.ToLower lowerCase data.DisplayOrientation = "normal" then 1
     else if strings.ToLower lowerCase data.DisplayOrientation = "reversed" then 2 else 0)
    [data.ID, data.Name, data.Type_]

/-- The three metrics `processUnitsStats` sends for one unit. -/
def unitsMetrics (lowerCase : Char → Char) (data : unitsEntry) : List Metric :=
  [displayOrientationGauge lowerCase data, unitSequenceGauge lowerCase data,
   gauge (descOf unitsDesc "status") (statusValue lowerCase data.Status)
     [data.ID, data.Name, data.Type_, "unit"]]

/-- Gauge value of the reactance encoding. -/
def reactanceValue (lowerCase : Char → Char) (reactanceStr : String) : Float64 :=
  if strings.ToLower lowerCase reactanceStr = "capacitive" then 1
  else if strings.ToLower lowerCase reactanceStr = "inductive" then 2
  else if strings.ToLower lowerCase reactanceStr = "resistive" then 3
  else 0

/-- The thirteen metrics `processCordsStats` sends for one cord. -/
def cordsMetrics (lowerCase : Char → Char) (data : cordsEntry) : List Metric :=
  [gauge (descOf cordsDesc "watts") data.ActivePower [data.ID, data.Name, data.PlugType],
   gauge (descOf cordsDesc "watts_capacity") data.PowerCapacity [data.ID, data.Name, data.PlugType],
   gauge (descOf cordsDesc "voltamps") data.ApparentPower [data.ID, data.Name, data.PlugType],
   gauge (descOf cordsDesc "kilowatthours") data.Energy [data.ID, data.Name, data.PlugType],
   gauge (descOf cordsDesc "hertz") data.Frequency [data.ID, data.Name, data.PlugType],
   gauge (descOf cordsDesc "three_phase_imbalance") data.ThreePhaseImbalance
     [data.ID, data.Name, data.PlugType],
   gauge (descOf cordsDesc "power_factor") data.PowerFactor [data.ID, data.Name, data.PlugType],
   gauge (descOf cordsDesc "status") (statusValue lowerCase data.ActivePowerStatus)
     [data.ID, data.Name, data.PlugType, "active power"],
   gauge (descOf cordsDesc "status") (statusValue lowerCase data.ApparentPowerStatus)
     [data.ID, data.Name, data.PlugType, "apparent power"],
   gauge (descOf cordsDesc "status") (statusValue lowerCase data.PowerFactorStatus)
     [data.ID, data.Name, data.PlugType, "power factor"],
   gauge (descOf cordsDesc "status") (statusValue lowerCase data.ThreePhaseImbalanceStatus)
     [data.ID, data.Name, data.PlugType, "three phase imbalance"],
   gauge (descOf cordsDesc "status") (statusValue lowerCase data.Status)
     [data.ID, data.Name, data.PlugType, "cord"],
   gauge (descOf cordsDesc "state") (stateValue lowerCase data.State)
     [data.ID, data.Name, data.PlugType]]

/-- The five metrics `processLinesStats` sends for one line. -/
def linesMetrics (lowerCase : Char → Char) (data : linesEntry) : List Metric :=
  [gauge (descOf linesDesc "amps") data.Current [data.ID, data.Name],
   gauge (descOf linesDesc "amps_capacity") data.CurrentCapacity [data.ID, data.Name],
   gauge (descOf linesDesc "status") (statusValue lowerCase data.CurrentStatus)
     [data.ID, data.Name, "current"],
   gauge (descOf linesDesc "status") (statusValue lowerCase data.Status)
     [data.ID, data.Name, "line"],
   gauge (descOf linesDesc "state") (stateValue lowerCase data.State) [data.ID, data.Name]]

/-- The two metrics `processOcpsStats` sends for one over-current protector. -/
def ocpsMetrics (lowerCase : Char → Char) (data : ocpsEntry) : List Metric :=
  [gauge (descOf ocpsDesc "amps_capacity") data.CurrentCapacity [data.ID, data.Name, data.Type_],
   gauge (descOf ocpsDesc "status") (statusValue lowerCase data.Status)
     [data.ID, data.Name, data.Type_, "ocp"]]

/-- Label values of an outlet. -/
def outletLabels (data : outletsEntry) : List String :=
  [data.ID, data.Name, data.BranchID, data.OcpID, data.PhaseID, data.SocketAdapter,
    data.SocketType]

/-- The fifteen metrics `processOutletsStats` sends for one outlet. -/
def outletsMetrics (lowerCase : Char → Char) (data : outletsEntry) : List Metric :=
  [gauge (descOf outletsDesc "watts") data.ActivePower (outletLabels data),
   gauge (descOf outletsDesc "watts_capacity") data.PowerCapacity (outletLabels data),
   gauge (descOf outletsDesc "voltamps") data.ApparentPower (outletLabels data),
   gauge (descOf outletsDesc "amps") data.Current (outletLabels data),
   gauge (descOf outletsDesc "amps_capacity") data.CurrentCapacity (outletLabels data),
   gauge (descOf outletsDesc "crest_factor") data.CrestFactor (outletLabels data),
   gauge (descOf outletsDesc "kilowatthours") data.Energy (outletLabels data),
   gauge (descOf outletsDesc "power_factor") data.PowerFactor (outletLabels data),
   gauge (descOf outletsDesc "volts") data.Voltage (outletLabels data),
   gauge (descOf outletsDesc "reactance") (reactanceValue lowerCase data.Reactance)
     (outletLabels data),
   gauge (descOf outletsDesc "status") (statusValue lowerCase data.ActivePowerStatus)
     (outletLabels data ++ ["active power"]),
   gauge (descOf outletsDesc "status") (statusValue lowerCase data.CurrentStatus)
     (outletLabels data ++ ["current"]),
   gauge (descOf outletsDesc "status") (statusValue lowerCase data.PowerFactorStatus)
     (outletLabels data ++ ["power factor"]),
   gauge (descOf outletsDesc "status") (statusValue lowerCase data.Status)
     (outletLabels data ++ ["outlet"]),
   gauge (descOf outletsDesc "state") (stateValue lowerCase data.State) (outletLabels data)]

/-- The fourteen metrics `processPhasesStats` sends for one phase. -/
def phasesMetrics (lowerCase : Char → Char) (data : phasesEntry) : List Metric :=
  [gauge (descOf phasesDesc "watts") data.ActivePower [data.ID, data.Name],
   gauge (descOf phasesDesc "voltamps") data.ApparentPower [data.ID, data.Name],
   gauge (descOf phasesDesc "amps") data.Current [data.ID, data.Name],
   gauge (descOf phasesDesc "crest_factor") data.CrestFactor [data.ID, data.Name],
   gauge (descOf phasesDesc "kilowatthours") data.Energy [data.ID, data.Name],
   gauge (descOf phasesDesc "nominal_volts") data.NominalVoltage [data.ID, data.Name],
   gauge (descOf phasesDesc "power_factor") data.PowerFactor [data.ID, data.Name],
   gauge (descOf phasesDesc "volts") data.Voltage [data.ID, data.Name],
   gauge (descOf phasesDesc "volts_deviation") data.VoltageDeviation [data.ID, data.Name],
   gauge (descOf phasesDesc "reactance") (reactanceValue lowerCase data.Reactance)
     [data.ID, data.Name],
   gauge (descOf phasesDesc "status") (statusValue lowerCase data.PowerFactorStatus)
     [data.ID, data.Name, "power factor"],
   gauge (descOf phasesDesc "status") (statusValue lowerCase data.VoltageStatus)
     [data.ID, data.Name, "voltage"],
   gauge (descOf phasesDesc "status") (statusValue lowerCase data.Status)
     [data.ID, data.Name, "phase"],
   gauge (descOf phasesDesc "state") (stateValue lowerCase data.State) [data.ID, data.Name]]

/-- Go zero value of an element of `branchesData`. -/
def branchesEntry.zero : branchesEntry :=
  { ID := "", Name := "", Current := 0, CurrentCapacity := 0, CurrentStatus := "",
    CurrentUtilized := 0, OcpID := "", PhaseID := "", State := "", Status := "" }

/-- Go zero value of an element of `cordsData`. -/
def cordsEntry.zero : cordsEntry :=
  { ID := "", Name := "", ActivePower := 0, ActivePowerStatus := "", ApparentPower := 0,
    ApparentPowerStatus := "", Energy := 0, Frequency := 0, PowerCapacity := 0, PowerFactor := 0,
    PowerFactorStatus := "", PowerUtilized := 0, PlugType := "", State := "", Status := "",
    ThreePhaseImbalance := 0, ThreePhaseImbalanceStatus := "" }

/-- Go zero value of an element of `linesData`. -/
def linesEntry.zero : linesEntry :=
  { ID := "", Name := "", Current := 0, CurrentCapacity := 0, CurrentStatus := "",
    CurrentUtilized := 0, State := "", Status := "" }

/-- Go zero value of an element of `ocpsData`. -/
def ocpsEntry.zero : ocpsEntry :=
  { ID := "", Name := "", CurrentCapacity := 0, Status := "", Type_ := "" }

/-- Go zero value of an element of `outletsData`. -/
def outletsEntry.zero : outletsEntry :=
  { ID := "", Name := "", ActivePower := 0, ActivePowerStatus := "", ApparentPower := 0,
    BranchID := "", ControlState := "", Current := 0, CurrentCapacity := 0, CurrentStatus := "",
    CurrentUtilized := 0, Energy := 0, OcpID := "", PhaseID := "", PowerCapacity := 0,
    PowerFactorStatus := "", SocketAdapter := "", SocketType := "", State := "", Status := "",
    Voltage := 0, CrestFactor := 0, PowerFactor := 0, Reactance := "" }

/-- Go zero value of an element of `phasesData`. -/
def phasesEntry.zero : phasesEntry :=
  { ID := "", Name := "", ActivePower := 0, ApparentPower := 0, CrestFactor := 0, Current := 0,
    Energy := 0, NominalVoltage := 0, PowerFactor := 0, PowerFactorStatus := "", Reactance := "",
    State := "", Status := "", Voltage := 0, VoltageStatus := "", VoltageDeviation := 0 }

/-- Go zero value of an element of `unitsData`. -/
def unitsEntry.zero : unitsEntry :=
  { ID := "", Name := "", DisplayOrientation := "", OutletSequence := "", Status := "",
    Type_ := "" }

/-- Go zero value of `systemData`: what `{}` decodes to. -/
def systemData.zero : systemData :=
  { ActiveUsers := 0, Firmware := "", NicSerialNumber := "", StatusBranches := "",
    StatusCords := "", StatusLines := "", StatusOcps := "", StatusOutlets := "",
    StatusPhases := "", StatusUnits := "", Uptime := "" }

/-- The eight data categories. -/
inductive Category
  | branches
  | cords
  | lines
  | ocps
  | outlets
  | phases
  | system
  | units
deriving DecidableEq, Repr

/-- Path under `/jaws/monitor/` that the category's `Get` fetches. -/
def Category.path : Category → String
  | .branches => "branches"
  | .cords => "cords"
  | .lines => "lines"
  | .ocps => "ocps"
  | .outlets => "outlets"
  | .phases => "phases"
  | .system => "system"
  | .units => "units"

/-- Format of the error that the category's `Get` returns for a failed fetch. -/
def Category.cannotGet : Category → String
  | .branches => "cannot get branchess: %s"
  | .cords => "cannot get cordss: %s"
  | .lines => "cannot get liness: %s"
  | .ocps => "cannot get ocpss: %s"
  | .outlets => "cannot get outletss: %s"
  | .phases => "cannot get phasess: %s"
  | .system => "cannot get systems: %s"
  | .units => "cannot get unitss: %s"

/-- The cumulative error counter of a category. -/
def Globals.errors (g : Globals) : Category → Nat
  | .branches => g.totalBranchesErrors
  | .cords => g.totalCordsErrors
  | .lines => g.totalLinesErrors
  | .ocps => g.totalOcpsErrors
  | .outlets => g.totalOutletsErrors
  | .phases => g.totalPhasesErrors
  | .system => g.totalSystemErrors
  | .units => g.totalUnitsErrors

/-- The counters after `total<Category>Errors++`. -/
def Globals.bump (g : Globals) : Category → Globals
  | .branches => { g with totalBranchesErrors := float64Inc g.totalBranchesErrors }
  | .cords => { g with totalCordsErrors := float64Inc g.totalCordsErrors }
  | .lines => { g with totalLinesErrors := float64Inc g.totalLinesErrors }
  | .ocps => { g with totalOcpsErrors := float64Inc g.totalOcpsErrors }
  | .outlets => { g with totalOutletsErrors := float64Inc g.totalOutletsErrors }
  | .phases => { g with totalPhasesErrors := float64Inc g.totalPhasesErrors }
  | .system => { g with totalSystemErrors := float64Inc g.totalSystemErrors }
  | .units => { g with totalUnitsErrors := float64Inc g.totalUnitsErrors }

/-- The counters of a process that has not been scraped yet. -/
def Globals.init : Globals :=
  { servertechTotalScrapeCount := 0, totalBranchesErrors := 0, totalCordsErrors := 0,
    totalLinesErrors := 0, totalOcpsErrors := 0, totalOutletsErrors := 0, totalPhasesErrors := 0,
    totalSystemErrors := 0, totalUnitsErrors := 0 }

/-- The instances of `json.Unmarshal` at the eight destination types. -/
structure Unmarshal where
  branches : Bytes → Except Error branchesData
  cords : Bytes → Except Error cordsData
  lines : Bytes → Except Error linesData
  ocps : Bytes → Except Error ocpsData
  outlets : Bytes → Except Error outletsData
  phases : Bytes → Except Error phasesData
  system : Bytes → Except Error systemData
  units : Bytes → Except Error unitsData

/-- What a scrape meets outside the program: the case table, the JSON decoder
and the device behind the HTTP client. -/
structure World where
  lowerCase : Char → Char
  unmarshal : Unmarshal
  client : http.Client

/-- The mapper of a category. -/
def World.process (w : World) : Category → Bytes → Go (Option Error)
  | .branches => processBranchesStats w.lowerCase w.unmarshal.branches
  | .cords => processCordsStats w.lowerCase w.unmarshal.cords
  | .lines => processLinesStats w.lowerCase w.unmarshal.lines
  | .ocps => processOcpsStats w.lowerCase w.unmarshal.ocps
  | .outlets => processOutletsStats w.lowerCase w.unmarshal.outlets
  | .phases => processPhasesStats w.lowerCase w.unmarshal.phases
  | .system => processSystemStats w.lowerCase w.unmarshal.system
  | .units => processUnitsStats w.lowerCase w.unmarshal.units

/-- The method `Get` of the collector of a category. -/
def World.Get (w : World) : Category → Collector
  | .branches => BranchesCollector.Get w.lowerCase w.unmarshal.branches w.client
  | .cords => CordsCollector.Get w.lowerCase w.unmarshal.cords w.client
  | .lines => LinesCollector.Get w.lowerCase w.unmarshal.lines w.client
  | .ocps => OcpsCollector.Get w.lowerCase w.unmarshal.ocps w.client
  | .outlets => OutletsCollector.Get w.lowerCase w.unmarshal.outlets w.client
  | .phases => PhasesCollector.Get w.lowerCase w.unmarshal.phases w.client
  | .system => SystemCollector.Get w.lowerCase w.unmarshal.system w.client
  | .units => UnitsCollector.Get w.lowerCase w.unmarshal.units w.client

/-- The common shape of the eight `Get` methods: fetch, map, and count an
error of either step in the category's counter. -/
def getShape (c : Category) (fetched : Except Error Bytes) (process : Bytes → Go (Option Error))
    (g : Globals) : Go (Globals × Float64 × Option Error) :=
  match fetched with
  | .error err => Go.ret (g.bump c, ((g.bump c).errors c : Float64), some (.errorf c.cannotGet err))
  | .ok body =>
    Go.andThen (process body) fun r =>
      match r with
      | some err => Go.ret (g.bump c, ((g.bump c).errors c : Float64), some err)
      | none => Go.ret (g, (g.errors c : Float64), none)

/-- The payload of the category decodes to the empty array. -/
def Unmarshal.decodesEmpty (u : Unmarshal) (body : Bytes) : Category → Prop
  | .branches => u.branches body = .ok []
  | .cords => u.cords body = .ok []
  | .lines => u.lines body = .ok []
  | .ocps => u.ocps body = .ok []
  | .outlets => u.outlets body = .ok []
  | .phases => u.phases body = .ok []
  | .system => False
  | .units => u.units body = .ok []

/-- The three metrics `runCollector` sends about a collector. -/
def metaMetrics (name : String) (elapsed totalErrors up : Float64) : List Metric :=
  [gauge (descOf servertechDesc "scrapeDuration") elapsed [name],
   gauge (descOf servertechDesc "scrapeErrTotal") totalErrors [name],
   gauge (descOf servertechDesc "collectorUp") up [name]]

/-- The scrape counter metric `Collect` sends. -/
def scrapesTotal (value : Float64) : Metric :=
  { desc := descOf servertechDesc "scrapesTotal", valType := .CounterValue, value := value,
    labelValues := [] }

/-- The number of label values of a metric is the number of label names of its descriptor. -/
def ArityOK (m : Metric) : Prop :=
  m.labelValues.length = m.desc.variableLabels.length

/-- A branch whose phase and over-current protector identifiers differ. -/
def sampleBranch : branchesEntry :=
  { ID := "AA1", Name := "branch one", Current := 3, CurrentCapacity := 20,
    CurrentStatus := "Normal", CurrentUtilized := 15, OcpID := "O7", PhaseID := "P2",
    State := "On", Status := "Normal" }

/-- A unit with the given display orientation. -/
def sampleUnit (orientation : String) : unitsEntry :=
  { ID := "A", Name := "Master", DisplayOrientation := orientation, OutletSequence := "Reversed",
    Status := "Normal", Type_ := "Master Pro2" }

/-- A system record with the given uptime string. -/
def sampleSystem (uptime : String) : systemData :=
  { ActiveUsers := 1, Firmware := "fw", NicSerialNumber := "sn", StatusBranches := "Normal",
    StatusCords := "x", StatusLines := "", StatusOcps := "NORMAL", StatusOutlets := "normal",
    StatusPhases := "", StatusUnits := "", Uptime := uptime }

/-- One call of `Get`: what it meets outside the program and its arguments. -/
structure Call where
  world : World
  target : String
  user : String
  pass : String

/-- A sequence of calls of the `Get` method of one category, one after the
other; the result lists the error values the calls returned. -/
def getSequence (c : Category) : List Call → Globals → Go (Globals × List (Option Error))
  | [], g => Go.ret (g, [])
  | call :: calls, g =>
    Go.andThen (call.world.Get c call.target call.user call.pass g) fun r =>
      Go.andThen (getSequence c calls r.1) fun rs => Go.ret (rs.1, r.2.2 :: rs.2)

/-- The exporter whose enabled collectors are the given categories. -/
def exporterOf (w : World) (cs : List Category) (target user pass : String) : Exporter :=
  { Collectors := cs.map (fun c => (c.path, w.Get c)), Target := target, User := user,
    Pass := pass }

/-- A device that does not answer, and a decoder that rejects everything. -/
def deadWorld : World :=
  { lowerCase := id,
    unmarshal :=
      { branches := fun _ => .error (.text "unexpected end of JSON input"),
        cords := fun _ => .error (.text "unexpected end of JSON input"),
        lines := fun _ => .error (.text "unexpected end of JSON input"),
        ocps := fun _ => .error (.text "unexpected end of JSON input"),
        outlets := fun _ => .error (.text "unexpected end of JSON input"),
        phases := fun _ => .error (.text "unexpected end of JSON input"),
        system := fun _ => .error (.text "unexpected end of JSON input"),
        units := fun _ => .error (.text "unexpected end of JSON input") },
    client :=
      { requestError := fun _ _ => none,
        Do := fun _ => .error (.text "context deadline exceeded") } }

/-- A device that answers every request with status 200 and a body that decodes
to the empty array (and to a system record with uptime "1 days 2 hours 3
minutes 4 seconds"). -/
def emptyWorld : World :=
  { lowerCase := id,
    unmarshal :=
      { branches := fun _ => .ok [], cords := fun _ => .ok [], lines := fun _ => .ok [],
        ocps := fun _ => .ok [], outlets := fun _ => .ok [], phases := fun _ => .ok [],
        system := fun _ => .ok (sampleSystem "1 days 2 hours 3 minutes 4 seconds"),
        units := fun _ => .ok [] },
    client :=
      { requestError := fun _ _ => none,
        Do := fun _ => .ok { StatusCode := 200, Body := .ok [91, 93] } } }

end collector

/-! ## Entity blocks, used to state the order of emissions -/

namespace collector

open prometheus

/-- The payloads `p1`, `p2` and `p` of an array-valued category decode to two
lists of entities and to their concatenation. -/
def Unmarshal.decodesAppend (u : Unmarshal) (p1 p2 p : Bytes) : Category → Prop
  | .branches =>
    ∃ xs ys, u.branches p1 = .ok xs ∧ u.branches p2 = .ok ys ∧ u.branches p = .ok (xs ++ ys)
  | .cords => ∃ xs ys, u.cords p1 = .ok xs ∧ u.cords p2 = .ok ys ∧ u.cords p = .ok (xs ++ ys)
  | .lines => ∃ xs ys, u.lines p1 = .ok xs ∧ u.lines p2 = .ok ys ∧ u.lines p = .ok (xs ++ ys)
  | .ocps => ∃ xs ys, u.ocps p1 = .ok xs ∧ u.ocps p2 = .ok ys ∧ u.ocps p = .ok (xs ++ ys)
  | .outlets =>
    ∃ xs ys, u.outlets p1 = .ok xs ∧ u.outlets p2 = .ok ys ∧ u.outlets p = .ok (xs ++ ys)
  | .phases => ∃ xs ys, u.phases p1 = .ok xs ∧ u.phases p2 = .ok ys ∧ u.phases p = .ok (xs ++ ys)
  | .system => False
  | .units => ∃ xs ys, u.units p1 = .ok xs ∧ u.units p2 = .ok ys ∧ u.units p = .ok (xs ++ ys)

/-- The emission block of each entity of a decoded list, in array order: what
the given loop body sends for the entity. -/
def blocksOf {α : Type} (body : α → Go Unit) (decoded : Except Error (List α)) :
    Option (List (List Metric)) :=
  match decoded with
  | .ok xs => some (xs.map fun x => (body x []).sent)
  | .error _ => none

/-- The emission blocks of the entities a payload of an array-valued category
decodes to, each block being what the body of the `range` loop of the
category's mapper sends. -/
def World.blocks (w : World) (payload : Bytes) : Category → Option (List (List Metric))
  | .branches => blocksOf (processBranchesEntry w.lowerCase) (w.unmarshal.branches payload)
  | .cords => blocksOf (processCordsEntry w.lowerCase) (w.unmarshal.cords payload)
  | .lines => blocksOf (processLinesEntry w.lowerCase) (w.unmarshal.lines payload)
  | .ocps => blocksOf (processOcpsEntry w.lowerCase) (w.unmarshal.ocps payload)
  | .outlets => blocksOf (processOutletsEntry w.lowerCase) (w.unmarshal.outlets payload)
  | .phases => blocksOf (processPhasesEntry w.lowerCase) (w.unmarshal.phases payload)
  | .system => none
  | .units => blocksOf (processUnitsEntry w.lowerCase) (w.unmarshal.units payload)

/-- A decoder that reads one line per byte of the payload, the byte being the
current of the line. -/
def bytewiseLines (payload : Bytes) : Except Error linesData :=
  .ok (payload.map fun b => { linesEntry.zero with Current := (b.toNat : Float64) })

/-- The device of `emptyWorld` with `bytewiseLines` as decoder of the lines payload. -/
def bytewiseWorld : World :=
  { emptyWorld with unmarshal := { emptyWorld.unmarshal with lines := bytewiseLines } }

end collector

/-! ## Devices used to state facts about the request -/

namespace collector

open prometheus

/-- The request that `getServerTechJSON` builds for a target, credentials and path. -/
def requestFor (target user pass path : String) : http.Request :=
  { Method := "GET", URL := "https://" ++ target ++ "/jaws/monitor/" ++ path,
    Header := [("Authorization", "Basic " ++ base64.EncodeToString (user ++ ":" ++ pass))] }

/-- A device that answers every request with the given status code and the body `[]`. -/
def statusWorld (code : Int) : World :=
  { emptyWorld with
    client :=
      { requestError := fun _ _ => none,
        Do := fun _ => .ok { StatusCode := code, Body := .ok [91, 93] } } }

/-- A client whose round trip fails with an error that shows the request it was given. -/
def echoClient : http.Client :=
  { requestError := fun _ _ => none,
    Do := fun req =>
      .error (.text (req.Method ++ " " ++ req.URL ++ " "
        ++ String.intercalate ", " (req.Header.map fun h => h.1 ++ ": " ++ h.2))) }

end collector

/-! ## `collector/collector.go`: the registry of collectors -/

namespace strconv

/-- Go `strconv.FormatBool`. -/
def FormatBool (b : Bool) : String :=
  if b then "true" else "false"

end strconv

namespace collector

open prometheus

/-- Go map assignment `m[k] = v`, for a map given by the list of its entries:
the entry of an existing key is replaced, a new key gets a new entry. -/
def mapAssign {α : Type} : List (String × α) → String → α → List (String × α)
  | [], k, v => [(k, v)]
  | (k1, v1) :: rest, k, v =>
    if k1 = k then (k, v) :: rest else (k1, v1) :: mapAssign rest k v

/-- The package-level maps `allCollectors` and `collectorState`.  A `*bool` of
`collectorState` is given by the value it points to when `NewExporter` reads it. -/
structure Registry where
  allCollectors : List (String × (Unit → Collector))
  collectorState : List (String × Bool)

/-- The two maps as `make` creates them. -/
def Registry.empty : Registry :=
  { allCollectors := [], collectorState := [] }

/-- Go `registerCollector`.  `flagBool` stands for kingpin: it gives the value
held by the `*bool` that `kingpin.Flag(name, help).Default(value).Bool()`
returns. -/
def registerCollector (flagBool : String → String → String → Bool) (r : Registry) (name : String)
    (enabledByDefault : Bool) (collector : Unit → Collector) : Registry :=
  let defaultState := if enabledByDefault then "enabled" else "disabled"
  { allCollectors := mapAssign r.allCollectors name collector,
    collectorState := mapAssign r.collectorState name
      (flagBool ("collector." ++ name)
        ("Enable the " ++ name ++ " collector (default: " ++ defaultState ++ ").")
        (strconv.FormatBool enabledByDefault)) }

/-- The `range` loop of `NewExporter` over the remaining entries of
`allCollectors`: `*collectorState[name]` panics for a name without a state. -/
def enabledLoop (collectorState : List (String × Bool)) :
    List (String × (Unit → Collector)) → List (String × Collector) →
      Except Panic (List (String × Collector))
  | [], enabledCollectors => .ok enabledCollectors
  | (name, collector) :: rest, enabledCollectors =>
    match collectorState.lookup name with
    | none => .error .nilDereference
    | some state =>
      if state then
        enabledLoop collectorState rest (mapAssign enabledCollectors name (collector ()))
      else enabledLoop collectorState rest enabledCollectors

/-- Go `NewExporter`. -/
def NewExporter (r : Registry) (target user pass : String) : Except Panic Exporter :=
  match enabledLoop r.collectorState r.allCollectors [] with
  | .error p => .error p
  | .ok enabledCollectors =>
    .ok { Collectors := enabledCollectors, Target := target, User := user, Pass := pass }

/-- Go `NewBranchesCollector`. -/
def NewBranchesCollector (lowerCase : Char → Char)
    (unmarshal : Bytes → Except Error branchesData) (client : http.Client) : Unit → Collector :=
  fun _ => BranchesCollector.Get lowerCase unmarshal client

/-- Go `NewCordsCollector`. -/
def NewCordsCollector (lowerCase : Char → Char)
    (unmarshal : Bytes → Except Error cordsData) (client : http.Client) : Unit → Collector :=
  fun _ => CordsCollector.Get lowerCase unmarshal client

/-- Go `NewLinesCollector`. -/
def NewLinesCollector (lowerCase : Char → Char)
    (unmarshal : Bytes → Except Error linesData) (client : http.Client) : Unit → Collector :=
  fun _ => LinesCollector.Get lowerCase unmarshal client

/-- Go `NewOcpsCollector`. -/
def NewOcpsCollector (lowerCase : Char → Char)
    (unmarshal : Bytes → Except Error ocpsData) (client : http.Client) : Unit → Collector :=
  fun _ => OcpsCollector.Get lowerCase unmarshal client

/-- Go `NewOutletsCollector`. -/
def NewOutletsCollector (lowerCase : Char → Char)
    (unmarshal : Bytes → Except Error outletsData) (client : http.Client) : Unit → Collector :=
  fun _ => OutletsCollector.Get lowerCase unmarshal client

/-- Go `NewPhasesCollector`. -/
def NewPhasesCollector (lowerCase : Char → Char)
    (unmarshal : Bytes → Except Error phasesData) (client : http.Client) : Unit → Collector :=
  fun _ => PhasesCollector.Get lowerCase unmarshal client

/-- Go `NewSystemCollector`. -/
def NewSystemCollector (lowerCase : Char → Char)
    (unmarshal : Bytes → Except Error systemData) (client : http.Client) : Unit → Collector :=
  fun _ => SystemCollector.Get lowerCase unmarshal client

/-- Go `NewUnitsCollector`. -/
def NewUnitsCollector (lowerCase : Char → Char)
    (unmarshal : Bytes → Except Error unitsData) (client : http.Client) : Unit → Collector :=
  fun _ => UnitsCollector.Get lowerCase unmarshal client

/-- Go `enabledByDefault`. -/
def enabledByDefault : Bool := true

/-- Go `disabledByDefault`. -/
def disabledByDefault : Bool := false

/-- The registry after the `init` functions of the eight collector files, run
in the order of the file names. -/
def initRegistry (flagBool : String → String → String → Bool) (w : World) : Registry :=
  let r := Registry.empty
  let r := registerCollector flagBool r branchesSubsystem enabledByDefault
    (NewBranchesCollector w.lowerCase w.unmarshal.branches w.client)
  let r := registerCollector flagBool r cordsSubsystem enabledByDefault
    (NewCordsCollector w.lowerCase w.unmarshal.cords w.client)
  let r := registerCollector flagBool r linesSubsystem enabledByDefault
    (NewLinesCollector w.lowerCase w.unmarshal.lines w.client)
  let r := registerCollector flagBool r ocpsSubsystem enabledByDefault
    (NewOcpsCollector w.lowerCase w.unmarshal.ocps w.client)
  let r := registerCollector flagBool r outletsSubsystem enabledByDefault
    (NewOutletsCollector w.lowerCase w.unmarshal.outlets w.client)
  let r := registerCollector flagBool r phasesSubsystem enabledByDefault
    (NewPhasesCollector w.lowerCase w.unmarshal.phases w.client)
  let r := registerCollector flagBool r systemSubsystem enabledByDefault
    (NewSystemCollector w.lowerCase w.unmarshal.system w.client)
  registerCollector flagBool r unitsSubsystem enabledByDefault
    (NewUnitsCollector w.lowerCase w.unmarshal.units w.client)

end collector

/-! ## Registry states, used to state facts about `NewExporter` -/

namespace collector

/-- One call of `registerCollector`. -/
structure Registration where
  name : String
  enabledByDefault : Bool
  collector : Unit → Collector

/-- The registry after a sequence of calls of `registerCollector`. -/
def Registry.after (flagBool : String → String → String → Bool) (regs : List Registration) :
    Registry :=
  regs.foldl (fun r reg => registerCollector flagBool r reg.name reg.enabledByDefault reg.collector)
    Registry.empty

/-- The names registered in a registry. -/
def Registry.names (r : Registry) : List String :=
  r.allCollectors.map Prod.fst

/-- The enable switch of `name` is set. -/
def Registry.enabled (r : Registry) (name : String) : Prop :=
  r.collectorState.lookup name = some true

/-- Flags as kingpin leaves them when the command line sets none: every flag
has its default value. -/
def defaultFlags (_name _help value : String) : Bool :=
  value = "true"

/-- Flags as kingpin leaves them for the command line `--no-collector.outlets`. -/
def noOutletsFlags (name _help value : String) : Bool :=
  if name = "collector.outlets" then false else value = "true"

end collector

/-! ## `collector/collector.go`: `Collect` and its goroutines, step by step -/

namespace collector

open prometheus

/-- A goroutine that `Collect` has started with
`go e.runCollector(ch, name, collector, wg)`.

* `started`: it has not run yet.
* `running run pending`: it is inside `runCollector`; `run` is how the call
  goes (what it sends and whether it returns or panics) and `pending` are the
  sends it has still to do.
* `exited run`: the deferred `wg.Done()` has run, after the return or during
  the panic of `runCollector`. -/
inductive Goroutine
  | started (name : String) (collector : Collector)
  | running (run : Exec Globals) (pending : List Metric)
  | exited (run : Exec Globals)

/-- Where the goroutine that called `Collect` is: before the first statement,
in the `range` loop with the entries of `e.Collectors` still to come, in
`wg.Wait()`, or after the return. -/
inductive Pc
  | entry
  | spawn (rest : List (String × Collector))
  | wait
  | returned

/-- The state of one call of `Collect`: the sink, the package-level counters,
the counter of the `sync.WaitGroup`, the goroutines started so far, the place
of the calling goroutine, and the panic that has terminated the process, if
one has. -/
structure Scrape where
  ch : Chan
  globals : Globals
  wg : Int
  goroutines : List Goroutine
  pc : Pc
  terminated : Option Panic

/-- What the scheduler picks: the goroutine that called `Collect`, or the
`i`-th goroutine started by it. -/
inductive Thread
  | main
  | goroutine (i : Nat)
deriving DecidableEq, Repr

/-- The state in which `Collect` is called. -/
def Scrape.init (g : Globals) (ch : Chan) : Scrape :=
  { ch := ch, globals := g, wg := 0, goroutines := [], pc := .entry, terminated := none }

/-- One step of the goroutine that called `Collect`: the increment and the send
of the scrape counter, one iteration of the loop (`wg.Add(1)` and the `go`
statement), or `wg.Wait()`, which returns when the counter is zero. -/
def Exporter.stepMain (e : Exporter) (s : Scrape) : Option Scrape :=
  match s.pc with
  | .entry =>
    let g := { s.globals with
      servertechTotalScrapeCount := float64Inc s.globals.servertechTotalScrapeCount }
    match MustNewConstMetric (servertechDesc.lookup "scrapesTotal") .CounterValue
        (g.servertechTotalScrapeCount : Float64) [] with
    | .ok m => some { s with globals := g, ch := s.ch ++ [m], pc := .spawn e.Collectors }
    | .error p => some { s with globals := g, terminated := some p }
  | .spawn ((name, collector) :: rest) =>
    some { s with wg := s.wg + 1, goroutines := s.goroutines ++ [.started name collector],
                  pc := .spawn rest }
  | .spawn [] => some { s with pc := .wait }
  | .wait => if s.wg = 0 then some { s with pc := .returned } else none
  | .returned => none

/-- One step of a goroutine started by `Collect`.  Its first step is the call
of `runCollector` up to its first send: the counters are read and written
there.  Then come the sends, one per step, in the order of `runCollector`,
then the deferred `wg.Done()`.  A goroutine whose `runCollector` has panicked
has one more step after `wg.Done()`: the panic reaches the top of the
goroutine and terminates the process. -/
def Exporter.stepGoroutine (e : Exporter) (elapsed : String → Float64) (s : Scrape) (i : Nat) :
    Option Scrape :=
  match s.goroutines.get? i with
  | none => none
  | some (.started name collector) =>
    let run := e.runCollector (elapsed name) name collector s.globals []
    let g := match run with
      | .done _ g1 => g1
      | .panicked _ _ => s.globals
    some { s with globals := g, goroutines := s.goroutines.set i (.running run run.sent) }
  | some (.running run (m :: pending)) =>
    some { s with ch := s.ch ++ [m], goroutines := s.goroutines.set i (.running run pending) }
  | some (.running run []) =>
    some { s with wg := s.wg - 1, goroutines := s.goroutines.set i (.exited run) }
  | some (.exited (.done _ _)) => none
  | some (.exited (.panicked _ p)) => some { s with terminated := some p }

/-- One step of the thread the scheduler picks; `none` when that thread cannot
move (it waits, it has ended, or the process has been terminated). -/
def Exporter.step (e : Exporter) (elapsed : String → Float64) (s : Scrape) :
    Thread → Option Scrape
  | .main => if s.terminated.isSome then none else e.stepMain s
  | .goroutine i => if s.terminated.isSome then none else e.stepGoroutine elapsed s i

/-- The state after a schedule: the threads move in the order of the list, a
thread that cannot move is passed over. -/
def Exporter.exec (e : Exporter) (elapsed : String → Float64) : List Thread → Scrape → Scrape
  | [], s => s
  | t :: ts, s =>
    match e.step elapsed s t with
    | some s1 => Exporter.exec e elapsed ts s1
    | none => Exporter.exec e elapsed ts s

end collector

/-! ## Notions used to state facts about the goroutines of `Collect` -/

namespace collector

open prometheus

/-- The goroutine has not run its deferred `wg.Done()` yet. -/
def Goroutine.live : Goroutine → Bool
  | .started _ _ => true
  | .running _ _ => true
  | .exited _ => false

/-- The entries of `e.Collectors` for which the loop of `Collect` has still to
start a goroutine. -/
def Pc.rest (e : Exporter) : Pc → List (String × Collector)
  | .entry => e.Collectors
  | .spawn rest => rest
  | .wait => []
  | .returned => []

/-- `Collect` has returned. -/
def Pc.isReturned : Pc → Bool
  | .returned => true
  | _ => false

/-- The goroutine is the one started for the entry `nc` of `e.Collectors`, and
what it has sent so far, in the order of its `runCollector`, is in the sink. -/
def Goroutine.Runs (e : Exporter) (elapsed : String → Float64) (ch : Chan)
    (nc : String × Collector) : Goroutine → Prop
  | .started name collector => name = nc.1 ∧ collector = nc.2
  | .running run pending =>
    ∃ g sent, run = e.runCollector (elapsed nc.1) nc.1 nc.2 g [] ∧ run.sent = sent ++ pending ∧
      sent.Sublist ch
  | .exited run =>
    ∃ g, run = e.runCollector (elapsed nc.1) nc.1 nc.2 g [] ∧ run.sent.Sublist ch

/-- The goroutine has run its `wg.Done()` after the `runCollector` of the entry
`nc`, started from some value of the counters, has sent to the sink all it
sends; when the `Get` of the collector returned, that is the metrics of `Get`
followed by the three metrics about the collector. -/
def Goroutine.Finished (e : Exporter) (elapsed : String → Float64) (ch : Chan)
    (nc : String × Collector) (gr : Goroutine) : Prop :=
  ∃ g, gr = .exited (e.runCollector (elapsed nc.1) nc.1 nc.2 g []) ∧
    (e.runCollector (elapsed nc.1) nc.1 nc.2 g []).sent.Sublist ch ∧
    ∀ (ch1 : Chan) (g1 : Globals) (totalErrors : Float64) (err : Option Error),
      nc.2 e.Target e.User e.Pass g [] = .done ch1 (g1, totalErrors, err) →
        (ch1 ++ metaMetrics nc.1 (elapsed nc.1) totalErrors (if err.isSome then 0 else 1)).Sublist
          ch

/-- What holds in every state of a call of `Collect`. -/
structure Scrape.Inv (e : Exporter) (elapsed : String → Float64) (s : Scrape) : Prop where
  count : s.wg = (s.goroutines.countP Goroutine.live : Nat)
  runs : ∃ started, started ++ s.pc.rest e = e.Collectors ∧
    List.Forall₂ (Goroutine.Runs e elapsed s.ch) started s.goroutines
  waited : s.pc.isReturned = true → s.wg = 0

/-- A device whose system payload decodes to a record without uptime. -/
def noUptimeWorld : World :=
  { emptyWorld with
    unmarshal := { emptyWorld.unmarshal with system := fun _ => .ok systemData.zero } }

/-- The schedule in which the caller starts the one goroutine and waits, the
goroutine runs up to and including its `wg.Done()`, and the caller moves again. -/
def returnAfterDone (sends : Nat) : List Thread :=
  [.main, .main, .main, .goroutine 0] ++ List.replicate sends (.goroutine 0)
    ++ [.goroutine 0, .main]

end collector

namespace collector

open prometheus

/-- A scrape of the lines category of `emptyWorld` in which the caller moves
again after the goroutine has sent its three metrics and run `wg.Done()`. -/
def linesScrape : Scrape :=
  (exporterOf emptyWorld [.lines] "pdu" "admin" "secret").exec (fun _ => 0) (returnAfterDone 3)
    (Scrape.init Globals.init [])

/-- A scrape of the system category of `noUptimeWorld` in which the caller
moves again after the goroutine has sent the eight gauges that precede the
uptime, panicked on `reUptime[1]` and run its deferred `wg.Done()`, and before
the panic terminates the process. -/
def noUptimeScrape : Scrape :=
  (exporterOf noUptimeWorld [.system] "pdu" "admin" "secret").exec (fun _ => 0)
    (returnAfterDone 8) (Scrape.init Globals.init [])

end collector

namespace collector

open prometheus

/-- The schedule in which the caller starts two goroutines and waits, and the
first goroutine runs to its end: its sends, its `wg.Done()` and one more step. -/
def firstToEnd (sends : Nat) : List Thread :=
  [.main, .main, .main, .main, .goroutine 0] ++ List.replicate sends (.goroutine 0)
    ++ [.goroutine 0, .goroutine 0]

/-- A scrape of the system and lines categories of `noUptimeWorld` in which the
system goroutine runs first and to its end: the eight gauges that precede the
uptime, the panic on `reUptime[1]`, the deferred `wg.Done()`, and the end of
the process. -/
def systemPanicScrape : Scrape :=
  (exporterOf noUptimeWorld [.system, .lines] "pdu" "admin" "secret").exec (fun _ => 0)
    (firstToEnd 8) (Scrape.init Globals.init [])

end collector

/-! ## Basic facts about the execution model -/

section ExecLemmas

open prometheus collector

theorem Go.bind_eq {α β : Type} (m : Go α) (f : α → Go β) : (m >>= f) = Go.andThen m f := rfl

theorem Go.pure_eq {α : Type} (a : α) : (pure a : Go α) = Go.ret a := rfl

theorem collector.newGauge_ok (d : Desc) (v : Float64) (labels : List String) (ch : Chan)
    (h : labels.length = d.variableLabels.length) :
    newGauge (some d) v labels ch
      = .done (ch ++ [{ desc := d, valType := .GaugeValue, value := v, labelValues := labels }]) () := by
  simp [newGauge, Go.bind_eq, Go.andThen, Go.must, MustNewConstMetric, h, Go.ret, Go.send]

theorem collector.newCounter_ok (d : Desc) (v : Float64) (labels : List String) (ch : Chan)
    (h : labels.length = d.variableLabels.length) :
    newCounter (some d) v labels ch
      = .done (ch ++ [{ desc := d, valType := .CounterValue, value := v, labelValues := labels }]) () := by
  simp [newCounter, Go.bind_eq, Go.andThen, Go.must, MustNewConstMetric, h, Go.ret, Go.send]

end ExecLemmas

/-! ## Facts about the matcher -/

namespace regexp

theorem matchLiteral_append (lit post : List Char) : matchLiteral lit (lit ++ post) = some post := by
  induction lit with
  | nil => simp [matchLiteral]
  | cons c cs ih => simp [matchLiteral, ih]

theorem NoOcc_nil (lit : List Char) : NoOcc lit [] ↔ matchLiteral lit [] = none := by
  simp [NoOcc]

theorem NoOcc_cons (lit : List Char) (c : Char) (l : List Char) :
    NoOcc lit (c :: l) ↔ matchLiteral lit (c :: l) = none ∧ NoOcc lit l := by
  unfold NoOcc
  constructor
  · intro h
    exact ⟨h _ (List.suffix_refl _), fun t ht => h t (ht.trans (List.suffix_cons c l))⟩
  · rintro ⟨h1, h2⟩ t ht
    rcases List.suffix_cons_iff.mp ht with rfl | ht
    · exact h1
    · exact h2 t ht

theorem IsDigit.ne_of_not {c b : Char} (hc : IsDigit c) (hb : ¬ IsDigit b) : c ≠ b := by
  rintro rfl; exact hb hc

theorem NoOcc_digits_append (b : Char) (lit ds l : List Char) (hb : ¬ IsDigit b)
    (hds : ∀ c ∈ ds, IsDigit c) :
    NoOcc (b :: lit) (ds ++ l) ↔ NoOcc (b :: lit) l := by
  induction ds with
  | nil => simp
  | cons d ds ih =>
    have hd : d ≠ b := (hds d (by simp)).ne_of_not hb
    rw [List.cons_append, NoOcc_cons, ih (fun c hc => hds c (by simp [hc]))]
    simp [matchLiteral, hd]

theorem matchDotStar_none {β : Type} (k : List Char → Option β) (l : List Char)
    (h : ∀ t, t <:+ l → k t = none) : matchDotStar k l = none := by
  induction l with
  | nil => simpa [matchDotStar] using h [] (List.suffix_refl _)
  | cons c cs ih =>
    have h1 := h _ (List.suffix_refl _)
    have h2 := ih (fun t ht => h t (ht.trans (List.suffix_cons c cs)))
    simp [matchDotStar, h1, h2]

theorem matchDotStar_hit {β : Type} (k : List Char → Option β) (pre : List Char) (c : Char)
    (cs : List Char) (v : β) (hpre : ∀ x ∈ pre, x ≠ '\n') (hk : k (c :: cs) = some v)
    (hlater : ∀ t, t <:+ cs → k t = none) : matchDotStar k (pre ++ c :: cs) = some v := by
  induction pre with
  | nil =>
    have h2 := matchDotStar_none k cs hlater
    simp [matchDotStar, hk, h2]
  | cons p ps ih =>
    have hp : p ≠ '\n' := hpre p (by simp)
    have := ih (fun x hx => hpre x (by simp [hx]))
    simp [matchDotStar, hp, this]

/-- A capture group `(.*)` followed by a literal finds the last occurrence of the literal
after which the rest of the pattern matches. -/
theorem run_seg_hit {β : Type} (i : Nat) (c : Char) (lit pre post : List Char) (caps : Caps)
    (k : List Char → Caps → Option β) (v : β) (hpre : ∀ x ∈ pre, x ≠ '\n')
    (hno : NoOcc (c :: lit) (lit ++ post)) (hk : k post (setCap caps i pre) = some v) :
    run (.concat (.capture i .dotStar) (.literal (c :: lit))) (pre ++ (c :: lit ++ post)) caps k
      = some v := by
  simp only [run]
  apply matchDotStar_hit _ pre c (lit ++ post) v hpre
  · have := matchLiteral_append (c :: lit) post
    simp only [List.cons_append] at this
    simp [this, hk]
  · intro t ht
    simp [hno t ht]

theorem run_seg_miss {β : Type} (i : Nat) (lit inp : List Char) (caps : Caps)
    (k : List Char → Caps → Option β) (hno : NoOcc lit inp) :
    run (.concat (.capture i .dotStar) (.literal lit)) inp caps k = none := by
  simp only [run]
  apply matchDotStar_none
  intro t ht
  simp [hno t ht]

theorem run_quest_hit {β : Type} (a : Node) (inp : List Char) (caps : Caps)
    (k : List Char → Caps → Option β) (v : β) (h : run a inp caps k = some v) :
    run (.quest a) inp caps k = some v := by
  simp [run, h]

theorem run_quest_miss {β : Type} (a : Node) (inp : List Char) (caps : Caps)
    (k : List Char → Caps → Option β) (h : run a inp caps k = none) :
    run (.quest a) inp caps k = k inp caps := by
  simp [run, h]

end regexp

namespace regexp

theorem IsDigit.ne_space {c : Char} (h : IsDigit c) : c ≠ ' ' :=
  h.ne_of_not (by decide)

theorem IsDigit.ne_newline {c : Char} (h : IsDigit c) : c ≠ '\n' :=
  h.ne_of_not (by decide)

/-- A literal that starts with a space does not start at another character. -/
theorem NoOcc_skip (lit : List Char) (x : Char) (l : List Char) (hx : x ≠ ' ') :
    NoOcc (' ' :: lit) (x :: l) ↔ NoOcc (' ' :: lit) l := by
  rw [NoOcc_cons]
  simp [matchLiteral, hx]

theorem NoOcc_skip_append (lit w l : List Char) (hw : ∀ c ∈ w, c ≠ ' ') :
    NoOcc (' ' :: lit) (w ++ l) ↔ NoOcc (' ' :: lit) l := by
  induction w with
  | nil => simp
  | cons d ds ih =>
    rw [List.cons_append, NoOcc_skip _ _ _ (hw d (by simp)), ih (fun c hc => hw c (by simp [hc]))]

/-- A literal `" b..."` does not start at a space that is followed by another character. -/
theorem NoOcc_space (b : Char) (lit : List Char) (x : Char) (l : List Char) (hx : x ≠ b) :
    NoOcc (' ' :: b :: lit) (' ' :: x :: l) ↔ NoOcc (' ' :: b :: lit) (x :: l) := by
  rw [NoOcc_cons]
  simp [matchLiteral, hx]

theorem NoOcc_nil_cons (c : Char) (lit : List Char) : NoOcc (c :: lit) [] := by
  simp [NoOcc_nil, matchLiteral]

theorem run_uptimeExpr_full {β : Type} (D H M S : List Char) (hD : ∀ c ∈ D, IsDigit c)
    (hH : ∀ c ∈ H, IsDigit c) (hM : ∀ c ∈ M, IsDigit c) (hS : ∀ c ∈ S, IsDigit c)
    (hHne : H ≠ []) (hMne : M ≠ []) (hSne : S ≠ []) (caps : Caps)
    (k : List Char → Caps → Option β) (v : β)
    (hk : k [] (setCap (setCap (setCap (setCap caps 1 D) 2 H) 3 M) 4 S) = some v) :
    run uptimeExpr (uptimeText D H M S) caps k = some v := by
  obtain ⟨h0, hs, rfl⟩ := List.exists_cons_of_ne_nil hHne
  obtain ⟨m0, ms, rfl⟩ := List.exists_cons_of_ne_nil hMne
  obtain ⟨s0, ss, rfl⟩ := List.exists_cons_of_ne_nil hSne
  have nl : ∀ (l : List Char), (∀ c ∈ l, IsDigit c) → ∀ x ∈ l, x ≠ '\n' :=
    fun l hl x hx => (hl x hx).ne_newline
  have sp : ∀ (l : List Char), (∀ c ∈ l, IsDigit c) → ∀ x ∈ l, x ≠ ' ' :=
    fun l hl x hx => (hl x hx).ne_space
  have hh0 : IsDigit h0 := hH h0 (by simp)
  have hm0 : IsDigit m0 := hM m0 (by simp)
  have hs0 : IsDigit s0 := hS s0 (by simp)
  have hhs := sp hs (fun c hc => hH c (by simp [hc]))
  have hms := sp ms (fun c hc => hM c (by simp [hc]))
  have hss := sp ss (fun c hc => hS c (by simp [hc]))
  have f1 := hh0.ne_space
  have f2 := hm0.ne_space
  have f3 := hs0.ne_space
  have g1 : h0 ≠ 'd' := hh0.ne_of_not (by decide)
  have g2 : m0 ≠ 'd' := hm0.ne_of_not (by decide)
  have g3 : s0 ≠ 'd' := hs0.ne_of_not (by decide)
  have g4 : m0 ≠ 'h' := hm0.ne_of_not (by decide)
  have g5 : s0 ≠ 'h' := hs0.ne_of_not (by decide)
  have g6 : s0 ≠ 'm' := hs0.ne_of_not (by decide)
  unfold uptimeExpr uptimeText
  rw [run]
  apply run_quest_hit
  apply run_seg_hit 1 ' ' ['d', 'a', 'y', 's', ' '] D _ caps _ v (nl D hD)
  · simp [NoOcc_skip, NoOcc_skip_append _ hs _ hhs, NoOcc_skip_append _ ms _ hms,
      NoOcc_skip_append _ ss _ hss, NoOcc_space, NoOcc_nil_cons, *]
  rw [run]
  apply run_quest_hit
  apply run_seg_hit 2 ' ' ['h', 'o', 'u', 'r', 's', ' '] (h0 :: hs) _ _ _ v (nl _ hH)
  · simp [NoOcc_skip, NoOcc_skip_append _ hs _ hhs, NoOcc_skip_append _ ms _ hms,
      NoOcc_skip_append _ ss _ hss, NoOcc_space, NoOcc_nil_cons, *]
  rw [run]
  apply run_quest_hit
  apply run_seg_hit 3 ' ' ['m', 'i', 'n', 'u', 't', 'e', 's', ' '] (m0 :: ms) _ _ _ v (nl _ hM)
  · simp [NoOcc_skip, NoOcc_skip_append _ hs _ hhs, NoOcc_skip_append _ ms _ hms,
      NoOcc_skip_append _ ss _ hss, NoOcc_space, NoOcc_nil_cons, *]
  apply run_seg_hit 4 ' ' ['s', 'e', 'c', 'o', 'n', 'd', 's'] (s0 :: ss) [] _ _ v (nl _ hS)
  · simp [NoOcc_skip, NoOcc_skip_append _ hs _ hhs, NoOcc_skip_append _ ms _ hms,
      NoOcc_skip_append _ ss _ hss, NoOcc_space, NoOcc_nil_cons, *]
  exact hk

end regexp

namespace regexp

theorem matchLiteral_some (lit : List Char) : ∀ (inp rest : List Char),
    matchLiteral lit inp = some rest → inp = lit ++ rest := by
  induction lit with
  | nil => intro inp rest h; simpa [matchLiteral] using h
  | cons c cs ih =>
    intro inp rest h
    cases inp with
    | nil => simp [matchLiteral] at h
    | cons x xs =>
      by_cases hx : x = c
      · subst hx
        simp only [matchLiteral, if_true] at h
        rw [ih xs rest h]; rfl
      · simp [matchLiteral, hx] at h

theorem matchDotStar_some {β : Type} (k : List Char → Option β) (r : β) : ∀ (inp : List Char),
    matchDotStar k inp = some r → ∃ t, t <:+ inp ∧ k t = some r := by
  intro inp
  induction inp with
  | nil => intro h; exact ⟨[], List.suffix_refl _, by simpa [matchDotStar] using h⟩
  | cons c cs ih =>
    intro h
    unfold matchDotStar at h
    by_cases hc : c = '\n'
    · rw [if_pos hc] at h
      exact ⟨_, List.suffix_refl _, h⟩
    · rw [if_neg hc] at h
      cases hm : matchDotStar k cs with
      | some r1 =>
        rw [hm] at h
        have e : r1 = r := by simpa using h
        subst e
        obtain ⟨t, ht, hk⟩ := ih hm
        exact ⟨t, ht.trans (List.suffix_cons c cs), hk⟩
      | none =>
        rw [hm] at h
        exact ⟨_, List.suffix_refl _, h⟩

/-- A successful run ends by calling its continuation on a suffix of the input. -/
theorem run_some {β : Type} (re : Node) : ∀ (inp : List Char) (caps : Caps)
    (k : List Char → Caps → Option β) (r : β), run re inp caps k = some r →
    ∃ rest caps1, rest <:+ inp ∧ k rest caps1 = some r := by
  induction re with
  | literal s =>
    intro inp caps k r h
    unfold run at h
    cases hm : matchLiteral s inp with
    | none => rw [hm] at h; simp at h
    | some rest =>
      rw [hm] at h
      exact ⟨rest, caps, ⟨s, (matchLiteral_some s inp rest hm).symm⟩, h⟩
  | dotStar =>
    intro inp caps k r h
    unfold run at h
    obtain ⟨t, ht, hk⟩ := matchDotStar_some _ r inp h
    exact ⟨t, caps, ht, hk⟩
  | concat a b iha ihb =>
    intro inp caps k r h
    unfold run at h
    obtain ⟨rest1, caps1, hs1, h1⟩ := iha inp caps _ r h
    obtain ⟨rest2, caps2, hs2, h2⟩ := ihb rest1 caps1 k r h1
    exact ⟨rest2, caps2, hs2.trans hs1, h2⟩
  | quest a iha =>
    intro inp caps k r h
    unfold run at h
    cases hm : run a inp caps k with
    | some r1 =>
      rw [hm] at h
      have : r1 = r := by simpa using h
      subst this
      exact iha inp caps k r1 hm
    | none =>
      rw [hm] at h
      exact ⟨inp, caps, List.suffix_refl _, h⟩
  | capture i a iha =>
    intro inp caps k r h
    unfold run at h
    obtain ⟨rest1, caps1, hs1, h1⟩ := iha inp caps _ r h
    exact ⟨rest1, _, hs1, h1⟩

/-- The uptime pattern only matches where the literal ` seconds` occurs. -/
theorem run_uptimeExpr_some {β : Type} (inp : List Char) (caps : Caps)
    (k : List Char → Caps → Option β) (r : β) (h : run uptimeExpr inp caps k = some r) :
    [' ', 's', 'e', 'c', 'o', 'n', 'd', 's'] <:+: inp := by
  unfold uptimeExpr at h
  rw [run] at h
  obtain ⟨r1, c1, s1, h⟩ := run_some _ _ _ _ _ h
  rw [run] at h
  obtain ⟨r2, c2, s2, h⟩ := run_some _ _ _ _ _ h
  rw [run] at h
  obtain ⟨r3, c3, s3, h⟩ := run_some _ _ _ _ _ h
  rw [run] at h
  obtain ⟨r4, c4, s4, h⟩ := run_some _ _ _ _ _ h
  rw [run] at h
  cases hm : matchLiteral [' ', 's', 'e', 'c', 'o', 'n', 'd', 's'] r4 with
  | none => rw [hm] at h; simp at h
  | some rest =>
    have e := matchLiteral_some _ _ _ hm
    have s14 : r4 <:+ inp := ((s4.trans s3).trans s2).trans s1
    have : [' ', 's', 'e', 'c', 'o', 'n', 'd', 's'] <:+: r4 := ⟨[], rest, by simp [e]⟩
    exact this.trans s14.isInfix

theorem search_none (re : Node) : ∀ (inp : List Char),
    (∀ t, t <:+ inp → matchHere re t = none) → search re inp = none := by
  intro inp
  induction inp with
  | nil => intro h; simpa [search] using h [] (List.suffix_refl _)
  | cons c cs ih =>
    intro h
    have h1 := h _ (List.suffix_refl _)
    have h2 := ih (fun t ht => h t (ht.trans (List.suffix_cons c cs)))
    simp [search, h1, h2]

theorem search_of_matchHere (re : Node) (inp : List Char) (r : List Char × Caps)
    (h : matchHere re inp = some r) : search re inp = some r := by
  cases inp with
  | nil => simpa [search] using h
  | cons c cs => simp [search, h]

/-- Without the literal ` seconds` in the text there is no match: the result is nil. -/
theorem FindStringSubmatch_nil (s : String)
    (h : ¬ [' ', 's', 'e', 'c', 'o', 'n', 'd', 's'] <:+: s.data) :
    uptimeRegexp.FindStringSubmatch s = [] := by
  have : search uptimeExpr s.data = none := by
    apply search_none
    intro t ht
    cases hm : matchHere uptimeExpr t with
    | none => rfl
    | some r =>
      exfalso
      exact h ((run_uptimeExpr_some _ _ _ _ hm).trans ht.isInfix)
  simp [Regexp.FindStringSubmatch, uptimeRegexp, this]

/-- On `D days H hours M minutes S seconds` the four groups are `D`, `H`, `M`, `S`. -/
theorem FindStringSubmatch_full (D H M S : List Char) (hD : ∀ c ∈ D, IsDigit c)
    (hH : ∀ c ∈ H, IsDigit c) (hM : ∀ c ∈ M, IsDigit c) (hS : ∀ c ∈ S, IsDigit c)
    (hHne : H ≠ []) (hMne : M ≠ []) (hSne : S ≠ []) :
    uptimeRegexp.FindStringSubmatch ⟨uptimeText D H M S⟩
      = [⟨uptimeText D H M S⟩, ⟨D⟩, ⟨H⟩, ⟨M⟩, ⟨S⟩] := by
  have hm : matchHere uptimeExpr (uptimeText D H M S)
      = some (uptimeText D H M S,
          setCap (setCap (setCap (setCap (fun _ => none) 1 D) 2 H) 3 M) 4 S) := by
    unfold matchHere
    apply run_uptimeExpr_full D H M S hD hH hM hS hHne hMne hSne
    simp
  have := search_of_matchHere _ _ _ hm
  simp [Regexp.FindStringSubmatch, uptimeRegexp, this, List.range, List.range.loop, setCap]

/-- On `S seconds` the first three groups are empty and the fourth is `S`. -/
theorem FindStringSubmatch_seconds (S : List Char) (hS : ∀ c ∈ S, IsDigit c) :
    uptimeRegexp.FindStringSubmatch ⟨S ++ [' ', 's', 'e', 'c', 'o', 'n', 'd', 's']⟩
      = [⟨S ++ [' ', 's', 'e', 'c', 'o', 'n', 'd', 's']⟩, "", "", "", ⟨S⟩] := by
  have hno : ∀ b lit, b ≠ 's' →
      NoOcc (' ' :: b :: lit) (S ++ [' ', 's', 'e', 'c', 'o', 'n', 'd', 's']) := by
    intro b lit hb
    rw [NoOcc_skip_append _ _ _ (fun c hc => (hS c hc).ne_space)]
    simp [NoOcc_space, NoOcc_skip, NoOcc_cons, NoOcc_nil_cons, matchLiteral, hb.symm]
  have hm : matchHere uptimeExpr (S ++ [' ', 's', 'e', 'c', 'o', 'n', 'd', 's'])
      = some (S ++ [' ', 's', 'e', 'c', 'o', 'n', 'd', 's'], setCap (fun _ => none) 4 S) := by
    unfold matchHere uptimeExpr
    rw [run, run_quest_miss _ _ _ _ (run_seg_miss _ _ _ _ _ (hno _ _ (by decide)))]
    rw [run, run_quest_miss _ _ _ _ (run_seg_miss _ _ _ _ _ (hno _ _ (by decide)))]
    rw [run, run_quest_miss _ _ _ _ (run_seg_miss _ _ _ _ _ (hno _ _ (by decide)))]
    apply run_seg_hit 4 ' ' ['s', 'e', 'c', 'o', 'n', 'd', 's'] S [] _ _ _
      (fun x hx => (hS x hx).ne_newline)
    · simp [NoOcc_skip, NoOcc_nil_cons]
    · simp
  have := search_of_matchHere _ _ _ hm
  simp [Regexp.FindStringSubmatch, uptimeRegexp, this, List.range, List.range.loop, setCap]

end regexp

/-! ## Facts about `strconv.Atoi` -/

namespace strconv
open regexp

theorem digitsValue_cons (acc : Nat) (c : Char) (ds : List Char) :
    digitsValue acc (c :: ds) = digitsValue (acc * 10 + (c.toNat - '0'.toNat)) ds := rfl

theorem le_digitsValue (ds : List Char) : ∀ acc, acc ≤ digitsValue acc ds := by
  induction ds with
  | nil => intro acc; exact le_refl _
  | cons c cs ih =>
    intro acc
    rw [digitsValue_cons]
    exact le_trans (by omega) (ih _)

theorem parseUintLoop_digits (ds : List Char) (hds : ∀ c ∈ ds, IsDigit c) :
    ∀ acc, digitsValue acc ds < 2 ^ 64 → parseUintLoop ds acc = .ok (digitsValue acc ds) := by
  induction ds with
  | nil => intro acc _; rfl
  | cons c cs ih =>
    intro acc h
    have hc : IsDigit c := hds c (by simp)
    rw [digitsValue_cons] at h ⊢
    have h1 := le_digitsValue cs (acc * 10 + (c.toNat - '0'.toNat))
    have hlt : acc * 10 + (c.toNat - '0'.toNat) < 2 ^ 64 := lt_of_le_of_lt h1 h
    have hcut : ¬ acc ≥ (2 ^ 64 - 1) / 10 + 1 := by
      norm_num
      norm_num at hlt
      omega
    have hmax : ¬ acc * 10 + (c.toNat - '0'.toNat) > 2 ^ 64 - 1 := by
      norm_num
      norm_num at hlt
      omega
    unfold parseUintLoop
    rw [if_pos (show '0'.toNat ≤ c.toNat ∧ c.toNat ≤ '9'.toNat from hc)]
    simp only [hcut, hmax, if_false]
    exact ih (fun x hx => hds x (by simp [hx])) _ h

theorem Atoi_digits (ds : List Char) (hds : ∀ c ∈ ds, IsDigit c) (hne : ds ≠ [])
    (h : digitsValue 0 ds < 2 ^ 63) : Atoi ⟨ds⟩ = .ok (digitsValue 0 ds : Nat) := by
  obtain ⟨c, cs, rfl⟩ := List.exists_cons_of_ne_nil hne
  have hc : IsDigit c := hds c (by simp)
  have hm : c ≠ '-' := hc.ne_of_not (by decide)
  have hp : c ≠ '+' := hc.ne_of_not (by decide)
  have hloop := parseUintLoop_digits (c :: cs) hds 0 (lt_trans h (by norm_num))
  unfold Atoi
  simp only [hm, hp, or_self, if_false, decide_False, hloop]
  have h' : digitsValue 0 (c :: cs) < 9223372036854775808 := by simpa using h
  simp [h']

theorem digitChar_isDigit (k : Nat) (hk : k < 10) :
    IsDigit (Nat.digitChar k) ∧ (Nat.digitChar k).toNat - '0'.toNat = k := by
  interval_cases k <;> decide

theorem toDigitsCore_spec (fuel : Nat) : ∀ (n : Nat) (ds : List Char), n < fuel →
    ∃ pre, Nat.toDigitsCore 10 fuel n ds = pre ++ ds ∧ pre ≠ [] ∧ (∀ c ∈ pre, IsDigit c) ∧
      digitsValue 0 pre = n := by
  induction fuel with
  | zero => intro n ds h; omega
  | succ fuel ih =>
    intro n ds h
    have hd := digitChar_isDigit (n % 10) (Nat.mod_lt _ (by norm_num))
    unfold Nat.toDigitsCore
    by_cases h0 : n / 10 = 0
    · simp only [h0, if_true]
      refine ⟨[Nat.digitChar (n % 10)], rfl, by simp, by simpa using hd.1, ?_⟩
      simp only [digitsValue, List.foldl, Nat.zero_mul, Nat.zero_add, hd.2]
      omega
    · simp only [h0, if_false]
      obtain ⟨pre, hpre, hne, hdig, hval⟩ := ih (n / 10) (Nat.digitChar (n % 10) :: ds) (by omega)
      refine ⟨pre ++ [Nat.digitChar (n % 10)], by simp [hpre], by simp, ?_, ?_⟩
      · intro c hc
        rcases List.mem_append.mp hc with hc | hc
        · exact hdig c hc
        · simp at hc; rw [hc]; exact hd.1
      · unfold digitsValue at hval ⊢
        rw [List.foldl_append, hval]
        simp only [List.foldl, hd.2]
        omega

theorem toString_nat_spec (n : Nat) :
    (toString n).data ≠ [] ∧ (∀ c ∈ (toString n).data, IsDigit c) ∧
      digitsValue 0 (toString n).data = n := by
  obtain ⟨pre, hpre, hne, hdig, hval⟩ := toDigitsCore_spec (n + 1) n [] (by omega)
  have : (toString n).data = pre := by
    show (Nat.toDigits 10 n) = pre
    simpa [Nat.toDigits] using hpre
  rw [this]
  exact ⟨hne, hdig, hval⟩

theorem Atoi_toString (n : Nat) (h : n < 2 ^ 63) : Atoi (toString n) = .ok (n : Int) := by
  obtain ⟨hne, hdig, hval⟩ := toString_nat_spec n
  have := Atoi_digits (toString n).data hdig hne (by rw [hval]; exact h)
  rw [hval] at this
  exact this

end strconv

/-! ## The system mapper, by outcome of the uptime match -/

section SystemLemmas
open prometheus collector

theorem collector.statusMetric_ok (lc : Char → Char) (d : Desc) (metric statusType : String)
    (labels : List String) (ch : Chan) (h : labels.length + 1 = d.variableLabels.length) :
    statusMetric lc (some d) metric statusType labels ch
      = .done (ch ++ [{ desc := d, valType := .GaugeValue, value := statusValue lc metric,
                        labelValues := labels ++ [statusType] }]) () := by
  unfold statusMetric
  rw [newGauge_ok _ _ _ _ (by simpa using h)]
  rfl

theorem collector.processSystemStats_nil (lc : Char → Char)
    (unmarshal : Bytes → Except Error systemData) (payload : Bytes) (data : systemData)
    (ch : Chan) (hdata : unmarshal payload = .ok data)
    (hre : regexp.uptimeRegexp.FindStringSubmatch data.Uptime = []) :
    processSystemStats lc unmarshal payload ch
      = .panicked (ch ++ systemHead lc data) (.indexOutOfRange 1 0) := by
  unfold processSystemStats
  rw [hdata]
  simp only [Go.bind_eq, Go.pure_eq, Go.andThen]
  simp [systemDesc, List.lookup, statusMetric_ok, newGauge_ok, colPromDesc, NewDesc, systemLabels,
    systemStatusLabels, regexp.Compile, ← regexp.uptimeRegexp.eq_1, hre, Go.index, Go.andThen, Go.throwPanic, systemHead,
    systemStatus, descOf]

theorem collector.processSystemStats_day_error (lc : Char → Char)
    (unmarshal : Bytes → Except Error systemData) (payload : Bytes) (data : systemData)
    (ch : Chan) (w g1 g2 g3 g4 : String) (e : Error) (hdata : unmarshal payload = .ok data)
    (hre : regexp.uptimeRegexp.FindStringSubmatch data.Uptime = [w, g1, g2, g3, g4])
    (h1 : strconv.Atoi g1 = .error e) :
    processSystemStats lc unmarshal payload ch
      = .done (ch ++ systemHead lc data)
          (some (.errorf "could not convert uptime day to int: %v" e)) := by
  unfold processSystemStats
  rw [hdata]
  simp only [Go.bind_eq, Go.pure_eq, Go.andThen]
  simp [systemDesc, List.lookup, statusMetric_ok, newGauge_ok, colPromDesc, NewDesc, systemLabels,
    systemStatusLabels, regexp.Compile, ← regexp.uptimeRegexp.eq_1, hre, Go.index, Go.andThen, Go.ret, systemHead,
    systemStatus, descOf, h1]

theorem collector.processSystemStats_ok (lc : Char → Char)
    (unmarshal : Bytes → Except Error systemData) (payload : Bytes) (data : systemData)
    (ch : Chan) (w g1 g2 g3 g4 : String) (d h m s : Int) (hdata : unmarshal payload = .ok data)
    (hre : regexp.uptimeRegexp.FindStringSubmatch data.Uptime = [w, g1, g2, g3, g4])
    (h1 : strconv.Atoi g1 = .ok d) (h2 : strconv.Atoi g2 = .ok h) (h3 : strconv.Atoi g3 = .ok m)
    (h4 : strconv.Atoi g4 = .ok s) :
    processSystemStats lc unmarshal payload ch
      = .done (ch ++ systemHead lc data ++ [systemUptime data (float64OfInt
          (wrapInt64 (wrapInt64 (wrapInt64 (wrapInt64 (d * 86400) + wrapInt64 (h * 3600))
            + wrapInt64 (m * 60)) + s)))]) none := by
  unfold processSystemStats
  rw [hdata]
  simp only [Go.bind_eq, Go.pure_eq, Go.andThen]
  simp [systemDesc, List.lookup, statusMetric_ok, newGauge_ok, newCounter_ok, colPromDesc, NewDesc,
    systemLabels, systemStatusLabels, regexp.Compile, ← regexp.uptimeRegexp.eq_1, hre, Go.index, Go.andThen, Go.ret, systemHead,
    systemStatus, systemUptime, descOf, h1, h2, h3, h4]

end SystemLemmas

/-! ## Emissions of the array mappers -/

section MapperLemmas
open prometheus collector

theorem Go.andThen_done {α β : Type} (m : Go α) (f : α → Go β) (ch ch1 : Chan) (a : α)
    (h : m ch = .done ch1 a) : Go.andThen m f ch = f a ch1 := by
  simp [Go.andThen, h]

theorem Go.forRange_done {α : Type} (body : α → Go Unit) (f : α → List Metric)
    (h : ∀ x ch, body x ch = .done (ch ++ f x) ()) :
    ∀ (xs : List α) (ch : Chan), Go.forRange body xs ch = .done (ch ++ xs.flatMap f) () := by
  intro xs
  induction xs with
  | nil => intro ch; simp [Go.forRange, Go.ret]
  | cons x xs ih =>
    intro ch
    simp [Go.forRange, Go.andThen, h x ch, ih, List.flatMap_cons]

theorem collector.stateMetric_ok (lc : Char → Char) (d : Desc) (stateStr : String)
    (labels : List String) (ch : Chan) (h : labels.length = d.variableLabels.length) :
    stateMetric lc (some d) stateStr labels ch
      = .done (ch ++ [gauge d (stateValue lc stateStr) labels]) () := by
  unfold stateMetric
  rw [newGauge_ok _ _ _ _ h]
  rfl

theorem collector.processBranchesEntry_eq (lc : Char → Char) (data : branchesEntry) (ch : Chan) :
    processBranchesEntry lc data ch = .done (ch ++ branchesMetrics lc data) () := by
  unfold processBranchesEntry
  simp only [Go.bind_eq, Go.andThen]
  simp [branchesDesc, List.lookup, statusMetric_ok, stateMetric_ok, newGauge_ok, colPromDesc,
    NewDesc, branchesLabels, branchesStatusLabels, branchesMetrics, gauge, descOf]

theorem collector.displayOrientationCode_eq (lc : Char → Char) (s : String) :
    displayOrientationCode lc s
      = if strings.ToLower lc s = "auto (inverted)" then 1
        else if strings.ToLower lc s = "auto (normal)" then 2
        else if strings.ToLower lc s = "inverted" then 3
        else if strings.ToLower lc s = "normal" then 4
        else 0 := by
  unfold displayOrientationCode displayOrientationVocabulary
  generalize strings.ToLower lc s = t
  by_cases h1 : t = "auto (inverted)"
  · subst h1; rfl
  by_cases h2 : t = "auto (normal)"
  · subst h2; rfl
  by_cases h3 : t = "inverted"
  · subst h3; rfl
  by_cases h4 : t = "normal"
  · subst h4; rfl
  have e1 : (t == "auto (inverted)") = false := by simpa using h1
  have e2 : (t == "auto (normal)") = false := by simpa using h2
  have e3 : (t == "inverted") = false := by simpa using h3
  have e4 : (t == "normal") = false := by simpa using h4
  simp [List.lookup, h1, h2, h3, h4, e1, e2, e3, e4]

theorem collector.processUnitsEntry_eq (lc : Char → Char) (data : unitsEntry) (ch : Chan) :
    processUnitsEntry lc data ch = .done (ch ++ unitsMetrics lc data) () := by
  unfold processUnitsEntry
  simp only [Go.bind_eq, Go.andThen]
  simp [unitsDesc, List.lookup, statusMetric_ok, newGauge_ok, colPromDesc,
    NewDesc, unitsLabels, unitsStatusLabels, unitsMetrics, gauge, descOf, displayOrientationGauge,
    unitSequenceGauge, displayOrientationCode_eq]

theorem collector.processUnitsStats_eq (lc : Char → Char)
    (unmarshal : Bytes → Except Error unitsData) (payload : Bytes) (units : unitsData)
    (ch : Chan) (hdata : unmarshal payload = .ok units) :
    processUnitsStats lc unmarshal payload ch
      = .done (ch ++ units.flatMap (unitsMetrics lc)) none := by
  unfold processUnitsStats
  rw [hdata]
  simp only [Go.bind_eq, Go.pure_eq]
  rw [Go.andThen_done _ _ _ _ _ (Go.forRange_done _ _ (processUnitsEntry_eq lc) units ch)]
  rfl

/-- A mapper whose `json.Unmarshal` fails returns the error without sending anything. -/
theorem collector.unmarshal_error_sends_nothing (lc : Char → Char) (payload : Bytes) (e : Error)
    (ch : Chan) :
    processBranchesStats lc (fun _ => .error e) payload ch
      = .done ch (some (.errorf "cannot unmarshal branches json: %s" e)) ∧
    processCordsStats lc (fun _ => .error e) payload ch
      = .done ch (some (.errorf "cannot unmarshal cords json: %s" e)) ∧
    processLinesStats lc (fun _ => .error e) payload ch
      = .done ch (some (.errorf "cannot unmarshal lines json: %s" e)) ∧
    processOcpsStats lc (fun _ => .error e) payload ch
      = .done ch (some (.errorf "cannot unmarshal ocps json: %s" e)) ∧
    processOutletsStats lc (fun _ => .error e) payload ch
      = .done ch (some (.errorf "cannot unmarshal outlets json: %s" e)) ∧
    processPhasesStats lc (fun _ => .error e) payload ch
      = .done ch (some (.errorf "cannot unmarshal phases json: %s" e)) ∧
    processUnitsStats lc (fun _ => .error e) payload ch
      = .done ch (some (.errorf "cannot unmarshal units json: %s" e)) ∧
    processSystemStats lc (fun _ => .error e) payload ch
      = .done ch (some (.errorf "cannot unmarshal system json: %s" e)) :=
  ⟨rfl, rfl, rfl, rfl, rfl, rfl, rfl, rfl⟩

end MapperLemmas

/-! ## Integer and floating point conversions of the uptime -/

section UptimeLemmas
open prometheus collector

theorem wrapInt64_of_fits (x : Int) (h0 : 0 ≤ x) (h : x < 9223372036854775808) :
    wrapInt64 x = x := by
  unfold wrapInt64
  norm_num
  omega

theorem roundNat_small (n : Nat) (h : n ≤ 2 ^ 53) : roundNat n = n := by
  rcases Nat.lt_or_ge n (2 ^ 53) with hlt | hge
  · have : roundShift 11 n = 0 := by
      unfold roundShift
      rw [if_pos hlt]
    simp [roundNat, this, Nat.mod_one]
  · have : n = 2 ^ 53 := le_antisymm h hge
    subst this
    decide

theorem float64OfInt_small (n : Nat) (h : n ≤ 2 ^ 53) : float64OfInt (n : Int) = (n : Rat) := by
  unfold float64OfInt
  simp [roundNat_small n h]

/-- The system mapper on `d days h hours m minutes s seconds` when the total fits an `int`. -/
theorem collector.processSystemStats_full (lc : Char → Char)
    (unmarshal : Bytes → Except Error systemData) (payload : Bytes) (data : systemData)
    (ch : Chan) (d h m s : Nat) (hdata : unmarshal payload = .ok data)
    (hup : data.Uptime = toString d ++ " days " ++ toString h ++ " hours " ++ toString m
      ++ " minutes " ++ toString s ++ " seconds")
    (hfit : d * 86400 + h * 3600 + m * 60 + s < 2 ^ 63) :
    processSystemStats lc unmarshal payload ch
      = .done (ch ++ systemHead lc data ++ [systemUptime data
          (float64OfInt ((d * 86400 + h * 3600 + m * 60 + s : Nat) : Int))]) none := by
  obtain ⟨hDne, hD, hDv⟩ := strconv.toString_nat_spec d
  obtain ⟨hHne, hH, hHv⟩ := strconv.toString_nat_spec h
  obtain ⟨hMne, hM, hMv⟩ := strconv.toString_nat_spec m
  obtain ⟨hSne, hS, hSv⟩ := strconv.toString_nat_spec s
  have htext : data.Uptime
      = ⟨regexp.uptimeText (toString d).data (toString h).data (toString m).data
          (toString s).data⟩ := by
    rw [hup]
    apply String.ext
    simp [String.data_append, regexp.uptimeText]
  have hre := regexp.FindStringSubmatch_full _ _ _ _ hD hH hM hS hHne hMne hSne
  rw [← htext] at hre
  have hfit' : d * 86400 + h * 3600 + m * 60 + s < 9223372036854775808 := by
    simpa using hfit
  have hlim : (2 : Nat) ^ 63 = 9223372036854775808 := by norm_num
  have e1 := strconv.Atoi_toString d (by omega)
  have e2 := strconv.Atoi_toString h (by omega)
  have e3 := strconv.Atoi_toString m (by omega)
  have e4 := strconv.Atoi_toString s (by omega)
  rw [processSystemStats_ok lc unmarshal payload data ch _ _ _ _ _ _ _ _ _ hdata hre e1 e2 e3 e4]
  have w1 : wrapInt64 ((d : Int) * 86400) = (d : Int) * 86400 :=
    wrapInt64_of_fits _ (by omega) (by omega)
  have w2 : wrapInt64 ((h : Int) * 3600) = (h : Int) * 3600 :=
    wrapInt64_of_fits _ (by omega) (by omega)
  have w3 : wrapInt64 ((m : Int) * 60) = (m : Int) * 60 :=
    wrapInt64_of_fits _ (by omega) (by omega)
  have w4 : wrapInt64 ((d : Int) * 86400 + (h : Int) * 3600) = (d : Int) * 86400 + (h : Int) * 3600 :=
    wrapInt64_of_fits _ (by omega) (by omega)
  have w5 : wrapInt64 ((d : Int) * 86400 + (h : Int) * 3600 + (m : Int) * 60)
      = (d : Int) * 86400 + (h : Int) * 3600 + (m : Int) * 60 :=
    wrapInt64_of_fits _ (by omega) (by omega)
  have w6 : wrapInt64 ((d : Int) * 86400 + (h : Int) * 3600 + (m : Int) * 60 + (s : Int))
      = (d : Int) * 86400 + (h : Int) * 3600 + (m : Int) * 60 + (s : Int) :=
    wrapInt64_of_fits _ (by omega) (by omega)
  rw [w1, w2, w3, w4, w5, w6]
  push_cast
  rfl

end UptimeLemmas

/-! ## Emissions of the remaining mappers and the shape of `Get` -/

section GetLemmas
open prometheus collector

theorem collector.reactanceMetric_ok (lc : Char → Char) (d : Desc) (reactanceStr : String)
    (labels : List String) (ch : Chan) (h : labels.length = d.variableLabels.length) :
    reactanceMetric lc (some d) reactanceStr labels ch
      = .done (ch ++ [gauge d (reactanceValue lc reactanceStr) labels]) () := by
  unfold reactanceMetric
  rw [newGauge_ok _ _ _ _ h]
  rfl

theorem collector.processCordsEntry_eq (lc : Char → Char) (data : cordsEntry) (ch : Chan) :
    processCordsEntry lc data ch = .done (ch ++ cordsMetrics lc data) () := by
  unfold processCordsEntry
  simp only [Go.bind_eq, Go.andThen]
  simp [cordsDesc, List.lookup, statusMetric_ok, stateMetric_ok, newGauge_ok, colPromDesc,
    NewDesc, cordsLabels, cordsStatusLabels, cordsMetrics, gauge, descOf]

theorem collector.processLinesEntry_eq (lc : Char → Char) (data : linesEntry) (ch : Chan) :
    processLinesEntry lc data ch = .done (ch ++ linesMetrics lc data) () := by
  unfold processLinesEntry
  simp only [Go.bind_eq, Go.andThen]
  simp [linesDesc, List.lookup, statusMetric_ok, stateMetric_ok, newGauge_ok, colPromDesc,
    NewDesc, linesLabels, linesStatusLabels, linesMetrics, gauge, descOf]

theorem collector.processOcpsEntry_eq (lc : Char → Char) (data : ocpsEntry) (ch : Chan) :
    processOcpsEntry lc data ch = .done (ch ++ ocpsMetrics lc data) () := by
  unfold processOcpsEntry
  simp only [Go.bind_eq, Go.andThen]
  simp [ocpsDesc, List.lookup, statusMetric_ok, stateMetric_ok, newGauge_ok, colPromDesc,
    NewDesc, ocpsLabels, ocpsStatusLabels, ocpsMetrics, gauge, descOf]

theorem collector.processOutletsEntry_eq (lc : Char → Char) (data : outletsEntry) (ch : Chan) :
    processOutletsEntry lc data ch = .done (ch ++ outletsMetrics lc data) () := by
  unfold processOutletsEntry
  simp only [Go.bind_eq, Go.andThen]
  simp [outletsDesc, List.lookup, statusMetric_ok, stateMetric_ok, newGauge_ok, colPromDesc,
    NewDesc, outletsLabels, outletsStatusLabels, outletsMetrics, gauge, descOf, outletLabels,
    reactanceValue]

theorem collector.processPhasesEntry_eq (lc : Char → Char) (data : phasesEntry) (ch : Chan) :
    processPhasesEntry lc data ch = .done (ch ++ phasesMetrics lc data) () := by
  unfold processPhasesEntry
  simp only [Go.bind_eq, Go.andThen]
  simp [phasesDesc, List.lookup, statusMetric_ok, stateMetric_ok, reactanceMetric_ok, newGauge_ok,
    colPromDesc, NewDesc, phasesLabels, phasesStatusLabels, phasesMetrics, gauge, descOf]

theorem collector.processBranchesStats_eq (lc : Char → Char)
    (unmarshal : Bytes → Except Error branchesData) (payload : Bytes) (xs : branchesData)
    (ch : Chan) (hdata : unmarshal payload = .ok xs) :
    processBranchesStats lc unmarshal payload ch
      = .done (ch ++ xs.flatMap (branchesMetrics lc)) none := by
  unfold processBranchesStats
  rw [hdata]
  simp only [Go.bind_eq, Go.pure_eq]
  rw [Go.andThen_done _ _ _ _ _ (Go.forRange_done _ _ (processBranchesEntry_eq lc) xs ch)]
  rfl

theorem collector.processCordsStats_eq (lc : Char → Char)
    (unmarshal : Bytes → Except Error cordsData) (payload : Bytes) (xs : cordsData)
    (ch : Chan) (hdata : unmarshal payload = .ok xs) :
    processCordsStats lc unmarshal payload ch
      = .done (ch ++ xs.flatMap (cordsMetrics lc)) none := by
  unfold processCordsStats
  rw [hdata]
  simp only [Go.bind_eq, Go.pure_eq]
  rw [Go.andThen_done _ _ _ _ _ (Go.forRange_done _ _ (processCordsEntry_eq lc) xs ch)]
  rfl

theorem collector.processLinesStats_eq (lc : Char → Char)
    (unmarshal : Bytes → Except Error linesData) (payload : Bytes) (xs : linesData)
    (ch : Chan) (hdata : unmarshal payload = .ok xs) :
    processLinesStats lc unmarshal payload ch
      = .done (ch ++ xs.flatMap (linesMetrics lc)) none := by
  unfold processLinesStats
  rw [hdata]
  simp only [Go.bind_eq, Go.pure_eq]
  rw [Go.andThen_done _ _ _ _ _ (Go.forRange_done _ _ (processLinesEntry_eq lc) xs ch)]
  rfl

theorem collector.processOcpsStats_eq (lc : Char → Char)
    (unmarshal : Bytes → Except Error ocpsData) (payload : Bytes) (xs : ocpsData)
    (ch : Chan) (hdata : unmarshal payload = .ok xs) :
    processOcpsStats lc unmarshal payload ch
      = .done (ch ++ xs.flatMap (ocpsMetrics lc)) none := by
  unfold processOcpsStats
  rw [hdata]
  simp only [Go.bind_eq, Go.pure_eq]
  rw [Go.andThen_done _ _ _ _ _ (Go.forRange_done _ _ (processOcpsEntry_eq lc) xs ch)]
  rfl

theorem collector.processOutletsStats_eq (lc : Char → Char)
    (unmarshal : Bytes → Except Error outletsData) (payload : Bytes) (xs : outletsData)
    (ch : Chan) (hdata : unmarshal payload = .ok xs) :
    processOutletsStats lc unmarshal payload ch
      = .done (ch ++ xs.flatMap (outletsMetrics lc)) none := by
  unfold processOutletsStats
  rw [hdata]
  simp only [Go.bind_eq, Go.pure_eq]
  rw [Go.andThen_done _ _ _ _ _ (Go.forRange_done _ _ (processOutletsEntry_eq lc) xs ch)]
  rfl

theorem collector.processPhasesStats_eq (lc : Char → Char)
    (unmarshal : Bytes → Except Error phasesData) (payload : Bytes) (xs : phasesData)
    (ch : Chan) (hdata : unmarshal payload = .ok xs) :
    processPhasesStats lc unmarshal payload ch
      = .done (ch ++ xs.flatMap (phasesMetrics lc)) none := by
  unfold processPhasesStats
  rw [hdata]
  simp only [Go.bind_eq, Go.pure_eq]
  rw [Go.andThen_done _ _ _ _ _ (Go.forRange_done _ _ (processPhasesEntry_eq lc) xs ch)]
  rfl

/-- A mapper whose `json.Unmarshal` fails returns that error and sends nothing. -/
theorem collector.processStats_unmarshal_error (lc : Char → Char) (payload : Bytes) (ch : Chan) :
    (∀ (u : Bytes → Except Error branchesData) e, u payload = .error e →
      processBranchesStats lc u payload ch
        = .done ch (some (.errorf "cannot unmarshal branches json: %s" e))) ∧
    (∀ (u : Bytes → Except Error cordsData) e, u payload = .error e →
      processCordsStats lc u payload ch
        = .done ch (some (.errorf "cannot unmarshal cords json: %s" e))) ∧
    (∀ (u : Bytes → Except Error linesData) e, u payload = .error e →
      processLinesStats lc u payload ch
        = .done ch (some (.errorf "cannot unmarshal lines json: %s" e))) ∧
    (∀ (u : Bytes → Except Error ocpsData) e, u payload = .error e →
      processOcpsStats lc u payload ch
        = .done ch (some (.errorf "cannot unmarshal ocps json: %s" e))) ∧
    (∀ (u : Bytes → Except Error outletsData) e, u payload = .error e →
      processOutletsStats lc u payload ch
        = .done ch (some (.errorf "cannot unmarshal outlets json: %s" e))) ∧
    (∀ (u : Bytes → Except Error phasesData) e, u payload = .error e →
      processPhasesStats lc u payload ch
        = .done ch (some (.errorf "cannot unmarshal phases json: %s" e))) ∧
    (∀ (u : Bytes → Except Error unitsData) e, u payload = .error e →
      processUnitsStats lc u payload ch
        = .done ch (some (.errorf "cannot unmarshal units json: %s" e))) ∧
    (∀ (u : Bytes → Except Error systemData) e, u payload = .error e →
      processSystemStats lc u payload ch
        = .done ch (some (.errorf "cannot unmarshal system json: %s" e))) := by
  refine ⟨?_, ?_, ?_, ?_, ?_, ?_, ?_, ?_⟩ <;> intro u e h
  · unfold processBranchesStats; rw [h]; rfl
  · unfold processCordsStats; rw [h]; rfl
  · unfold processLinesStats; rw [h]; rfl
  · unfold processOcpsStats; rw [h]; rfl
  · unfold processOutletsStats; rw [h]; rfl
  · unfold processPhasesStats; rw [h]; rfl
  · unfold processUnitsStats; rw [h]; rfl
  · unfold processSystemStats; rw [h]; rfl

/-- Each `Get` method is the common shape at its category. -/
theorem collector.World.Get_eq (w : World) (c : Category) (target user pass : String)
    (g : Globals) :
    w.Get c target user pass g
      = getShape c (getServerTechJSON w.client target user pass c.path) (w.process c) g := by
  cases c <;>
  · simp only [World.Get, World.process, Category.path, BranchesCollector.Get, CordsCollector.Get,
      LinesCollector.Get, OcpsCollector.Get, OutletsCollector.Get, PhasesCollector.Get,
      SystemCollector.Get, UnitsCollector.Get, getShape]
    cases getServerTechJSON w.client target user pass _ <;> rfl

theorem collector.processSystemStats_hour_error (lc : Char → Char)
    (unmarshal : Bytes → Except Error systemData) (payload : Bytes) (data : systemData)
    (ch : Chan) (w g1 g2 g3 g4 : String) (d : Int) (e : Error)
    (hdata : unmarshal payload = .ok data)
    (hre : regexp.uptimeRegexp.FindStringSubmatch data.Uptime = [w, g1, g2, g3, g4])
    (h1 : strconv.Atoi g1 = .ok d) (h2 : strconv.Atoi g2 = .error e) :
    processSystemStats lc unmarshal payload ch
      = .done (ch ++ systemHead lc data)
          (some (.errorf "could not convert uptime hour to int: %v" e)) := by
  unfold processSystemStats
  rw [hdata]
  simp only [Go.bind_eq, Go.pure_eq, Go.andThen]
  simp [systemDesc, List.lookup, statusMetric_ok, newGauge_ok, colPromDesc, NewDesc, systemLabels,
    systemStatusLabels, regexp.Compile, ← regexp.uptimeRegexp.eq_1, hre, Go.index, Go.andThen,
    Go.ret, systemHead, systemStatus, descOf, h1, h2]

theorem collector.processSystemStats_minute_error (lc : Char → Char)
    (unmarshal : Bytes → Except Error systemData) (payload : Bytes) (data : systemData)
    (ch : Chan) (w g1 g2 g3 g4 : String) (d h : Int) (e : Error)
    (hdata : unmarshal payload = .ok data)
    (hre : regexp.uptimeRegexp.FindStringSubmatch data.Uptime = [w, g1, g2, g3, g4])
    (h1 : strconv.Atoi g1 = .ok d) (h2 : strconv.Atoi g2 = .ok h)
    (h3 : strconv.Atoi g3 = .error e) :
    processSystemStats lc unmarshal payload ch
      = .done (ch ++ systemHead lc data)
          (some (.errorf "could not convert uptime minute to int: %v" e)) := by
  unfold processSystemStats
  rw [hdata]
  simp only [Go.bind_eq, Go.pure_eq, Go.andThen]
  simp [systemDesc, List.lookup, statusMetric_ok, newGauge_ok, colPromDesc, NewDesc, systemLabels,
    systemStatusLabels, regexp.Compile, ← regexp.uptimeRegexp.eq_1, hre, Go.index, Go.andThen,
    Go.ret, systemHead, systemStatus, descOf, h1, h2, h3]

theorem collector.processSystemStats_second_error (lc : Char → Char)
    (unmarshal : Bytes → Except Error systemData) (payload : Bytes) (data : systemData)
    (ch : Chan) (w g1 g2 g3 g4 : String) (d h m : Int) (e : Error)
    (hdata : unmarshal payload = .ok data)
    (hre : regexp.uptimeRegexp.FindStringSubmatch data.Uptime = [w, g1, g2, g3, g4])
    (h1 : strconv.Atoi g1 = .ok d) (h2 : strconv.Atoi g2 = .ok h)
    (h3 : strconv.Atoi g3 = .ok m) (h4 : strconv.Atoi g4 = .error e) :
    processSystemStats lc unmarshal payload ch
      = .done (ch ++ systemHead lc data)
          (some (.errorf "could not convert uptime second to int: %v" e)) := by
  unfold processSystemStats
  rw [hdata]
  simp only [Go.bind_eq, Go.pure_eq, Go.andThen]
  simp [systemDesc, List.lookup, statusMetric_ok, newGauge_ok, colPromDesc, NewDesc, systemLabels,
    systemStatusLabels, regexp.Compile, ← regexp.uptimeRegexp.eq_1, hre, Go.index, Go.andThen,
    Go.ret, systemHead, systemStatus, descOf, h1, h2, h3, h4]

/-- The result of `FindStringSubmatch` for the uptime pattern is nil or has five elements. -/
theorem regexp.FindStringSubmatch_shape (s : String) :
    regexp.uptimeRegexp.FindStringSubmatch s = [] ∨
      ∃ w g1 g2 g3 g4, regexp.uptimeRegexp.FindStringSubmatch s = [w, g1, g2, g3, g4] := by
  unfold regexp.Regexp.FindStringSubmatch
  cases regexp.search regexp.uptimeRegexp.expr s.data with
  | none => exact Or.inl rfl
  | some r => exact Or.inr ⟨_, _, _, _, _, rfl⟩

/-- The three ways in which `processSystemStats` ends on a decoded record. -/
theorem collector.processSystemStats_outcome (lc : Char → Char)
    (unmarshal : Bytes → Except Error systemData) (payload : Bytes) (data : systemData)
    (ch : Chan) (hdata : unmarshal payload = .ok data) :
    processSystemStats lc unmarshal payload ch
        = .panicked (ch ++ systemHead lc data) (.indexOutOfRange 1 0) ∨
    (∃ e, processSystemStats lc unmarshal payload ch
        = .done (ch ++ systemHead lc data) (some e)) ∨
    (∃ v, processSystemStats lc unmarshal payload ch
        = .done (ch ++ systemHead lc data ++ [systemUptime data v]) none) := by
  rcases regexp.FindStringSubmatch_shape data.Uptime with hre | ⟨w, g1, g2, g3, g4, hre⟩
  · exact Or.inl (processSystemStats_nil lc unmarshal payload data ch hdata hre)
  · right
    cases h1 : strconv.Atoi g1 with
    | error e =>
      exact Or.inl ⟨_, processSystemStats_day_error lc unmarshal payload data ch _ _ _ _ _ _
        hdata hre h1⟩
    | ok d =>
      cases h2 : strconv.Atoi g2 with
      | error e =>
        exact Or.inl ⟨_, processSystemStats_hour_error lc unmarshal payload data ch _ _ _ _ _ _ _
          hdata hre h1 h2⟩
      | ok h =>
        cases h3 : strconv.Atoi g3 with
        | error e =>
          exact Or.inl ⟨_, processSystemStats_minute_error lc unmarshal payload data ch _ _ _ _ _
            _ _ _ hdata hre h1 h2 h3⟩
        | ok m =>
          cases h4 : strconv.Atoi g4 with
          | error e =>
            exact Or.inl ⟨_, processSystemStats_second_error lc unmarshal payload data ch _ _ _ _
              _ _ _ _ _ hdata hre h1 h2 h3 h4⟩
          | ok s =>
            exact Or.inr ⟨_, processSystemStats_ok lc unmarshal payload data ch _ _ _ _ _ _ _ _ _
              hdata hre h1 h2 h3 h4⟩

/-! ### `Get` -/

theorem collector.getShape_fetch_error (c : Category) (e : Error)
    (process : Bytes → Go (Option Error)) (g : Globals) (ch : Chan) :
    getShape c (.error e) process g ch
      = .done ch (g.bump c, ((g.bump c).errors c : Float64), some (.errorf c.cannotGet e)) := rfl

theorem collector.getShape_done_none (c : Category) (body : Bytes)
    (process : Bytes → Go (Option Error)) (g : Globals) (ch ch1 : Chan)
    (h : process body ch = .done ch1 none) :
    getShape c (.ok body) process g ch = .done ch1 (g, (g.errors c : Float64), none) := by
  simp [getShape, Go.andThen, h, Go.ret]

theorem collector.getShape_done_some (c : Category) (body : Bytes)
    (process : Bytes → Go (Option Error)) (g : Globals) (ch ch1 : Chan) (e : Error)
    (h : process body ch = .done ch1 (some e)) :
    getShape c (.ok body) process g ch
      = .done ch1 (g.bump c, ((g.bump c).errors c : Float64), some e) := by
  simp [getShape, Go.andThen, h, Go.ret]

theorem collector.getShape_panicked (c : Category) (body : Bytes)
    (process : Bytes → Go (Option Error)) (g : Globals) (ch ch1 : Chan) (p : Panic)
    (h : process body ch = .panicked ch1 p) :
    getShape c (.ok body) process g ch = .panicked ch1 p := by
  simp [getShape, Go.andThen, h]

/-- How `Get` ends: it panics, or it returns no error and the counters as they were, or it
returns an error and the counters with its own counter incremented; the count it returns is
its own counter. -/
theorem collector.getShape_outcome (c : Category) (fetched : Except Error Bytes)
    (process : Bytes → Go (Option Error)) (g : Globals) (ch : Chan) :
    (∃ ch1 p, getShape c fetched process g ch = .panicked ch1 p) ∨
    (∃ ch1, getShape c fetched process g ch = .done ch1 (g, (g.errors c : Float64), none)) ∨
    (∃ ch1 e, getShape c fetched process g ch
        = .done ch1 (g.bump c, ((g.bump c).errors c : Float64), some e)) := by
  cases fetched with
  | error e => exact Or.inr (Or.inr ⟨ch, _, rfl⟩)
  | ok body =>
    cases h : process body ch with
    | panicked ch1 p => exact Or.inl ⟨ch1, p, getShape_panicked c body process g ch ch1 p h⟩
    | done ch1 r =>
      cases r with
      | none => exact Or.inr (Or.inl ⟨ch1, getShape_done_none c body process g ch ch1 h⟩)
      | some e => exact Or.inr (Or.inr ⟨ch1, e, getShape_done_some c body process g ch ch1 e h⟩)

/-! ### `runCollector` and `Collect` -/

theorem collector.runCollector_done (e : Exporter) (elapsed : Float64) (name : String)
    (collector : Collector) (g g1 : Globals) (ch ch1 : Chan) (totalErrors : Float64)
    (err : Option Error) (h : collector e.Target e.User e.Pass g ch = .done ch1 (g1, totalErrors, err)) :
    e.runCollector elapsed name collector g ch
      = .done (ch1 ++ metaMetrics name elapsed totalErrors (if err.isSome then 0 else 1)) g1 := by
  unfold Exporter.runCollector
  simp only [Go.bind_eq, Go.pure_eq]
  rw [Go.andThen_done _ _ _ _ _ h]
  cases err <;>
    simp [Go.andThen, Go.must, MustNewConstMetric, servertechDesc, List.lookup, promDesc, NewDesc,
      servertechLabels, Go.ret, Go.send, metaMetrics, gauge, descOf]

theorem collector.runCollector_panicked (e : Exporter) (elapsed : Float64) (name : String)
    (collector : Collector) (g : Globals) (ch ch1 : Chan) (p : Panic)
    (h : collector e.Target e.User e.Pass g ch = .panicked ch1 p) :
    e.runCollector elapsed name collector g ch = .panicked ch1 p := by
  unfold Exporter.runCollector
  simp only [Go.bind_eq, Go.pure_eq]
  simp [Go.andThen, h]

/-- The metric `Collect` sends first. -/
theorem collector.Collect_eq (e : Exporter) (elapsed : String → Float64) (g : Globals)
    (ch : Chan) :
    e.Collect elapsed g ch
      = e.runCollectors elapsed e.Collectors
          { g with servertechTotalScrapeCount := float64Inc g.servertechTotalScrapeCount }
          (ch ++ [scrapesTotal (float64Inc g.servertechTotalScrapeCount : Float64)]) := by
  unfold Exporter.Collect
  simp only [Go.bind_eq, Go.pure_eq]
  simp [Go.andThen, Go.must, MustNewConstMetric, servertechDesc, List.lookup, promDesc, NewDesc,
    Go.ret, Go.send, descOf, scrapesTotal]

theorem float64Inc_of_lt (n : Nat) (h : n < 2 ^ 53) : float64Inc n = n + 1 :=
  roundNat_small (n + 1) h

theorem le_float64Inc (n : Nat) (h : n ≤ 2 ^ 53) : n ≤ float64Inc n := by
  rcases Nat.lt_or_ge n (2 ^ 53) with hlt | hge
  · rw [float64Inc_of_lt n hlt]; omega
  · have : n = 2 ^ 53 := le_antisymm h hge
    subst this
    decide

end GetLemmas

/-! ## Outcomes of mappers, collectors and scrapes -/

section OutcomeLemmas
open prometheus collector

theorem collector.arity_flatMap {α : Type} (f : α → List Metric) (xs : List α)
    (h : ∀ x, ∀ m ∈ f x, ArityOK m) : ∀ m ∈ xs.flatMap f, ArityOK m := by
  intro m hm
  obtain ⟨x, _, hx⟩ := List.mem_flatMap.mp hm
  exact h x m hx

theorem collector.arity_branchesMetrics (lc : Char → Char) (x : branchesEntry) :
    ∀ m ∈ branchesMetrics lc x, ArityOK m := by
  simp [branchesMetrics, gauge, ArityOK, descOf, branchesDesc, List.lookup, colPromDesc, NewDesc,
    branchesLabels, branchesStatusLabels]

theorem collector.arity_cordsMetrics (lc : Char → Char) (x : cordsEntry) :
    ∀ m ∈ cordsMetrics lc x, ArityOK m := by
  simp [cordsMetrics, gauge, ArityOK, descOf, cordsDesc, List.lookup, colPromDesc, NewDesc,
    cordsLabels, cordsStatusLabels]

theorem collector.arity_linesMetrics (lc : Char → Char) (x : linesEntry) :
    ∀ m ∈ linesMetrics lc x, ArityOK m := by
  simp [linesMetrics, gauge, ArityOK, descOf, linesDesc, List.lookup, colPromDesc, NewDesc,
    linesLabels, linesStatusLabels]

theorem collector.arity_ocpsMetrics (lc : Char → Char) (x : ocpsEntry) :
    ∀ m ∈ ocpsMetrics lc x, ArityOK m := by
  simp [ocpsMetrics, gauge, ArityOK, descOf, ocpsDesc, List.lookup, colPromDesc, NewDesc,
    ocpsLabels, ocpsStatusLabels]

theorem collector.arity_outletsMetrics (lc : Char → Char) (x : outletsEntry) :
    ∀ m ∈ outletsMetrics lc x, ArityOK m := by
  simp [outletsMetrics, gauge, ArityOK, descOf, outletsDesc, List.lookup, colPromDesc, NewDesc,
    outletsLabels, outletsStatusLabels, outletLabels]

theorem collector.arity_phasesMetrics (lc : Char → Char) (x : phasesEntry) :
    ∀ m ∈ phasesMetrics lc x, ArityOK m := by
  simp [phasesMetrics, gauge, ArityOK, descOf, phasesDesc, List.lookup, colPromDesc, NewDesc,
    phasesLabels, phasesStatusLabels]

theorem collector.arity_unitsMetrics (lc : Char → Char) (x : unitsEntry) :
    ∀ m ∈ unitsMetrics lc x, ArityOK m := by
  simp [unitsMetrics, displayOrientationGauge, unitSequenceGauge, gauge, ArityOK, descOf,
    unitsDesc, List.lookup, colPromDesc, NewDesc, unitsLabels, unitsStatusLabels]

theorem collector.arity_systemHead (lc : Char → Char) (x : systemData) :
    ∀ m ∈ systemHead lc x, ArityOK m := by
  simp [systemHead, systemStatus, ArityOK, descOf, systemDesc, List.lookup, colPromDesc, NewDesc,
    systemLabels, systemStatusLabels]

theorem collector.arity_systemUptime (x : systemData) (v : Float64) :
    ArityOK (systemUptime x v) := by
  simp [systemUptime, ArityOK, descOf, systemDesc, List.lookup, colPromDesc, NewDesc,
    systemLabels]

theorem collector.arity_metaMetrics (name : String) (a b c : Float64) :
    ∀ m ∈ metaMetrics name a b c, ArityOK m := by
  simp [metaMetrics, gauge, ArityOK, descOf, servertechDesc, List.lookup, promDesc, NewDesc,
    servertechLabels]

/-- How a mapper ends: it appends metrics of the right arity to the channel and returns, or (the
system mapper only) panics on the index into the submatch result. -/
theorem collector.World.process_outcome (w : World) (c : Category) (body : Bytes) (ch : Chan) :
    ∃ out : List Metric, (∀ m ∈ out, ArityOK m) ∧
      (w.process c body ch = .done (ch ++ out) none ∨
       (∃ e, w.process c body ch = .done (ch ++ out) (some e)) ∨
       w.process c body ch = .panicked (ch ++ out) (.indexOutOfRange 1 0)) := by
  have herr := processStats_unmarshal_error w.lowerCase body ch
  cases c with
  | branches =>
    cases h : w.unmarshal.branches body with
    | error e => exact ⟨[], by simp, Or.inr (Or.inl ⟨_, by simpa using herr.1 _ e h⟩)⟩
    | ok xs =>
      exact ⟨_, arity_flatMap _ xs (arity_branchesMetrics w.lowerCase),
        Or.inl (processBranchesStats_eq _ _ _ xs ch h)⟩
  | cords =>
    cases h : w.unmarshal.cords body with
    | error e => exact ⟨[], by simp, Or.inr (Or.inl ⟨_, by simpa using herr.2.1 _ e h⟩)⟩
    | ok xs =>
      exact ⟨_, arity_flatMap _ xs (arity_cordsMetrics w.lowerCase),
        Or.inl (processCordsStats_eq _ _ _ xs ch h)⟩
  | lines =>
    cases h : w.unmarshal.lines body with
    | error e => exact ⟨[], by simp, Or.inr (Or.inl ⟨_, by simpa using herr.2.2.1 _ e h⟩)⟩
    | ok xs =>
      exact ⟨_, arity_flatMap _ xs (arity_linesMetrics w.lowerCase),
        Or.inl (processLinesStats_eq _ _ _ xs ch h)⟩
  | ocps =>
    cases h : w.unmarshal.ocps body with
    | error e => exact ⟨[], by simp, Or.inr (Or.inl ⟨_, by simpa using herr.2.2.2.1 _ e h⟩)⟩
    | ok xs =>
      exact ⟨_, arity_flatMap _ xs (arity_ocpsMetrics w.lowerCase),
        Or.inl (processOcpsStats_eq _ _ _ xs ch h)⟩
  | outlets =>
    cases h : w.unmarshal.outlets body with
    | error e => exact ⟨[], by simp, Or.inr (Or.inl ⟨_, by simpa using herr.2.2.2.2.1 _ e h⟩)⟩
    | ok xs =>
      exact ⟨_, arity_flatMap _ xs (arity_outletsMetrics w.lowerCase),
        Or.inl (processOutletsStats_eq _ _ _ xs ch h)⟩
  | phases =>
    cases h : w.unmarshal.phases body with
    | error e => exact ⟨[], by simp, Or.inr (Or.inl ⟨_, by simpa using herr.2.2.2.2.2.1 _ e h⟩)⟩
    | ok xs =>
      exact ⟨_, arity_flatMap _ xs (arity_phasesMetrics w.lowerCase),
        Or.inl (processPhasesStats_eq _ _ _ xs ch h)⟩
  | units =>
    cases h : w.unmarshal.units body with
    | error e => exact ⟨[], by simp, Or.inr (Or.inl ⟨_, by simpa using herr.2.2.2.2.2.2.1 _ e h⟩)⟩
    | ok xs =>
      exact ⟨_, arity_flatMap _ xs (arity_unitsMetrics w.lowerCase),
        Or.inl (processUnitsStats_eq _ _ _ xs ch h)⟩
  | system =>
    cases h : w.unmarshal.system body with
    | error e => exact ⟨[], by simp, Or.inr (Or.inl ⟨_, by simpa using herr.2.2.2.2.2.2.2 _ e h⟩)⟩
    | ok data =>
      rcases processSystemStats_outcome w.lowerCase _ body data ch h with hp | ⟨e, he⟩ | ⟨v, hv⟩
      · exact ⟨_, arity_systemHead _ data, Or.inr (Or.inr hp)⟩
      · exact ⟨_, arity_systemHead _ data, Or.inr (Or.inl ⟨e, he⟩)⟩
      · refine ⟨systemHead w.lowerCase data ++ [systemUptime data v], ?_, Or.inl ?_⟩
        · intro m hm
          rcases List.mem_append.mp hm with hm | hm
          · exact arity_systemHead _ data m hm
          · simp at hm; rw [hm]; exact arity_systemUptime data v
        · simpa [World.process, List.append_assoc] using hv

/-- How `Get` ends. -/
theorem collector.World.Get_outcome (w : World) (c : Category) (target user pass : String)
    (g : Globals) (ch : Chan) :
    ∃ out : List Metric, (∀ m ∈ out, ArityOK m) ∧
      (w.Get c target user pass g ch = .done (ch ++ out) (g, (g.errors c : Float64), none) ∨
       (∃ e, w.Get c target user pass g ch
          = .done (ch ++ out) (g.bump c, ((g.bump c).errors c : Float64), some e)) ∨
       w.Get c target user pass g ch = .panicked (ch ++ out) (.indexOutOfRange 1 0)) := by
  rw [World.Get_eq]
  cases hf : getServerTechJSON w.client target user pass c.path with
  | error e =>
    exact ⟨[], by simp, Or.inr (Or.inl ⟨.errorf c.cannotGet e, by simp [getShape_fetch_error]⟩)⟩
  | ok body =>
    obtain ⟨out, hout, h | ⟨e, h⟩ | h⟩ := World.process_outcome w c body ch
    · exact ⟨out, hout, Or.inl (getShape_done_none c body _ g ch _ h)⟩
    · exact ⟨out, hout, Or.inr (Or.inl ⟨e, getShape_done_some c body _ g ch _ e h⟩)⟩
    · exact ⟨out, hout, Or.inr (Or.inr (getShape_panicked c body _ g ch _ _ h))⟩

theorem collector.Globals.bump_scrapeCount (g : Globals) (c : Category) :
    (g.bump c).servertechTotalScrapeCount = g.servertechTotalScrapeCount := by
  cases c <;> rfl

theorem collector.Globals.bump_errors_self (g : Globals) (c : Category) :
    (g.bump c).errors c = float64Inc (g.errors c) := by
  cases c <;> rfl

theorem collector.Globals.bump_errors_other (g : Globals) (c d : Category) (h : d ≠ c) :
    (g.bump c).errors d = g.errors d := by
  cases c <;> cases d <;> first | rfl | exact absurd rfl h

/-- How `runCollector` ends for the collector of a category. -/
theorem collector.runCategory_outcome (w : World) (c : Category) (e : Exporter)
    (elapsed : Float64) (name : String) (g : Globals) (ch : Chan) :
    ∃ out : List Metric, (∀ m ∈ out, ArityOK m) ∧
      ((∃ g1, e.runCollector elapsed name (w.Get c) g ch = .done (ch ++ out) g1 ∧
          g1.servertechTotalScrapeCount = g.servertechTotalScrapeCount) ∨
       e.runCollector elapsed name (w.Get c) g ch
          = .panicked (ch ++ out) (.indexOutOfRange 1 0)) := by
  obtain ⟨out, hout, h | ⟨er, h⟩ | h⟩ := World.Get_outcome w c e.Target e.User e.Pass g ch
  · refine ⟨out ++ metaMetrics name elapsed (g.errors c : Float64) 1, ?_, Or.inl ⟨g, ?_, rfl⟩⟩
    · intro m hm
      rcases List.mem_append.mp hm with hm | hm
      · exact hout m hm
      · exact arity_metaMetrics _ _ _ _ m hm
    · rw [runCollector_done e elapsed name _ g g ch _ _ _ h]
      simp [List.append_assoc]
  · refine ⟨out ++ metaMetrics name elapsed ((g.bump c).errors c : Float64) 0, ?_,
      Or.inl ⟨g.bump c, ?_, Globals.bump_scrapeCount g c⟩⟩
    · intro m hm
      rcases List.mem_append.mp hm with hm | hm
      · exact hout m hm
      · exact arity_metaMetrics _ _ _ _ m hm
    · rw [runCollector_done e elapsed name _ g _ ch _ _ _ h]
      simp [List.append_assoc]
  · exact ⟨out, hout, Or.inr (runCollector_panicked e elapsed name _ g ch _ _ h)⟩

/-- How the collectors of an exporter built from categories end. -/
theorem collector.runCollectors_outcome (w : World) (e : Exporter) (elapsed : String → Float64) :
    ∀ (cs : List Category) (g : Globals) (ch : Chan),
    ∃ out : List Metric, (∀ m ∈ out, ArityOK m) ∧
      ((∃ g1, e.runCollectors elapsed (cs.map (fun c => (c.path, w.Get c))) g ch
            = .done (ch ++ out) g1 ∧
          g1.servertechTotalScrapeCount = g.servertechTotalScrapeCount) ∨
       e.runCollectors elapsed (cs.map (fun c => (c.path, w.Get c))) g ch
          = .panicked (ch ++ out) (.indexOutOfRange 1 0)) := by
  intro cs
  induction cs with
  | nil => intro g ch; exact ⟨[], by simp, Or.inl ⟨g, by simp [Exporter.runCollectors, Go.pure_eq, Go.ret], rfl⟩⟩
  | cons c cs ih =>
    intro g ch
    obtain ⟨out1, hout1, ⟨g1, h1, hg1⟩ | h1⟩ :=
      runCategory_outcome w c e (elapsed c.path) c.path g ch
    · obtain ⟨out2, hout2, ⟨g2, h2, hg2⟩ | h2⟩ := ih g1 (ch ++ out1)
      · refine ⟨out1 ++ out2, ?_, Or.inl ⟨g2, ?_, hg2.trans hg1⟩⟩
        · intro m hm
          rcases List.mem_append.mp hm with hm | hm
          · exact hout1 m hm
          · exact hout2 m hm
        · simp only [List.map_cons, Exporter.runCollectors, Go.bind_eq]
          rw [Go.andThen_done _ _ _ _ _ h1, h2, List.append_assoc]
      · refine ⟨out1 ++ out2, ?_, Or.inr ?_⟩
        · intro m hm
          rcases List.mem_append.mp hm with hm | hm
          · exact hout1 m hm
          · exact hout2 m hm
        · simp only [List.map_cons, Exporter.runCollectors, Go.bind_eq]
          rw [Go.andThen_done _ _ _ _ _ h1, h2, List.append_assoc]
    · refine ⟨out1, hout1, Or.inr ?_⟩
      simp only [List.map_cons, Exporter.runCollectors, Go.bind_eq]
      simp [Go.andThen, h1]

/-- The result of `Get` depends on the counters only through the category's own counter. -/
theorem collector.getShape_congr (c : Category) (fetched : Except Error Bytes)
    (process : Bytes → Go (Option Error)) (g g' : Globals) (ch : Chan)
    (h : g.errors c = g'.errors c) :
    (getShape c fetched process g ch).sent = (getShape c fetched process g' ch).sent ∧
    (getShape c fetched process g ch).returned.map (fun r => (r.2.1, r.2.2))
      = (getShape c fetched process g' ch).returned.map (fun r => (r.2.1, r.2.2)) ∧
    (getShape c fetched process g ch).returned.map (fun r => r.1.errors c)
      = (getShape c fetched process g' ch).returned.map (fun r => r.1.errors c) := by
  have hb : (g.bump c).errors c = (g'.bump c).errors c := by
    rw [Globals.bump_errors_self, Globals.bump_errors_self, h]
  cases fetched with
  | error e => simp [getShape_fetch_error, Exec.sent, Exec.returned, hb]
  | ok body =>
    cases hp : process body ch with
    | panicked ch1 p =>
      simp [getShape_panicked c body process _ ch ch1 p hp, Exec.sent, Exec.returned]
    | done ch1 r =>
      cases r with
      | none => simp [getShape_done_none c body process _ ch ch1 hp, Exec.sent, Exec.returned, h]
      | some e =>
        simp [getShape_done_some c body process _ ch ch1 e hp, Exec.sent, Exec.returned, hb]

theorem float64Inc_eq_min (n : Nat) (h : n ≤ 2 ^ 53) : float64Inc n = min (n + 1) (2 ^ 53) := by
  rcases Nat.lt_or_ge n (2 ^ 53) with hlt | hge
  · rw [float64Inc_of_lt n hlt, Nat.min_eq_left hlt]
  · have : n = 2 ^ 53 := le_antisymm h hge
    subst this
    decide

/-- After a sequence of `Get` calls the category's counter is the number of calls that returned
an error, up to the value 2^53 at which a `float64` counter stops growing. -/
theorem collector.getSequence_count (c : Category) : ∀ (calls : List Call) (g : Globals)
    (ch ch1 : Chan) (g1 : Globals) (errs : List (Option Error)), g.errors c ≤ 2 ^ 53 →
    getSequence c calls g ch = .done ch1 (g1, errs) →
    errs.length = calls.length ∧
      g1.errors c = min (g.errors c + (errs.filter Option.isSome).length) (2 ^ 53) := by
  intro calls
  induction calls with
  | nil =>
    intro g ch ch1 g1 errs hg h
    simp only [getSequence, Go.ret, Exec.done.injEq, Prod.mk.injEq] at h
    obtain ⟨_, rfl, rfl⟩ := h
    exact ⟨rfl, by simpa using (Nat.min_eq_left hg).symm⟩
  | cons call calls ih =>
    intro g ch ch1 g1 errs hg h
    unfold getSequence at h
    obtain ⟨out, _, hget | ⟨e, hget⟩ | hget⟩ :=
      World.Get_outcome call.world c call.target call.user call.pass g ch
    · rw [Go.andThen_done _ _ _ _ _ hget] at h
      cases hrest : getSequence c calls g (ch ++ out) with
      | panicked ch2 p => simp [Go.andThen, hrest] at h
      | done ch2 r =>
        obtain ⟨g2, errs2⟩ := r
        simp only [Go.andThen, hrest, Go.ret, Exec.done.injEq, Prod.mk.injEq] at h
        obtain ⟨_, rfl, rfl⟩ := h
        obtain ⟨hlen, hcount⟩ := ih g (ch ++ out) ch2 g2 errs2 hg hrest
        simp [hlen, hcount]
    · rw [Go.andThen_done _ _ _ _ _ hget] at h
      have hb : (g.bump c).errors c ≤ 2 ^ 53 := by
        rw [Globals.bump_errors_self, float64Inc_eq_min _ hg]
        exact Nat.min_le_right _ _
      cases hrest : getSequence c calls (g.bump c) (ch ++ out) with
      | panicked ch2 p => simp [Go.andThen, hrest] at h
      | done ch2 r =>
        obtain ⟨g2, errs2⟩ := r
        simp only [Go.andThen, hrest, Go.ret, Exec.done.injEq, Prod.mk.injEq] at h
        obtain ⟨_, rfl, rfl⟩ := h
        obtain ⟨hlen, hcount⟩ := ih (g.bump c) (ch ++ out) ch2 g2 errs2 hb hrest
        refine ⟨by simp [hlen], ?_⟩
        rw [hcount, Globals.bump_errors_self, float64Inc_eq_min _ hg]
        simp only [List.filter_cons, Option.isSome_some, if_true, List.length_cons]
        omega
    · simp [Go.andThen, hget] at h

/-- Every request to the device of `deadWorld` fails. -/
theorem collector.getServerTechJSON_deadWorld (target user pass path : String) :
    getServerTechJSON deadWorld.client target user pass path
      = .error (.errorf "failed to perform http request: %v"
          (.text "context deadline exceeded")) := rfl

/-- A sequence of `Get` calls against `deadWorld` sends nothing; every call returns an error. -/
theorem collector.getSequence_deadWorld (c : Category) (target user pass : String) :
    ∀ (n : Nat) (g : Globals) (ch : Chan), ∃ g1,
      getSequence c (List.replicate n ⟨deadWorld, target, user, pass⟩) g ch
        = .done ch (g1, List.replicate n (some (.errorf c.cannotGet
            (.errorf "failed to perform http request: %v" (.text "context deadline exceeded"))))) := by
  intro n
  induction n with
  | zero => intro g ch; exact ⟨g, rfl⟩
  | succ n ih =>
    intro g ch
    obtain ⟨g1, h1⟩ := ih (g.bump c) ch
    refine ⟨g1, ?_⟩
    have hget : deadWorld.Get c target user pass g ch
        = .done ch (g.bump c, ((g.bump c).errors c : Float64), some (.errorf c.cannotGet
            (.errorf "failed to perform http request: %v" (.text "context deadline exceeded")))) := by
      rw [World.Get_eq, getServerTechJSON_deadWorld, getShape_fetch_error]
    simp only [List.replicate_succ, getSequence]
    rw [Go.andThen_done _ _ _ _ _ hget]
    simp [Go.andThen, h1, Go.ret]

end OutcomeLemmas

/-! ## Order and number of the emissions of a mapper -/

section OrderLemmas
open prometheus collector

/-- The blocks of a decoded list are the expected emissions of its entities. -/
theorem collector.blocksOf_ok {α : Type} (body : α → Go Unit) (f : α → List Metric)
    (h : ∀ x ch, body x ch = .done (ch ++ f x) ()) (xs : List α) :
    blocksOf body (.ok xs) = some (xs.map f) := by
  have : (fun x => (body x []).sent) = f := by
    funext x
    simp [h x [], Exec.sent]
  simp [blocksOf, this]

/-- What a mapper built from a loop body does on two decoded lists and on their concatenation. -/
theorem collector.order_of_blocks {α : Type} (f : α → List Metric) (xs ys : List α) (ch : Chan) :
    (ch ++ xs.flatMap f = ch ++ (xs.map f).flatten) ∧
    (ch ++ (xs.map f).flatten ++ ys.flatMap f
      = ch ++ (xs.map f).flatten ++ (ys.map f).flatten) ∧
    (ch ++ (xs ++ ys).flatMap f = ch ++ (xs.map f).flatten ++ (ys.map f).flatten) := by
  simp [List.flatMap_def, List.flatten_append, List.append_assoc]

end OrderLemmas

section CountLemmas
open prometheus collector

/-- Length of the emissions of a list of entities that send `k` metrics each. -/
theorem collector.length_flatMap_const {α : Type} (f : α → List Metric) (k : Nat)
    (h : ∀ x, (f x).length = k) (xs : List α) : (xs.flatMap f).length = k * xs.length := by
  induction xs with
  | nil => rfl
  | cons x xs ih =>
    rw [List.flatMap_cons, List.length_append, h x, ih, List.length_cons, Nat.mul_succ]
    omega

end CountLemmas

section ReactanceLemmas
open prometheus collector

theorem collector.reactanceValue_range (lc : Char → Char) (s : String) :
    reactanceValue lc s = 0 ∨ reactanceValue lc s = 1 ∨ reactanceValue lc s = 2
      ∨ reactanceValue lc s = 3 := by
  unfold reactanceValue
  split_ifs <;> simp

end ReactanceLemmas

/-! ## The request of `getServerTechJSON`, and mappers on any sink -/

section RequestLemmas
open prometheus collector

/-- The result of `getServerTechJSON` in terms of the round trip, when `http.NewRequest`
accepts the URL. -/
theorem collector.getServerTechJSON_eq (client : http.Client) (target user pass path : String)
    (hreq : client.requestError "GET" ("https://" ++ target ++ "/jaws/monitor/" ++ path) = none) :
    getServerTechJSON client target user pass path
      = match client.Do (requestFor target user pass path) with
        | .error err => .error (.errorf "failed to perform http request: %v" err)
        | .ok resp =>
          if resp.StatusCode ≠ 200 then
            .error (.errorfInt "incorrect status code received from device: %d" resp.StatusCode)
          else
            match resp.Body with
            | .error err => .error (.errorf "failed to read body of request from device: %v" err)
            | .ok body => .ok body := by
  unfold getServerTechJSON http.NewRequest
  rw [hreq]
  rfl

end RequestLemmas

section UniformLemmas
open prometheus collector

/-- The three ways in which `processSystemStats` ends on a decoded record, whatever the sink
holds. -/
theorem collector.processSystemStats_uniform (lc : Char → Char)
    (unmarshal : Bytes → Except Error systemData) (payload : Bytes) (data : systemData)
    (hdata : unmarshal payload = .ok data) :
    (∀ ch, processSystemStats lc unmarshal payload ch
        = .panicked (ch ++ systemHead lc data) (.indexOutOfRange 1 0)) ∨
    (∃ e, ∀ ch, processSystemStats lc unmarshal payload ch
        = .done (ch ++ systemHead lc data) (some e)) ∨
    (∃ v, ∀ ch, processSystemStats lc unmarshal payload ch
        = .done (ch ++ systemHead lc data ++ [systemUptime data v]) none) := by
  rcases regexp.FindStringSubmatch_shape data.Uptime with hre | ⟨w, g1, g2, g3, g4, hre⟩
  · exact Or.inl fun ch => processSystemStats_nil lc unmarshal payload data ch hdata hre
  · right
    cases h1 : strconv.Atoi g1 with
    | error e =>
      exact Or.inl ⟨_, fun ch => processSystemStats_day_error lc unmarshal payload data ch _ _ _
        _ _ _ hdata hre h1⟩
    | ok d =>
      cases h2 : strconv.Atoi g2 with
      | error e =>
        exact Or.inl ⟨_, fun ch => processSystemStats_hour_error lc unmarshal payload data ch _ _
          _ _ _ _ _ hdata hre h1 h2⟩
      | ok h =>
        cases h3 : strconv.Atoi g3 with
        | error e =>
          exact Or.inl ⟨_, fun ch => processSystemStats_minute_error lc unmarshal payload data ch
            _ _ _ _ _ _ _ _ hdata hre h1 h2 h3⟩
        | ok m =>
          cases h4 : strconv.Atoi g4 with
          | error e =>
            exact Or.inl ⟨_, fun ch => processSystemStats_second_error lc unmarshal payload data
              ch _ _ _ _ _ _ _ _ _ hdata hre h1 h2 h3 h4⟩
          | ok s =>
            exact Or.inr ⟨_, fun ch => processSystemStats_ok lc unmarshal payload data ch _ _ _ _
              _ _ _ _ _ hdata hre h1 h2 h3 h4⟩

/-- What a mapper sends and how it ends do not depend on what the sink holds. -/
theorem collector.World.process_uniform (w : World) (c : Category) (body : Bytes) :
    ∃ out : List Metric,
      (∀ ch, w.process c body ch = .done (ch ++ out) none) ∨
      (∃ e, ∀ ch, w.process c body ch = .done (ch ++ out) (some e)) ∨
      (∀ ch, w.process c body ch = .panicked (ch ++ out) (.indexOutOfRange 1 0)) := by
  have herr := fun ch => processStats_unmarshal_error w.lowerCase body ch
  cases c with
  | branches =>
    cases h : w.unmarshal.branches body with
    | error e => exact ⟨[], Or.inr (Or.inl ⟨_, fun ch => by simpa using (herr ch).1 _ e h⟩)⟩
    | ok xs => exact ⟨_, Or.inl fun ch => processBranchesStats_eq _ _ _ xs ch h⟩
  | cords =>
    cases h : w.unmarshal.cords body with
    | error e => exact ⟨[], Or.inr (Or.inl ⟨_, fun ch => by simpa using (herr ch).2.1 _ e h⟩)⟩
    | ok xs => exact ⟨_, Or.inl fun ch => processCordsStats_eq _ _ _ xs ch h⟩
  | lines =>
    cases h : w.unmarshal.lines body with
    | error e => exact ⟨[], Or.inr (Or.inl ⟨_, fun ch => by simpa using (herr ch).2.2.1 _ e h⟩)⟩
    | ok xs => exact ⟨_, Or.inl fun ch => processLinesStats_eq _ _ _ xs ch h⟩
  | ocps =>
    cases h : w.unmarshal.ocps body with
    | error e =>
      exact ⟨[], Or.inr (Or.inl ⟨_, fun ch => by simpa using (herr ch).2.2.2.1 _ e h⟩)⟩
    | ok xs => exact ⟨_, Or.inl fun ch => processOcpsStats_eq _ _ _ xs ch h⟩
  | outlets =>
    cases h : w.unmarshal.outlets body with
    | error e =>
      exact ⟨[], Or.inr (Or.inl ⟨_, fun ch => by simpa using (herr ch).2.2.2.2.1 _ e h⟩)⟩
    | ok xs => exact ⟨_, Or.inl fun ch => processOutletsStats_eq _ _ _ xs ch h⟩
  | phases =>
    cases h : w.unmarshal.phases body with
    | error e =>
      exact ⟨[], Or.inr (Or.inl ⟨_, fun ch => by simpa using (herr ch).2.2.2.2.2.1 _ e h⟩)⟩
    | ok xs => exact ⟨_, Or.inl fun ch => processPhasesStats_eq _ _ _ xs ch h⟩
  | units =>
    cases h : w.unmarshal.units body with
    | error e =>
      exact ⟨[], Or.inr (Or.inl ⟨_, fun ch => by simpa using (herr ch).2.2.2.2.2.2.1 _ e h⟩)⟩
    | ok xs => exact ⟨_, Or.inl fun ch => processUnitsStats_eq _ _ _ xs ch h⟩
  | system =>
    cases h : w.unmarshal.system body with
    | error e =>
      exact ⟨[], Or.inr (Or.inl ⟨_, fun ch => by simpa using (herr ch).2.2.2.2.2.2.2 _ e h⟩)⟩
    | ok data =>
      rcases processSystemStats_uniform w.lowerCase _ body data h with hp | ⟨e, he⟩ | ⟨v, hv⟩
      · exact ⟨_, Or.inr (Or.inr hp)⟩
      · exact ⟨_, Or.inr (Or.inl ⟨e, he⟩)⟩
      · exact ⟨systemHead w.lowerCase data ++ [systemUptime data v],
          Or.inl fun ch => by simpa [World.process, List.append_assoc] using hv ch⟩

end UniformLemmas

/-! ## Maps as lists of entries, and the registry -/

section RegistryLemmas
open prometheus collector

theorem collector.lookup_eq_none_iff {α : Type} (m : List (String × α)) (k : String) :
    m.lookup k = none ↔ k ∉ m.map Prod.fst := by
  induction m with
  | nil => simp [List.lookup]
  | cons e m ih =>
    obtain ⟨k1, v1⟩ := e
    by_cases h : k = k1
    · subst h; simp [List.lookup]
    · have hb : (k == k1) = false := by simpa using h
      simp [List.lookup, hb, ih, h]

theorem collector.lookup_of_mem {α : Type} (m : List (String × α)) (k : String) (v : α)
    (hnd : (m.map Prod.fst).Nodup) (h : (k, v) ∈ m) : m.lookup k = some v := by
  induction m with
  | nil => simp at h
  | cons e m ih =>
    obtain ⟨k1, v1⟩ := e
    simp only [List.map_cons, List.nodup_cons] at hnd
    rcases List.mem_cons.mp h with h | h
    · cases h; simp [List.lookup]
    · have hk : k ∈ m.map Prod.fst := List.mem_map.mpr ⟨(k, v), h, rfl⟩
      have hne : k ≠ k1 := fun e => hnd.1 (e ▸ hk)
      have hb : (k == k1) = false := by simpa using hne
      simp [List.lookup, hb, ih hnd.2 h]

theorem collector.mem_of_lookup {α : Type} (m : List (String × α)) (k : String) (v : α)
    (h : m.lookup k = some v) : (k, v) ∈ m := by
  induction m with
  | nil => simp [List.lookup] at h
  | cons e m ih =>
    obtain ⟨k1, v1⟩ := e
    by_cases hk : k = k1
    · subst hk
      simp [List.lookup] at h
      simp [h]
    · have hb : (k == k1) = false := by simpa using hk
      simp only [List.lookup, hb] at h
      exact List.mem_cons_of_mem _ (ih h)

theorem collector.mapAssign_of_not_mem {α : Type} (m : List (String × α)) (k : String) (v : α)
    (h : k ∉ m.map Prod.fst) : mapAssign m k v = m ++ [(k, v)] := by
  induction m with
  | nil => rfl
  | cons e m ih =>
    obtain ⟨k1, v1⟩ := e
    simp only [List.map_cons, List.mem_cons, not_or] at h
    have hne : ¬ k1 = k := fun e => h.1 e.symm
    simp [mapAssign, hne, ih h.2]

theorem collector.keys_mapAssign {α : Type} (m : List (String × α)) (k : String) (v : α) :
    (mapAssign m k v).map Prod.fst
      = if k ∈ m.map Prod.fst then m.map Prod.fst else m.map Prod.fst ++ [k] := by
  induction m with
  | nil => simp [mapAssign]
  | cons e m ih =>
    obtain ⟨k1, v1⟩ := e
    by_cases h : k1 = k
    · subst h; simp [mapAssign]
    · have h' : ¬ k = k1 := fun e => h e.symm
      simp only [mapAssign, h, if_false, List.map_cons, ih, List.mem_cons, h', false_or]
      split_ifs <;> simp

theorem collector.mem_keys_mapAssign {α : Type} (m : List (String × α)) (k : String) (v : α)
    (k1 : String) : k1 ∈ (mapAssign m k v).map Prod.fst ↔ k1 = k ∨ k1 ∈ m.map Prod.fst := by
  rw [keys_mapAssign]
  split_ifs with h
  · constructor
    · exact Or.inr
    · rintro (rfl | h1)
      · exact h
      · exact h1
  · simp [or_comm]

theorem collector.nodup_keys_mapAssign {α : Type} (m : List (String × α)) (k : String) (v : α)
    (h : (m.map Prod.fst).Nodup) : ((mapAssign m k v).map Prod.fst).Nodup := by
  rw [keys_mapAssign]
  split_ifs with hk
  · exact h
  · exact List.Nodup.append h (List.nodup_singleton k) (by simpa using hk)

theorem collector.Registry.after_snoc (flagBool : String → String → String → Bool)
    (regs : List Registration) (reg : Registration) :
    Registry.after flagBool (regs ++ [reg])
      = registerCollector flagBool (Registry.after flagBool regs) reg.name reg.enabledByDefault
          reg.collector := by
  simp [Registry.after, List.foldl_append]

/-- What a registry built by `registerCollector` satisfies: both maps have the same keys, each
once. -/
theorem collector.Registry.after_keys (flagBool : String → String → String → Bool)
    (regs : List Registration) :
    ((Registry.after flagBool regs).allCollectors.map Prod.fst).Nodup ∧
    (Registry.after flagBool regs).collectorState.map Prod.fst
      = (Registry.after flagBool regs).allCollectors.map Prod.fst ∧
    (∀ name, name ∈ (Registry.after flagBool regs).names ↔ ∃ reg ∈ regs, reg.name = name) := by
  induction regs using List.reverseRecOn with
  | nil => simp [Registry.after, Registry.empty, Registry.names]
  | append_singleton regs reg ih =>
    obtain ⟨hnd, hkeys, hnames⟩ := ih
    rw [Registry.after_snoc]
    generalize Registry.after flagBool regs = r at hnd hkeys hnames
    simp only [registerCollector]
    refine ⟨nodup_keys_mapAssign _ _ _ hnd, ?_, ?_⟩
    · rw [keys_mapAssign, keys_mapAssign, hkeys]
    · intro name
      simp only [Registry.names] at hnames ⊢
      rw [mem_keys_mapAssign, hnames]
      simp only [List.mem_append, List.mem_singleton]
      constructor
      · rintro (rfl | ⟨r, hr, rfl⟩)
        · exact ⟨reg, Or.inr rfl, rfl⟩
        · exact ⟨r, Or.inl hr, rfl⟩
      · rintro ⟨r, hr | rfl, rfl⟩
        · exact Or.inr ⟨r, hr, rfl⟩
        · exact Or.inl rfl

/-- The loop of `NewExporter` over entries with distinct names, each with a state, none of them
in the map built so far: the enabled ones are added in order. -/
theorem collector.enabledLoop_eq (state : List (String × Bool)) :
    ∀ (all : List (String × (Unit → Collector))) (enabled : List (String × Collector)),
      (all.map Prod.fst).Nodup → (∀ k ∈ all.map Prod.fst, k ∈ state.map Prod.fst) →
      (∀ k ∈ all.map Prod.fst, k ∉ enabled.map Prod.fst) →
      enabledLoop state all enabled
        = .ok (enabled ++ (all.filter fun e => state.lookup e.1 = some true).map
            fun e => (e.1, e.2 ())) := by
  intro all
  induction all with
  | nil => intro enabled _ _ _; simp [enabledLoop]
  | cons e all ih =>
    obtain ⟨name, ctor⟩ := e
    intro enabled hnd hstate hfresh
    simp only [List.map_cons, List.nodup_cons] at hnd
    have hname : name ∈ state.map Prod.fst := hstate name (List.mem_cons_self _ _)
    cases hl : state.lookup name with
    | none => exact absurd hname ((lookup_eq_none_iff state name).mp hl)
    | some b =>
      have hstate' : ∀ k ∈ all.map Prod.fst, k ∈ state.map Prod.fst :=
        fun k hk => hstate k (List.mem_cons_of_mem _ hk)
      cases b with
      | false =>
        simp only [enabledLoop, hl, Bool.false_eq_true, if_false]
        rw [ih enabled hnd.2 hstate' (fun k hk => hfresh k (List.mem_cons_of_mem _ hk))]
        simp only [List.filter_cons, hl, Option.some.injEq, Bool.false_eq_true, decide_False,
          if_false]
      | true =>
        simp only [enabledLoop, hl, if_true]
        have hnew : name ∉ enabled.map Prod.fst := hfresh name (List.mem_cons_self _ _)
        rw [mapAssign_of_not_mem enabled name (ctor ()) hnew]
        rw [ih (enabled ++ [(name, ctor ())]) hnd.2 hstate' ?_]
        · simp only [List.filter_cons, hl, decide_True, if_true, List.map_cons,
            List.append_assoc, List.singleton_append]
        · intro k hk
          simp only [List.map_append, List.map_cons, List.map_nil, List.mem_append,
            List.mem_singleton, not_or]
          exact ⟨hfresh k (List.mem_cons_of_mem _ hk), fun e => hnd.1 (e ▸ hk)⟩

end RegistryLemmas

/-! ## The goroutines of `Collect` -/

section ScrapeLemmas
open prometheus collector

theorem collector.forall₂_set {α β : Type} {R S : α → β → Prop} {xs : List α} {ys : List β}
    (h : List.Forall₂ R xs ys) (hmono : ∀ x z, R x z → S x z) :
    ∀ (i : Nat) (y z : β), ys.get? i = some y → (∀ x, R x y → S x z) →
      List.Forall₂ S xs (ys.set i z) := by
  induction h with
  | nil => intro i y z hy; simp at hy
  | cons hxy _ ih =>
    intro i y z hy hnew
    cases i with
    | zero =>
      simp only [List.get?_cons_zero, Option.some.injEq] at hy
      subst hy
      exact List.Forall₂.cons (hnew _ hxy) (List.Forall₂.imp hmono ‹_›)
    | succ i =>
      simp only [List.get?_cons_succ] at hy
      exact List.Forall₂.cons (hmono _ _ hxy) (ih i y z hy hnew)

theorem collector.countP_set {β : Type} (p : β → Bool) :
    ∀ (ys : List β) (i : Nat) (y z : β), ys.get? i = some y →
      (ys.set i z).countP p + (if p y then 1 else 0) = ys.countP p + (if p z then 1 else 0) := by
  intro ys
  induction ys with
  | nil => intro i y z hy; simp at hy
  | cons a ys ih =>
    intro i y z hy
    cases i with
    | zero =>
      simp only [List.get?_cons_zero, Option.some.injEq] at hy
      subst hy
      simp only [List.set_cons_zero, List.countP_cons]
      omega
    | succ i =>
      simp only [List.get?_cons_succ] at hy
      have := ih i y z hy
      simp only [List.set_cons_succ, List.countP_cons]
      omega

/-- What a goroutine has sent stays in a sink that grows. -/
theorem collector.Goroutine.Runs.mono (e : Exporter) (elapsed : String → Float64) (ch : Chan)
    (m : Metric) (nc : String × Collector) (gr : Goroutine)
    (h : Goroutine.Runs e elapsed ch nc gr) : Goroutine.Runs e elapsed (ch ++ [m]) nc gr := by
  cases gr with
  | started name collector => exact h
  | running run pending =>
    obtain ⟨g, sent, h1, h2, h3⟩ := h
    exact ⟨g, sent, h1, h2, h3.trans (List.sublist_append_left _ _)⟩
  | exited run =>
    obtain ⟨g, h1, h2⟩ := h
    exact ⟨g, h1, h2.trans (List.sublist_append_left _ _)⟩

theorem collector.scrapesTotal_ok (value : Float64) :
    MustNewConstMetric (servertechDesc.lookup "scrapesTotal") .CounterValue value []
      = .ok (scrapesTotal value) := rfl

theorem collector.Scrape.Inv.init (e : Exporter) (elapsed : String → Float64) (g : Globals)
    (ch : Chan) : Scrape.Inv e elapsed (Scrape.init g ch) :=
  { count := rfl
    runs := ⟨[], rfl, List.Forall₂.nil⟩
    waited := fun h => by simp [Scrape.init, Pc.isReturned] at h }

theorem collector.Scrape.Inv.stepMain (e : Exporter) (elapsed : String → Float64)
    (s s1 : Scrape) (h : Scrape.Inv e elapsed s) (hs : e.stepMain s = some s1) :
    Scrape.Inv e elapsed s1 := by
  obtain ⟨hcount, ⟨started, hstarted, hruns⟩, hwaited⟩ := h
  unfold Exporter.stepMain at hs
  cases hpc : s.pc with
  | entry =>
    rw [hpc] at hs
    simp only [scrapesTotal_ok, Option.some.injEq] at hs
    subst hs
    refine ⟨hcount, ⟨started, ?_, ?_⟩, fun h => by simp [Pc.isReturned] at h⟩
    · simpa [Pc.rest, hpc] using hstarted
    · exact List.Forall₂.imp (fun nc gr => Goroutine.Runs.mono e elapsed s.ch _ nc gr) hruns
  | spawn rest =>
    rw [hpc] at hs
    cases rest with
    | nil =>
      simp only [Option.some.injEq] at hs
      subst hs
      refine ⟨hcount, ⟨started, ?_, hruns⟩, fun h => by simp [Pc.isReturned] at h⟩
      simpa [Pc.rest, hpc] using hstarted
    | cons nc rest =>
      obtain ⟨name, collector⟩ := nc
      simp only [Option.some.injEq] at hs
      subst hs
      refine ⟨?_, ⟨started ++ [(name, collector)], ?_, ?_⟩,
        fun h => by simp [Pc.isReturned] at h⟩
      · simp only [List.countP_append, List.countP_cons, List.countP_nil, Goroutine.live,
          if_true, hcount]
        push_cast
        ring
      · simpa [Pc.rest, hpc] using hstarted
      · exact List.rel_append hruns (List.Forall₂.cons ⟨rfl, rfl⟩ List.Forall₂.nil)
  | wait =>
    rw [hpc] at hs
    by_cases hwg : s.wg = 0
    · rw [if_pos hwg] at hs
      simp only [Option.some.injEq] at hs
      subst hs
      refine ⟨hcount, ⟨started, ?_, hruns⟩, fun _ => hwg⟩
      simpa [Pc.rest, hpc] using hstarted
    · simp [hwg] at hs
  | returned =>
    rw [hpc] at hs
    cases hs

theorem collector.Scrape.Inv.stepGoroutine (e : Exporter) (elapsed : String → Float64)
    (s s1 : Scrape) (i : Nat) (h : Scrape.Inv e elapsed s)
    (hs : e.stepGoroutine elapsed s i = some s1) : Scrape.Inv e elapsed s1 := by
  obtain ⟨hcount, ⟨started, hstarted, hruns⟩, hwaited⟩ := h
  unfold Exporter.stepGoroutine at hs
  cases hgr : s.goroutines.get? i with
  | none => rw [hgr] at hs; cases hs
  | some gr =>
    rw [hgr] at hs
    cases gr with
    | started name collector =>
      simp only [Option.some.injEq] at hs
      subst hs
      refine ⟨?_, ⟨started, hstarted, ?_⟩, hwaited⟩
      · have := countP_set Goroutine.live s.goroutines i _
          (.running (e.runCollector (elapsed name) name collector s.globals [])
            (e.runCollector (elapsed name) name collector s.globals []).sent) hgr
        simp only [Goroutine.live, if_true] at this
        simp only [hcount]
        congr 1
        omega
      · refine forall₂_set hruns (fun _ _ h => h) i _ _ hgr ?_
        rintro nc ⟨rfl, rfl⟩
        exact ⟨s.globals, [], rfl, rfl, List.nil_sublist _⟩
    | running run pending =>
      cases pending with
      | cons m pending =>
        simp only [Option.some.injEq] at hs
        subst hs
        refine ⟨?_, ⟨started, hstarted, ?_⟩, hwaited⟩
        · have := countP_set Goroutine.live s.goroutines i _ (.running run pending) hgr
          simp only [Goroutine.live, if_true] at this
          simp only [hcount]
          congr 1
          omega
        · refine forall₂_set hruns (fun nc gr => Goroutine.Runs.mono e elapsed s.ch m nc gr) i _ _
            hgr ?_
          rintro nc ⟨g, sent, h1, h2, h3⟩
          exact ⟨g, sent ++ [m], h1, by simp [h2],
            List.Sublist.append h3 (List.Sublist.refl _)⟩
      | nil =>
        simp only [Option.some.injEq] at hs
        subst hs
        have hc := countP_set Goroutine.live s.goroutines i _ (.exited run) hgr
        simp only [Goroutine.live, if_true, Bool.false_eq_true, if_false] at hc
        refine ⟨?_, ⟨started, hstarted, ?_⟩, ?_⟩
        · simp only [hcount]
          omega
        · refine forall₂_set hruns (fun _ _ h => h) i _ _ hgr ?_
          rintro nc ⟨g, sent, h1, h2, h3⟩
          refine ⟨g, h1, ?_⟩
          rw [h2, List.append_nil]
          exact h3
        · intro hret
          have := hwaited hret
          omega
    | exited run =>
      cases run with
      | done ch1 g1 => cases hs
      | panicked ch1 p =>
        simp only [Option.some.injEq] at hs
        subst hs
        exact ⟨hcount, ⟨started, hstarted, hruns⟩, hwaited⟩

theorem collector.Scrape.Inv.exec (e : Exporter) (elapsed : String → Float64) :
    ∀ (schedule : List Thread) (s : Scrape), Scrape.Inv e elapsed s →
      Scrape.Inv e elapsed (e.exec elapsed schedule s) := by
  intro schedule
  induction schedule with
  | nil => intro s h; exact h
  | cons t ts ih =>
    intro s h
    unfold Exporter.exec
    cases hstep : e.step elapsed s t with
    | none => exact ih s h
    | some s1 =>
      refine ih s1 ?_
      cases t with
      | main =>
        simp only [Exporter.step] at hstep
        split_ifs at hstep
        exact Scrape.Inv.stepMain e elapsed s s1 h hstep
      | goroutine i =>
        simp only [Exporter.step] at hstep
        split_ifs at hstep
        exact Scrape.Inv.stepGoroutine e elapsed s s1 i h hstep

/-- Goroutines none of which is live have all finished. -/
theorem collector.finished_of_not_live (e : Exporter) (elapsed : String → Float64) (ch : Chan)
    {ncs : List (String × Collector)} {grs : List Goroutine}
    (h : List.Forall₂ (Goroutine.Runs e elapsed ch) ncs grs)
    (hlive : grs.countP Goroutine.live = 0) :
    List.Forall₂ (Goroutine.Finished e elapsed ch) ncs grs := by
  induction h with
  | nil => exact List.Forall₂.nil
  | @cons nc gr ncs grs hrun _ ih =>
    rw [List.countP_cons] at hlive
    have h1 : grs.countP Goroutine.live = 0 := by omega
    refine List.Forall₂.cons ?_ (ih h1)
    cases gr with
    | started name collector => simp [Goroutine.live] at hlive
    | running run pending => simp [Goroutine.live] at hlive
    | exited run =>
      obtain ⟨g, hrun1, hsub⟩ := hrun
      subst hrun1
      refine ⟨g, rfl, hsub, ?_⟩
      intro ch1 g1 totalErrors err hget
      rw [runCollector_done e (elapsed nc.1) nc.1 nc.2 g g1 [] ch1 totalErrors err hget] at hsub
      exact hsub

/-- When `Collect` has returned, every entry of `e.Collectors` has its goroutine, and every
goroutine has finished. -/
theorem collector.Scrape.Inv.finished (e : Exporter) (elapsed : String → Float64) (s : Scrape)
    (h : Scrape.Inv e elapsed s) (hret : s.pc.isReturned = true) :
    List.Forall₂ (Goroutine.Finished e elapsed s.ch) e.Collectors s.goroutines := by
  obtain ⟨hcount, ⟨started, hstarted, hruns⟩, hwaited⟩ := h
  have hpc : s.pc.rest e = [] := by
    cases hp : s.pc with
    | returned => rfl
    | wait => rfl
    | entry => simp [hp, Pc.isReturned] at hret
    | spawn rest => simp [hp, Pc.isReturned] at hret
  rw [hpc, List.append_nil] at hstarted
  subst hstarted
  have hz := hwaited hret
  rw [hz] at hcount
  exact finished_of_not_live e elapsed s.ch hruns (by exact_mod_cast hcount.symm)

end ScrapeLemmas

/-! ## Sign of the uptime -/

section SignLemmas
open prometheus collector

theorem float64OfInt_nonneg (i : Int) (h : 0 ≤ i) : 0 ≤ float64OfInt i := by
  unfold float64OfInt
  rw [if_pos h]
  exact Nat.cast_nonneg _

/-- The uptime computed from the components 0, 0, 0 and -5. -/
theorem uptime_of_minus_five :
    float64OfInt (wrapInt64 (wrapInt64 (wrapInt64 (wrapInt64 (0 * 86400)
        + wrapInt64 (0 * 3600)) + wrapInt64 (0 * 60)) + (-5))) = -5 := by decide

/-- The uptime computed from the components 2^63 - 1, 0, 0 and 0: the first product leaves the
64-bit `int`. -/
theorem uptime_of_overflow :
    float64OfInt (wrapInt64 (wrapInt64 (wrapInt64 (wrapInt64 (9223372036854775807 * 86400)
        + wrapInt64 (0 * 3600)) + wrapInt64 (0 * 60)) + 0)) = -86400 := by decide

end SignLemmas

section TerminatedLemmas
open prometheus collector

/-- After a panic has terminated the process no thread moves. -/
theorem collector.exec_terminated (e : Exporter) (elapsed : String → Float64) :
    ∀ (schedule : List Thread) (s : Scrape), s.terminated.isSome = true →
      e.exec elapsed schedule s = s := by
  intro schedule
  induction schedule with
  | nil => intro s _; rfl
  | cons t ts ih =>
    intro s h
    have hstep : e.step elapsed s t = none := by
      cases t <;> simp [Exporter.step, h]
    simp only [Exporter.exec, hstep]
    exact ih s h

end TerminatedLemmas

/-! ## Claims -/

section Claims
open prometheus collector

/-- C1 (not met by the code). For every natural number `s`, on a system record whose uptime is
`"<s> seconds"` the pattern matches with empty days, hours and minutes groups, and
`processSystemStats` returns the error of `strconv.Atoi` on the empty days group, after the
eight metrics that precede the uptime: no uptime counter is sent. -/
theorem collector.processSystemStats_seconds_only (lowerCase : Char → Char)
    (unmarshal : Bytes → Except Error systemData) (payload : Bytes) (data : systemData)
    (ch : Chan) (s : Nat) (hdata : unmarshal payload = .ok data)
    (hup : data.Uptime = toString s ++ " seconds") :
    processSystemStats lowerCase unmarshal payload ch
      = .done (ch ++ systemHead lowerCase data)
          (some (.errorf "could not convert uptime day to int: %v"
            (.numError "Atoi" "" .ErrSyntax))) := by
  obtain ⟨_, hS, _⟩ := strconv.toString_nat_spec s
  have htext : data.Uptime = ⟨(toString s).data ++ [' ', 's', 'e', 'c', 'o', 'n', 'd', 's']⟩ := by
    rw [hup]
    apply String.ext
    simp [String.data_append]
  have hre := regexp.FindStringSubmatch_seconds _ hS
  rw [← htext] at hre
  exact processSystemStats_day_error lowerCase unmarshal payload data ch _ _ _ _ _ _ hdata hre rfl

/-- Instance of C1: the uptime "5 seconds". -/
theorem collector.processSystemStats_seconds_only_witness :
    ((fun _ => .ok (sampleSystem "5 seconds") : Bytes → Except Error systemData) []
        = .ok (sampleSystem "5 seconds")) ∧
    (sampleSystem "5 seconds").Uptime = toString 5 ++ " seconds" ∧
    processSystemStats id (fun _ => .ok (sampleSystem "5 seconds")) [] []
      = .done ([] ++ systemHead id (sampleSystem "5 seconds"))
          (some (.errorf "could not convert uptime day to int: %v"
            (.numError "Atoi" "" .ErrSyntax))) :=
  ⟨rfl, by decide,
    collector.processSystemStats_seconds_only id (fun _ => .ok (sampleSystem "5 seconds")) []
      (sampleSystem "5 seconds") [] 5 rfl (by decide)⟩

/-- C2 (not met by the code). For every system record whose uptime does not contain the text
" seconds", `FindStringSubmatch` returns nil and `processSystemStats` does not return an error:
it panics on `reUptime[1]`, index 1 out of range for length 0, after the eight metrics that
precede the uptime. -/
theorem collector.processSystemStats_no_match (lowerCase : Char → Char)
    (unmarshal : Bytes → Except Error systemData) (payload : Bytes) (data : systemData)
    (ch : Chan) (hdata : unmarshal payload = .ok data)
    (hno : ¬ " seconds".data <:+: data.Uptime.data) :
    processSystemStats lowerCase unmarshal payload ch
      = .panicked (ch ++ systemHead lowerCase data) (.indexOutOfRange 1 0) :=
  processSystemStats_nil lowerCase unmarshal payload data ch hdata
    (regexp.FindStringSubmatch_nil data.Uptime hno)

/-- Instance of C2: the empty uptime string. -/
theorem collector.processSystemStats_no_match_witness :
    ((fun _ => .ok (sampleSystem "") : Bytes → Except Error systemData) []
        = .ok (sampleSystem "")) ∧
    (¬ " seconds".data <:+: (sampleSystem "").Uptime.data) ∧
    processSystemStats id (fun _ => .ok (sampleSystem "")) [] []
      = .panicked ([] ++ systemHead id (sampleSystem "")) (.indexOutOfRange 1 0) :=
  ⟨rfl, by decide,
    collector.processSystemStats_no_match id (fun _ => .ok (sampleSystem "")) []
      (sampleSystem "") [] rfl (by decide)⟩

/-- C3 (not met by the system mapper). On a system record whose uptime is "x seconds"
`processSystemStats` returns an error after it has sent eight metrics: the active users gauge
and the seven status gauges. -/
theorem collector.processSystemStats_partial_emissions (lowerCase : Char → Char)
    (payload : Bytes) (ch : Chan) :
    processSystemStats lowerCase (fun _ => .ok (sampleSystem "x seconds")) payload ch
      = .done (ch ++ systemHead lowerCase (sampleSystem "x seconds"))
          (some (.errorf "could not convert uptime day to int: %v"
            (.numError "Atoi" "" .ErrSyntax))) ∧
    (systemHead lowerCase (sampleSystem "x seconds")).length = 8 :=
  ⟨processSystemStats_day_error lowerCase _ payload _ ch "x seconds" "" "" "" "x" _ rfl
    (by decide) rfl, rfl⟩

/-- C4 (not met by the branches mapper). For every branch the five metrics of
`processBranchesStats` have descriptors whose first four label names are `id`, `name`,
`phase_id`, `ocp_id`, while their first four label values are the branch's id, name, ocp_id and
phase_id in this order: the third value is the ocp_id and the fourth the phase_id. -/
theorem collector.processBranchesEntry_labels (lowerCase : Char → Char) (data : branchesEntry)
    (ch : Chan) :
    ∃ ms : List Metric,
      processBranchesEntry lowerCase data ch = .done (ch ++ ms) () ∧
      ms.map (fun m => m.desc.variableLabels.take 4)
        = List.replicate 5 ["id", "name", "phase_id", "ocp_id"] ∧
      ms.map (fun m => m.labelValues.take 4)
        = List.replicate 5 [data.ID, data.Name, data.OcpID, data.PhaseID] :=
  ⟨_, processBranchesEntry_eq lowerCase data ch, rfl, rfl⟩

/-- C5, as amended. For all natural numbers `d`, `h`, `m`, `s` with
`d*86400 + h*3600 + m*60 + s ≤ 2^53`, on a system record whose uptime is
`"<d> days <h> hours <m> minutes <s> seconds"` `processSystemStats` returns without error and
sends, after the eight metrics that precede the uptime, the uptime counter with value
`d*86400 + h*3600 + m*60 + s`. -/
theorem collector.processSystemStats_uptime_value (lowerCase : Char → Char)
    (unmarshal : Bytes → Except Error systemData) (payload : Bytes) (data : systemData)
    (ch : Chan) (d h m s : Nat) (hdata : unmarshal payload = .ok data)
    (hup : data.Uptime = toString d ++ " days " ++ toString h ++ " hours " ++ toString m
      ++ " minutes " ++ toString s ++ " seconds")
    (hfit : d * 86400 + h * 3600 + m * 60 + s ≤ 2 ^ 53) :
    processSystemStats lowerCase unmarshal payload ch
      = .done (ch ++ systemHead lowerCase data ++ [systemUptime data
          ((d * 86400 + h * 3600 + m * 60 + s : Nat) : Rat)]) none := by
  rw [processSystemStats_full lowerCase unmarshal payload data ch d h m s hdata hup
    (lt_of_le_of_lt hfit (by norm_num)), float64OfInt_small _ hfit]

/-- Instance of C5 as amended: 1 day, 2 hours, 3 minutes and 4 seconds. -/
theorem collector.processSystemStats_uptime_value_witness :
    ((fun _ => .ok (sampleSystem "1 days 2 hours 3 minutes 4 seconds") :
        Bytes → Except Error systemData) []
        = .ok (sampleSystem "1 days 2 hours 3 minutes 4 seconds")) ∧
    ((sampleSystem "1 days 2 hours 3 minutes 4 seconds").Uptime
        = toString 1 ++ " days " ++ toString 2 ++ " hours " ++ toString 3 ++ " minutes "
          ++ toString 4 ++ " seconds") ∧
    (1 * 86400 + 2 * 3600 + 3 * 60 + 4 ≤ 2 ^ 53) ∧
    processSystemStats id (fun _ => .ok (sampleSystem "1 days 2 hours 3 minutes 4 seconds")) [] []
      = .done ([] ++ systemHead id (sampleSystem "1 days 2 hours 3 minutes 4 seconds")
          ++ [systemUptime (sampleSystem "1 days 2 hours 3 minutes 4 seconds")
            ((1 * 86400 + 2 * 3600 + 3 * 60 + 4 : Nat) : Rat)]) none :=
  ⟨rfl, by decide, by decide,
    collector.processSystemStats_uptime_value id
      (fun _ => .ok (sampleSystem "1 days 2 hours 3 minutes 4 seconds")) []
      (sampleSystem "1 days 2 hours 3 minutes 4 seconds") [] 1 2 3 4 rfl (by decide) (by decide)⟩

/-- Counterexample to C5 as stated: 0 days, 0 hours, 0 minutes and 2^53 + 1 seconds fit a 64-bit
`int`, the mapper succeeds, and the emitted counter value is 2^53, not 2^53 + 1. -/
theorem collector.uptime_counter_rounds_above_two_pow_53 :
    (0 * 86400 + 0 * 3600 + 0 * 60 + 9007199254740993 < 2 ^ 63) ∧
    processSystemStats id
        (fun _ => .ok (sampleSystem "0 days 0 hours 0 minutes 9007199254740993 seconds")) [] []
      = .done ([] ++ systemHead id (sampleSystem "0 days 0 hours 0 minutes 9007199254740993 seconds")
          ++ [systemUptime (sampleSystem "0 days 0 hours 0 minutes 9007199254740993 seconds")
            9007199254740992]) none ∧
    (9007199254740992 : Float64) ≠ ((0 * 86400 + 0 * 3600 + 0 * 60 + 9007199254740993 : Nat) : Rat) := by
  refine ⟨by decide, ?_, by decide⟩
  rw [processSystemStats_full id _ [] (sampleSystem "0 days 0 hours 0 minutes 9007199254740993 seconds")
    [] 0 0 0 9007199254740993 rfl (by decide) (by decide)]
  have : float64OfInt ((0 * 86400 + 0 * 3600 + 0 * 60 + 9007199254740993 : Nat) : Int)
      = 9007199254740992 := by decide
  rw [this]

/-- C6, as amended. On a system record whose uptime is "2 days 3 hours 4 minutes 5 seconds"
`processSystemStats` returns without error and sends, after the eight metrics that precede the
uptime, the uptime counter with value 2*86400 + 3*3600 + 4*60 + 5 = 183845. -/
theorem collector.processSystemStats_example_value (lowerCase : Char → Char)
    (unmarshal : Bytes → Except Error systemData) (payload : Bytes) (data : systemData)
    (ch : Chan) (hdata : unmarshal payload = .ok data)
    (hup : data.Uptime = "2 days 3 hours 4 minutes 5 seconds") :
    processSystemStats lowerCase unmarshal payload ch
      = .done (ch ++ systemHead lowerCase data ++ [systemUptime data 183845]) none ∧
    (183845 : Float64) = 2 * 86400 + 3 * 3600 + 4 * 60 + 5 := by
  refine ⟨?_, by norm_num⟩
  have h := processSystemStats_full lowerCase unmarshal payload data ch 2 3 4 5 hdata
    (by rw [hup]; decide) (by decide)
  rw [h]
  have : float64OfInt ((2 * 86400 + 3 * 3600 + 4 * 60 + 5 : Nat) : Int) = 183845 := by decide
  rw [this]

/-- Instance of C6 as amended. -/
theorem collector.processSystemStats_example_value_witness :
    ((fun _ => .ok (sampleSystem "2 days 3 hours 4 minutes 5 seconds") :
        Bytes → Except Error systemData) []
        = .ok (sampleSystem "2 days 3 hours 4 minutes 5 seconds")) ∧
    ((sampleSystem "2 days 3 hours 4 minutes 5 seconds").Uptime
        = "2 days 3 hours 4 minutes 5 seconds") ∧
    processSystemStats id (fun _ => .ok (sampleSystem "2 days 3 hours 4 minutes 5 seconds")) [] []
      = .done ([] ++ systemHead id (sampleSystem "2 days 3 hours 4 minutes 5 seconds")
          ++ [systemUptime (sampleSystem "2 days 3 hours 4 minutes 5 seconds") 183845]) none :=
  ⟨rfl, rfl,
    (collector.processSystemStats_example_value id
      (fun _ => .ok (sampleSystem "2 days 3 hours 4 minutes 5 seconds")) []
      (sampleSystem "2 days 3 hours 4 minutes 5 seconds") [] rfl rfl).1⟩

/-- Counterexample to C6 as stated: on "2 days 3 hours 4 minutes 5 seconds" the only counter
the mapper sends has value 183845, which is not 184245. -/
theorem collector.uptime_of_spec_example_is_183845 :
    ((processSystemStats id
        (fun _ => .ok (sampleSystem "2 days 3 hours 4 minutes 5 seconds")) [] []).sent.filter
      (fun m => decide (m.valType = .CounterValue))).map (fun m => m.value) = [183845] ∧
    (183845 : Float64) ≠ 184245 := by
  refine ⟨?_, by decide⟩
  rw [processSystemStats_full id _ [] (sampleSystem "2 days 3 hours 4 minutes 5 seconds")
    [] 2 3 4 5 rfl (by decide) (by decide)]
  decide

/-- C7. Given a descriptor that takes the labels and the status type, `statusMetric` sends exactly
one gauge; its value is 1 when the lowercase form of the status string is "normal" and 0 for
every other string. "Normal", "normal" and "NORMAL" have that lowercase form, the empty string
has not. -/
theorem collector.statusMetric_encoding (lowerCase : Char → Char) (desc : Desc)
    (metric statusType : String) (labels : List String) (ch : Chan)
    (harity : labels.length + 1 = desc.variableLabels.length) :
    (∃ m : Metric,
      statusMetric lowerCase (some desc) metric statusType labels ch = .done (ch ++ [m]) () ∧
      m.desc = desc ∧ m.valType = .GaugeValue ∧ m.labelValues = labels ++ [statusType] ∧
      (strings.ToLower lowerCase metric = "normal" → m.value = 1) ∧
      (strings.ToLower lowerCase metric ≠ "normal" → m.value = 0)) ∧
    strings.ToLower lowerCase "Normal" = "normal" ∧
    strings.ToLower lowerCase "normal" = "normal" ∧
    strings.ToLower lowerCase "NORMAL" = "normal" ∧
    strings.ToLower lowerCase "" ≠ "normal" := by
  refine ⟨⟨_, statusMetric_ok lowerCase desc metric statusType labels ch harity, rfl, rfl, rfl,
    ?_, ?_⟩, rfl, rfl, rfl, ?_⟩
  · intro h; simp [statusValue, h]
  · intro h; simp [statusValue, h]
  · simp [strings.ToLower]

/-- Instance of C7: the status of the units of a system with status string "NORMAL". -/
theorem collector.statusMetric_encoding_witness :
    (["fw", "sn"].length + 1 = (descOf systemDesc "status").variableLabels.length) ∧
    ∃ m : Metric,
      statusMetric id (some (descOf systemDesc "status")) "NORMAL" "units" ["fw", "sn"] []
        = .done [m] () ∧ m.value = 1 := by
  refine ⟨by decide, ?_⟩
  obtain ⟨⟨m, h1, _, _, _, h5, _⟩, _⟩ :=
    collector.statusMetric_encoding id (descOf systemDesc "status") "NORMAL" "units"
      ["fw", "sn"] [] (by decide)
  exact ⟨m, h1, h5 rfl⟩

/-- C8. Given a descriptor that takes the labels, `stateMetric` sends exactly one gauge; its value
is 1 when the lowercase form of the state string is "on" and 0 for every other string, so no
other state has a nonzero code. "On", "on" and "ON" have that lowercase form; "Off", the empty
string and "ON " with a trailing space have not. -/
theorem collector.stateMetric_encoding (lowerCase : Char → Char) (desc : Desc)
    (stateStr : String) (labels : List String) (ch : Chan)
    (harity : labels.length = desc.variableLabels.length) :
    (∃ m : Metric,
      stateMetric lowerCase (some desc) stateStr labels ch = .done (ch ++ [m]) () ∧
      m.desc = desc ∧ m.valType = .GaugeValue ∧ m.labelValues = labels ∧
      (strings.ToLower lowerCase stateStr = "on" → m.value = 1) ∧
      (strings.ToLower lowerCase stateStr ≠ "on" → m.value = 0) ∧
      (m.value ≠ 0 → strings.ToLower lowerCase stateStr = "on")) ∧
    strings.ToLower lowerCase "On" = "on" ∧
    strings.ToLower lowerCase "on" = "on" ∧
    strings.ToLower lowerCase "ON" = "on" ∧
    strings.ToLower lowerCase "Off" ≠ "on" ∧
    strings.ToLower lowerCase "" ≠ "on" ∧
    strings.ToLower lowerCase "ON " ≠ "on" := by
  refine ⟨⟨_, stateMetric_ok lowerCase desc stateStr labels ch harity, rfl, rfl, rfl,
    ?_, ?_, ?_⟩, rfl, rfl, rfl, ?_, ?_, ?_⟩
  · intro h; simp [gauge, stateValue, h]
  · intro h; simp [gauge, stateValue, h]
  · intro h
    by_contra hne
    exact h (by simp [gauge, stateValue, hne])
  · simp [strings.ToLower, unicode.ToLower]
  · simp [strings.ToLower]
  · simp [strings.ToLower, unicode.ToLower]

/-- Instance of C8: the state of a branch whose state string is "ON". -/
theorem collector.stateMetric_encoding_witness :
    (["AA1", "branch one", "O7", "P2"].length = (descOf branchesDesc "state").variableLabels.length) ∧
    ∃ m : Metric,
      stateMetric id (some (descOf branchesDesc "state")) "ON" ["AA1", "branch one", "O7", "P2"] []
        = .done [m] () ∧ m.value = 1 := by
  refine ⟨by decide, ?_⟩
  obtain ⟨⟨m, h1, _, _, _, h5, _⟩, _⟩ :=
    collector.stateMetric_encoding id (descOf branchesDesc "state") "ON"
      ["AA1", "branch one", "O7", "P2"] [] (by decide)
  exact ⟨m, h1, h5 rfl⟩

/-- C9. Given a descriptor that takes the labels, `reactanceMetric` returns (it has no error
result) after sending exactly one gauge; its value is 1, 2 or 3 when the lowercase form of the
reactance string is "capacitive", "inductive" or "resistive", and 0 for every other string.
"Capacitive", "Inductive" and "Resistive" have these lowercase forms; the empty string,
"unknown" and "Resistive " with a trailing space have none of them. -/
theorem collector.reactanceMetric_encoding (lowerCase : Char → Char) (desc : Desc)
    (reactanceStr : String) (labels : List String) (ch : Chan)
    (harity : labels.length = desc.variableLabels.length) :
    (∃ m : Metric,
      reactanceMetric lowerCase (some desc) reactanceStr labels ch = .done (ch ++ [m]) () ∧
      m.desc = desc ∧ m.valType = .GaugeValue ∧ m.labelValues = labels ∧
      (strings.ToLower lowerCase reactanceStr = "capacitive" → m.value = 1) ∧
      (strings.ToLower lowerCase reactanceStr = "inductive" → m.value = 2) ∧
      (strings.ToLower lowerCase reactanceStr = "resistive" → m.value = 3) ∧
      (strings.ToLower lowerCase reactanceStr ≠ "capacitive" →
        strings.ToLower lowerCase reactanceStr ≠ "inductive" →
        strings.ToLower lowerCase reactanceStr ≠ "resistive" → m.value = 0)) ∧
    strings.ToLower lowerCase "Capacitive" = "capacitive" ∧
    strings.ToLower lowerCase "Inductive" = "inductive" ∧
    strings.ToLower lowerCase "Resistive" = "resistive" ∧
    (∀ s ∈ ["", "unknown", "Resistive "],
      strings.ToLower lowerCase s ≠ "capacitive" ∧ strings.ToLower lowerCase s ≠ "inductive" ∧
      strings.ToLower lowerCase s ≠ "resistive") := by
  refine ⟨⟨{ desc := desc, valType := .GaugeValue, labelValues := labels,
              value := if strings.ToLower lowerCase reactanceStr = "capacitive" then 1
                else if strings.ToLower lowerCase reactanceStr = "inductive" then 2
                else if strings.ToLower lowerCase reactanceStr = "resistive" then 3
                else 0 },
    ?_, rfl, rfl, rfl, ?_, ?_, ?_, ?_⟩, rfl, rfl, rfl, ?_⟩
  · unfold reactanceMetric
    rw [newGauge_ok _ _ _ _ harity]
  · intro h; simp [h]
  · intro h; simp [h]
  · intro h; simp [h]
  · intro h1 h2 h3; simp [h1, h2, h3]
  · simp [strings.ToLower, unicode.ToLower]

/-- Instance of C9: the reactance of a phase whose reactance string is "Inductive". -/
theorem collector.reactanceMetric_encoding_witness :
    (["A", "phase A"].length = (descOf phasesDesc "reactance").variableLabels.length) ∧
    ∃ m : Metric,
      reactanceMetric id (some (descOf phasesDesc "reactance")) "Inductive" ["A", "phase A"] []
        = .done [m] () ∧ m.value = 2 := by
  refine ⟨by decide, ?_⟩
  obtain ⟨⟨m, h1, _, _, _, _, h6, _⟩, _⟩ :=
    collector.reactanceMetric_encoding id (descOf phasesDesc "reactance") "Inductive"
      ["A", "phase A"] [] (by decide)
  exact ⟨m, h1, h6 rfl⟩

/-- C10. On a decoded list of units `processUnitsStats` returns without error, and the gauges it
sends under the `display_orientation` descriptor are, in order, one per unit, labelled with the
unit's id, name and type and valued with the code of the unit's display orientation: 1 for
"auto (inverted)", 2 for "auto (normal)", 3 for "inverted", 4 for "normal" (compared after
lowercasing) and 0 for every other string. -/
theorem collector.processUnitsStats_display_orientation (lowerCase : Char → Char)
    (unmarshal : Bytes → Except Error unitsData) (payload : Bytes) (units : unitsData)
    (ch : Chan) (hdata : unmarshal payload = .ok units) :
    (∃ out : List Metric,
      processUnitsStats lowerCase unmarshal payload ch = .done (ch ++ out) none ∧
      out.filter (fun m => decide (m.desc = descOf unitsDesc "display_orientation"))
        = units.map (displayOrientationGauge lowerCase)) ∧
    (descOf unitsDesc "display_orientation").fqName = "servertech_units_display_orientation" ∧
    (∀ u : unitsEntry,
      (displayOrientationGauge lowerCase u).valType = .GaugeValue ∧
      (displayOrientationGauge lowerCase u).labelValues = [u.ID, u.Name, u.Type_] ∧
      (strings.ToLower lowerCase u.DisplayOrientation = "auto (inverted)" →
        (displayOrientationGauge lowerCase u).value = 1) ∧
      (strings.ToLower lowerCase u.DisplayOrientation = "auto (normal)" →
        (displayOrientationGauge lowerCase u).value = 2) ∧
      (strings.ToLower lowerCase u.DisplayOrientation = "inverted" →
        (displayOrientationGauge lowerCase u).value = 3) ∧
      (strings.ToLower lowerCase u.DisplayOrientation = "normal" →
        (displayOrientationGauge lowerCase u).value = 4) ∧
      (strings.ToLower lowerCase u.DisplayOrientation ∉
          ["auto (inverted)", "auto (normal)", "inverted", "normal"] →
        (displayOrientationGauge lowerCase u).value = 0)) := by
  refine ⟨⟨_, processUnitsStats_eq lowerCase unmarshal payload units ch hdata, ?_⟩, by decide, ?_⟩
  · clear hdata
    induction units with
    | nil => rfl
    | cons u us ih =>
      rw [List.flatMap_cons, List.filter_append, ih]
      have : (unitsMetrics lowerCase u).filter
          (fun m => decide (m.desc = descOf unitsDesc "display_orientation"))
          = [displayOrientationGauge lowerCase u] := by
        have h1 : descOf unitsDesc "unit_sequence" ≠ descOf unitsDesc "display_orientation" := by
          decide
        have h2 : descOf unitsDesc "status" ≠ descOf unitsDesc "display_orientation" := by
          decide
        simp [unitsMetrics, displayOrientationGauge, unitSequenceGauge, gauge, List.filter, h1, h2]
      rw [this]
      rfl
  · intro u
    refine ⟨rfl, rfl, ?_, ?_, ?_, ?_, ?_⟩
    · intro h; simp [displayOrientationGauge, gauge, displayOrientationCode_eq, h]
    · intro h; simp [displayOrientationGauge, gauge, displayOrientationCode_eq, h]
    · intro h; simp [displayOrientationGauge, gauge, displayOrientationCode_eq, h]
    · intro h; simp [displayOrientationGauge, gauge, displayOrientationCode_eq, h]
    · intro h
      simp only [List.mem_cons, List.mem_singleton, not_or, List.not_mem_nil, or_false] at h
      simp [displayOrientationGauge, gauge, displayOrientationCode_eq, h.1, h.2.1, h.2.2.1, h.2.2.2]

/-- Instance of C10: two units, one with orientation "Auto (Inverted)", one with "sideways". -/
theorem collector.processUnitsStats_display_orientation_witness :
    ((fun _ => .ok [sampleUnit "Auto (Inverted)", sampleUnit "sideways"] :
        Bytes → Except Error unitsData) [] = .ok [sampleUnit "Auto (Inverted)", sampleUnit "sideways"]) ∧
    ∃ out : List Metric,
      processUnitsStats id (fun _ => .ok [sampleUnit "Auto (Inverted)", sampleUnit "sideways"]) [] []
        = .done out none ∧
      (out.filter (fun m => decide (m.desc = descOf unitsDesc "display_orientation"))).map
        (fun m => m.value) = [1, 0] := by
  refine ⟨rfl, ?_⟩
  obtain ⟨⟨out, h1, h2⟩, _⟩ :=
    collector.processUnitsStats_display_orientation id
      (fun _ => .ok [sampleUnit "Auto (Inverted)", sampleUnit "sideways"]) [] _ [] rfl
  refine ⟨out, by simpa using h1, ?_⟩
  rw [h2]
  decide

/-- C11. On a decoded list of units `processUnitsStats` returns without error, and the gauges it
sends under the `unit_sequence` descriptor are, in order, one per unit, labelled with the unit's
id, name and type and valued from the unit's display orientation: 1 when its lowercase form is
"normal", 2 when it is "reversed", 0 otherwise. The gauge does not depend on the field decoded
from `unit_sequence`. -/
theorem collector.processUnitsStats_unit_sequence (lowerCase : Char → Char)
    (unmarshal : Bytes → Except Error unitsData) (payload : Bytes) (units : unitsData)
    (ch : Chan) (hdata : unmarshal payload = .ok units) :
    (∃ out : List Metric,
      processUnitsStats lowerCase unmarshal payload ch = .done (ch ++ out) none ∧
      out.filter (fun m => decide (m.desc = descOf unitsDesc "unit_sequence"))
        = units.map (unitSequenceGauge lowerCase)) ∧
    (descOf unitsDesc "unit_sequence").fqName = "servertech_units_unit_sequence" ∧
    (∀ u : unitsEntry,
      (unitSequenceGauge lowerCase u).valType = .GaugeValue ∧
      (unitSequenceGauge lowerCase u).labelValues = [u.ID, u.Name, u.Type_] ∧
      (strings.ToLower lowerCase u.DisplayOrientation = "normal" →
        (unitSequenceGauge lowerCase u).value = 1) ∧
      (strings.ToLower lowerCase u.DisplayOrientation = "reversed" →
        (unitSequenceGauge lowerCase u).value = 2) ∧
      (strings.ToLower lowerCase u.DisplayOrientation ≠ "normal" →
        strings.ToLower lowerCase u.DisplayOrientation ≠ "reversed" →
        (unitSequenceGauge lowerCase u).value = 0) ∧
      (∀ sequence : String,
        unitSequenceGauge lowerCase { u with OutletSequence := sequence }
          = unitSequenceGauge lowerCase u)) := by
  refine ⟨⟨_, processUnitsStats_eq lowerCase unmarshal payload units ch hdata, ?_⟩, by decide, ?_⟩
  · clear hdata
    induction units with
    | nil => rfl
    | cons u us ih =>
      rw [List.flatMap_cons, List.filter_append, ih]
      have : (unitsMetrics lowerCase u).filter
          (fun m => decide (m.desc = descOf unitsDesc "unit_sequence"))
          = [unitSequenceGauge lowerCase u] := by
        have h1 : descOf unitsDesc "display_orientation" ≠ descOf unitsDesc "unit_sequence" := by
          decide
        have h2 : descOf unitsDesc "status" ≠ descOf unitsDesc "unit_sequence" := by
          decide
        simp [unitsMetrics, displayOrientationGauge, unitSequenceGauge, gauge, List.filter, h1, h2]
      rw [this]
      rfl
  · intro u
    refine ⟨rfl, rfl, ?_, ?_, ?_, fun _ => rfl⟩
    · intro h; simp [unitSequenceGauge, gauge, h]
    · intro h; simp [unitSequenceGauge, gauge, h]
    · intro h1 h2; simp [unitSequenceGauge, gauge, h1, h2]

/-- Instance of C11: a unit with orientation "NORMAL" and one with orientation "Reversed". -/
theorem collector.processUnitsStats_unit_sequence_witness :
    ((fun _ => .ok [sampleUnit "NORMAL", sampleUnit "Reversed"] :
        Bytes → Except Error unitsData) [] = .ok [sampleUnit "NORMAL", sampleUnit "Reversed"]) ∧
    ∃ out : List Metric,
      processUnitsStats id (fun _ => .ok [sampleUnit "NORMAL", sampleUnit "Reversed"]) [] []
        = .done out none ∧
      (out.filter (fun m => decide (m.desc = descOf unitsDesc "unit_sequence"))).map
        (fun m => m.value) = [1, 2] := by
  refine ⟨rfl, ?_⟩
  obtain ⟨⟨out, h1, h2⟩, _⟩ :=
    collector.processUnitsStats_unit_sequence id
      (fun _ => .ok [sampleUnit "NORMAL", sampleUnit "Reversed"]) [] _ [] rfl
  refine ⟨out, by simpa using h1, ?_⟩
  rw [h2]
  decide

/-- C12 (not met by the code). A unit that reports the unit sequence "Reversed" and the display
orientation "Normal" gets the `unit_sequence` gauge 1, not 2; a unit that reports the unit
sequence "Normal" and the display orientation "Inverted" gets 0, not 1. -/
theorem collector.unit_sequence_gauge_of_reported_sequence (lowerCase : Char → Char)
    (payload : Bytes) (ch : Chan) :
    (sampleUnit "Normal").OutletSequence = "Reversed" ∧
    processUnitsStats lowerCase (fun _ => .ok [sampleUnit "Normal"]) payload ch
      = .done (ch ++ unitsMetrics lowerCase (sampleUnit "Normal")) none ∧
    ((unitsMetrics lowerCase (sampleUnit "Normal")).filter
      (fun m => decide (m.desc = descOf unitsDesc "unit_sequence"))).map (fun m => m.value) = [1] ∧
    processUnitsStats lowerCase
        (fun _ => .ok [{ sampleUnit "Inverted" with OutletSequence := "Normal" }]) payload ch
      = .done (ch ++ unitsMetrics lowerCase { sampleUnit "Inverted" with OutletSequence := "Normal" })
          none ∧
    ((unitsMetrics lowerCase { sampleUnit "Inverted" with OutletSequence := "Normal" }).filter
      (fun m => decide (m.desc = descOf unitsDesc "unit_sequence"))).map (fun m => m.value) = [0] := by
  refine ⟨rfl, ?_, ?_, ?_, ?_⟩
  · simpa using processUnitsStats_eq lowerCase (fun _ => .ok [sampleUnit "Normal"]) payload _ ch rfl
  · rfl
  · simpa using processUnitsStats_eq lowerCase
      (fun _ => .ok [{ sampleUnit "Inverted" with OutletSequence := "Normal" }]) payload _ ch rfl
  · rfl

/-- C13. For every category and every payload, each metric the mapper sends carries as many
label values as its descriptor has label names, and the same holds for everything a scrape sends:
the scrape counter, the metrics of the enabled categories and the three metrics about each
collector. No mapper and no scrape ends in the panic that `MustNewConstMetric` raises for a
wrong number of label values: the only panic is the index into the uptime submatch. -/
theorem collector.label_arity (w : World) :
    (∀ (c : Category) (payload : Bytes), ∀ m ∈ (w.process c payload []).sent, ArityOK m) ∧
    (∀ (c : Category) (payload : Bytes) (ch sent : Chan) (p : Panic),
      w.process c payload ch = .panicked sent p → p = .indexOutOfRange 1 0) ∧
    (∀ (cs : List Category) (target user pass : String) (elapsed : String → Float64)
      (g : Globals),
      ∀ m ∈ ((exporterOf w cs target user pass).Collect elapsed g []).sent, ArityOK m) ∧
    (∀ (cs : List Category) (target user pass : String) (elapsed : String → Float64)
      (g : Globals) (ch sent : Chan) (p : Panic),
      (exporterOf w cs target user pass).Collect elapsed g ch = .panicked sent p →
        p = .indexOutOfRange 1 0) := by
  refine ⟨?_, ?_, ?_, ?_⟩
  · intro c payload m hm
    obtain ⟨out, hout, h | ⟨e, h⟩ | h⟩ := World.process_outcome w c payload []
    all_goals
      rw [h] at hm
      exact hout m (by simpa [Exec.sent] using hm)
  · intro c payload ch sent p hp
    obtain ⟨out, _, h | ⟨e, h⟩ | h⟩ := World.process_outcome w c payload ch
    · rw [h] at hp; cases hp
    · rw [h] at hp; cases hp
    · rw [h] at hp; cases hp; rfl
  · intro cs target user pass elapsed g m hm
    rw [Collect_eq] at hm
    have hfirst : ArityOK (scrapesTotal (float64Inc g.servertechTotalScrapeCount : Float64)) := by
      simp [ArityOK, scrapesTotal, descOf, servertechDesc, List.lookup, promDesc, NewDesc]
    obtain ⟨out, hout, ⟨g1, h, _⟩ | h⟩ :=
      runCollectors_outcome w (exporterOf w cs target user pass) elapsed cs
        { g with servertechTotalScrapeCount := float64Inc g.servertechTotalScrapeCount }
        ([] ++ [scrapesTotal (float64Inc g.servertechTotalScrapeCount : Float64)])
    all_goals
      simp only [exporterOf] at hm h
      rw [h] at hm
      simp only [Exec.sent, List.nil_append, List.mem_append, List.mem_singleton,
        List.mem_cons, List.singleton_append] at hm
      rcases hm with hm | hm
      · rw [hm]; exact hfirst
      · exact hout m hm
  · intro cs target user pass elapsed g ch sent p hp
    rw [Collect_eq] at hp
    obtain ⟨out, _, ⟨g1, h, _⟩ | h⟩ :=
      runCollectors_outcome w (exporterOf w cs target user pass) elapsed cs
        { g with servertechTotalScrapeCount := float64Inc g.servertechTotalScrapeCount }
        (ch ++ [scrapesTotal (float64Inc g.servertechTotalScrapeCount : Float64)])
    · simp only [exporterOf] at hp h
      rw [h] at hp; cases hp
    · simp only [exporterOf] at hp h
      rw [h] at hp; cases hp; rfl

/-- C14, as amended. For every category, when the fetch returns an error, `Get` sends nothing
and returns an error together with the value of the category's counter after its increment,
and `runCollector` then sends the duration, that value and `collector_up` 0.  When the counter
is below 2^53 the increment raises it by exactly 1. -/
theorem collector.Get_transport_error (w : World) (c : Category) (target user pass : String)
    (g : Globals) (ch : Chan) (e : Error) (elapsed : Float64) (name : String)
    (hfetch : getServerTechJSON w.client target user pass c.path = .error e) :
    w.Get c target user pass g ch
      = .done ch (g.bump c, ((g.bump c).errors c : Float64), some (.errorf c.cannotGet e)) ∧
    (exporterOf w [c] target user pass).runCollector elapsed name (w.Get c) g ch
      = .done (ch ++ metaMetrics name elapsed ((g.bump c).errors c : Float64) 0) (g.bump c) ∧
    (g.bump c).errors c = float64Inc (g.errors c) ∧
    (g.errors c < 2 ^ 53 → (g.bump c).errors c = g.errors c + 1) := by
  have hget : w.Get c target user pass g ch
      = .done ch (g.bump c, ((g.bump c).errors c : Float64), some (.errorf c.cannotGet e)) := by
    rw [World.Get_eq, hfetch, getShape_fetch_error]
  refine ⟨hget, ?_, Globals.bump_errors_self g c, fun hlt => ?_⟩
  · rw [runCollector_done _ elapsed name _ g _ ch _ _ _ hget]
    rfl
  · rw [Globals.bump_errors_self, float64Inc_of_lt _ hlt]

/-- Instance of C14 as amended: the cords collector facing a device that does not answer. -/
theorem collector.Get_transport_error_witness :
    (getServerTechJSON deadWorld.client "pdu" "admin" "secret" Category.cords.path
      = .error (.errorf "failed to perform http request: %v"
          (.text "context deadline exceeded"))) ∧
    (Globals.init.errors .cords < 2 ^ 53) ∧
    deadWorld.Get .cords "pdu" "admin" "secret" Globals.init []
      = .done [] (Globals.init.bump .cords, ((Globals.init.bump .cords).errors .cords : Float64),
          some (.errorf Category.cords.cannotGet (.errorf "failed to perform http request: %v"
            (.text "context deadline exceeded")))) ∧
    (exporterOf deadWorld [.cords] "pdu" "admin" "secret").runCollector 0 "cords"
        (deadWorld.Get .cords) Globals.init []
      = .done ([] ++ metaMetrics "cords" 0 ((Globals.init.bump .cords).errors .cords : Float64) 0)
          (Globals.init.bump .cords) ∧
    (Globals.init.bump .cords).errors .cords = Globals.init.errors .cords + 1 ∧
    (Globals.init.bump .cords).errors .cords = 1 :=
  ⟨rfl, by decide,
    (collector.Get_transport_error deadWorld .cords "pdu" "admin" "secret" Globals.init []
      _ 0 "cords" rfl).1,
    (collector.Get_transport_error deadWorld .cords "pdu" "admin" "secret" Globals.init []
      _ 0 "cords" rfl).2.1,
    (collector.Get_transport_error deadWorld .cords "pdu" "admin" "secret" Globals.init []
      _ 0 "cords" rfl).2.2.2 (by decide),
    by decide⟩

/-- Counterexample to C14 as stated: with the cords counter at 2^53 a failed fetch makes `Get`
return an error, but the counter and the count returned stay at 2^53. -/
theorem collector.error_counter_stops_at_two_pow_53 :
    (getServerTechJSON deadWorld.client "pdu" "admin" "secret" Category.cords.path
      = .error (.errorf "failed to perform http request: %v"
          (.text "context deadline exceeded"))) ∧
    deadWorld.Get .cords "pdu" "admin" "secret"
        { Globals.init with totalCordsErrors := 9007199254740992 } []
      = .done [] ({ Globals.init with totalCordsErrors := 9007199254740992 },
          (9007199254740992 : Float64),
          some (.errorf "cannot get cordss: %s" (.errorf "failed to perform http request: %v"
            (.text "context deadline exceeded")))) ∧
    (9007199254740992 : Nat) ≠ 9007199254740992 + 1 := by
  refine ⟨rfl, ?_, by decide⟩
  rw [World.Get_eq, getServerTechJSON_deadWorld, getShape_fetch_error]
  have h : float64Inc 9007199254740992 = 9007199254740992 := by decide
  simp [Globals.bump, Globals.errors, Globals.init, Category.cannotGet, h]

/-- C15. For every array-valued category, when the fetch succeeds and the body decodes to the
empty array, the mapper sends nothing and returns no error, `Get` sends nothing and returns no
error and the unchanged count, with the counters as they were, and `runCollector` then sends
the duration, the count and `collector_up` 1. -/
theorem collector.Get_empty_array (w : World) (c : Category) (target user pass : String)
    (g : Globals) (ch : Chan) (body : Bytes) (elapsed : Float64) (name : String)
    (hfetch : getServerTechJSON w.client target user pass c.path = .ok body)
    (hempty : w.unmarshal.decodesEmpty body c) :
    w.process c body ch = .done ch none ∧
    w.Get c target user pass g ch = .done ch (g, (g.errors c : Float64), none) ∧
    (exporterOf w [c] target user pass).runCollector elapsed name (w.Get c) g ch
      = .done (ch ++ metaMetrics name elapsed (g.errors c : Float64) 1) g := by
  have hproc : w.process c body ch = .done ch none := by
    cases c with
    | branches => simpa using processBranchesStats_eq w.lowerCase _ body [] ch hempty
    | cords => simpa using processCordsStats_eq w.lowerCase _ body [] ch hempty
    | lines => simpa using processLinesStats_eq w.lowerCase _ body [] ch hempty
    | ocps => simpa using processOcpsStats_eq w.lowerCase _ body [] ch hempty
    | outlets => simpa using processOutletsStats_eq w.lowerCase _ body [] ch hempty
    | phases => simpa using processPhasesStats_eq w.lowerCase _ body [] ch hempty
    | units => simpa using processUnitsStats_eq w.lowerCase _ body [] ch hempty
    | system => exact absurd hempty (by simp [Unmarshal.decodesEmpty])
  have hget : w.Get c target user pass g ch = .done ch (g, (g.errors c : Float64), none) := by
    rw [World.Get_eq, hfetch]
    exact getShape_done_none c body _ g ch ch hproc
  refine ⟨hproc, hget, ?_⟩
  rw [runCollector_done _ elapsed name _ g _ ch _ _ _ hget]
  rfl

/-- Instance of C15: the lines collector facing a device that returns the empty array. -/
theorem collector.Get_empty_array_witness :
    (getServerTechJSON emptyWorld.client "pdu" "admin" "secret" Category.lines.path
      = .ok [91, 93]) ∧
    emptyWorld.unmarshal.decodesEmpty [91, 93] .lines ∧
    emptyWorld.Get .lines "pdu" "admin" "secret" Globals.init []
      = .done [] (Globals.init, (Globals.init.errors .lines : Float64), none) :=
  ⟨rfl, rfl,
    (collector.Get_empty_array emptyWorld .lines "pdu" "admin" "secret" Globals.init []
      [91, 93] 0 "lines" rfl rfl).2.1⟩

/-- C16 (not met by the system mapper). An entity all of whose fields have their zero value is
mapped without error by the seven array mappers, every gauge being 0; the system record with
zero values, which is what `{}` decodes to, is not: its uptime is the empty string, the pattern
does not match and `processSystemStats` panics on `reUptime[1]` after eight gauges. -/
theorem collector.zero_value_entities (lowerCase : Char → Char) (payload : Bytes) (ch : Chan) :
    (processBranchesStats lowerCase (fun _ => .ok [branchesEntry.zero]) payload ch
        = .done (ch ++ branchesMetrics lowerCase branchesEntry.zero) none ∧
      (branchesMetrics lowerCase branchesEntry.zero).map (fun m => m.value)
        = List.replicate 5 0) ∧
    (processCordsStats lowerCase (fun _ => .ok [cordsEntry.zero]) payload ch
        = .done (ch ++ cordsMetrics lowerCase cordsEntry.zero) none ∧
      (cordsMetrics lowerCase cordsEntry.zero).map (fun m => m.value) = List.replicate 13 0) ∧
    (processLinesStats lowerCase (fun _ => .ok [linesEntry.zero]) payload ch
        = .done (ch ++ linesMetrics lowerCase linesEntry.zero) none ∧
      (linesMetrics lowerCase linesEntry.zero).map (fun m => m.value) = List.replicate 5 0) ∧
    (processOcpsStats lowerCase (fun _ => .ok [ocpsEntry.zero]) payload ch
        = .done (ch ++ ocpsMetrics lowerCase ocpsEntry.zero) none ∧
      (ocpsMetrics lowerCase ocpsEntry.zero).map (fun m => m.value) = List.replicate 2 0) ∧
    (processOutletsStats lowerCase (fun _ => .ok [outletsEntry.zero]) payload ch
        = .done (ch ++ outletsMetrics lowerCase outletsEntry.zero) none ∧
      (outletsMetrics lowerCase outletsEntry.zero).map (fun m => m.value)
        = List.replicate 15 0) ∧
    (processPhasesStats lowerCase (fun _ => .ok [phasesEntry.zero]) payload ch
        = .done (ch ++ phasesMetrics lowerCase phasesEntry.zero) none ∧
      (phasesMetrics lowerCase phasesEntry.zero).map (fun m => m.value)
        = List.replicate 14 0) ∧
    (processUnitsStats lowerCase (fun _ => .ok [unitsEntry.zero]) payload ch
        = .done (ch ++ unitsMetrics lowerCase unitsEntry.zero) none ∧
      (unitsMetrics lowerCase unitsEntry.zero).map (fun m => m.value) = List.replicate 3 0) ∧
    processSystemStats lowerCase (fun _ => .ok systemData.zero) payload ch
      = .panicked (ch ++ systemHead lowerCase systemData.zero) (.indexOutOfRange 1 0) := by
  refine ⟨⟨?_, rfl⟩, ⟨?_, rfl⟩, ⟨?_, rfl⟩, ⟨?_, rfl⟩, ⟨?_, rfl⟩, ⟨?_, rfl⟩, ⟨?_, rfl⟩, ?_⟩
  · simpa using processBranchesStats_eq lowerCase (fun _ => .ok [branchesEntry.zero]) payload _ ch rfl
  · simpa using processCordsStats_eq lowerCase (fun _ => .ok [cordsEntry.zero]) payload _ ch rfl
  · simpa using processLinesStats_eq lowerCase (fun _ => .ok [linesEntry.zero]) payload _ ch rfl
  · simpa using processOcpsStats_eq lowerCase (fun _ => .ok [ocpsEntry.zero]) payload _ ch rfl
  · simpa using processOutletsStats_eq lowerCase (fun _ => .ok [outletsEntry.zero]) payload _ ch rfl
  · simpa using processPhasesStats_eq lowerCase (fun _ => .ok [phasesEntry.zero]) payload _ ch rfl
  · simpa using processUnitsStats_eq lowerCase (fun _ => .ok [unitsEntry.zero]) payload _ ch rfl
  · exact processSystemStats_nil lowerCase _ payload systemData.zero ch rfl (by decide)

/-- C17. When the collector's `Get` returns, `runCollector` sends exactly three metrics after
whatever `Get` sent, each labelled with the collector's name: the duration gauge, the error
gauge whose value is the count `Get` returned, and the `collector_up` gauge, which is 1 when
`Get` returned no error and 0 when it returned one. -/
theorem collector.runCollector_meta_metrics (e : Exporter) (elapsed : Float64) (name : String)
    (collector : Collector) (g g1 : Globals) (ch ch1 : Chan) (totalErrors : Float64)
    (err : Option Error)
    (hget : collector e.Target e.User e.Pass g ch = .done ch1 (g1, totalErrors, err)) :
    ∃ duration errors up : Metric,
      e.runCollector elapsed name collector g ch = .done (ch1 ++ [duration, errors, up]) g1 ∧
      duration = gauge (descOf servertechDesc "scrapeDuration") elapsed [name] ∧
      errors = gauge (descOf servertechDesc "scrapeErrTotal") totalErrors [name] ∧
      up.desc = descOf servertechDesc "collectorUp" ∧ up.valType = .GaugeValue ∧
      up.labelValues = [name] ∧
      (err = none → up.value = 1) ∧ (err ≠ none → up.value = 0) ∧
      (descOf servertechDesc "scrapeDuration").fqName = "servertech_scrape_duration_seconds" ∧
      (descOf servertechDesc "scrapeErrTotal").fqName = "servertech_scrape_errors_total" ∧
      (descOf servertechDesc "collectorUp").fqName = "servertech_collector_up" := by
  refine ⟨_, _, gauge (descOf servertechDesc "collectorUp") (if err.isSome then 0 else 1) [name],
    runCollector_done e elapsed name collector g g1 ch ch1 totalErrors err hget, rfl, rfl, rfl,
    rfl, rfl, ?_, ?_, by decide, by decide, by decide⟩
  · intro h; subst h; simp [gauge]
  · intro h
    cases err with
    | none => exact absurd rfl h
    | some _ => simp [gauge]

/-- Instance of C17: the branches collector facing a device that returns the empty array. -/
theorem collector.runCollector_meta_metrics_witness :
    (emptyWorld.Get .branches (exporterOf emptyWorld [.branches] "pdu" "admin" "secret").Target
        (exporterOf emptyWorld [.branches] "pdu" "admin" "secret").User
        (exporterOf emptyWorld [.branches] "pdu" "admin" "secret").Pass Globals.init []
      = .done [] (Globals.init, 0, none)) ∧
    ∃ duration errors up : Metric,
      (exporterOf emptyWorld [.branches] "pdu" "admin" "secret").runCollector 2 "branches"
          (emptyWorld.Get .branches) Globals.init []
        = .done [duration, errors, up] Globals.init ∧
      duration.value = 2 ∧ errors.value = 0 ∧ up.value = 1 := by
  have hget : emptyWorld.Get .branches
      (exporterOf emptyWorld [.branches] "pdu" "admin" "secret").Target
      (exporterOf emptyWorld [.branches] "pdu" "admin" "secret").User
      (exporterOf emptyWorld [.branches] "pdu" "admin" "secret").Pass Globals.init []
      = .done [] (Globals.init, 0, none) := by
    have hf : getServerTechJSON emptyWorld.client "pdu" "admin" "secret" Category.branches.path
        = .ok [91, 93] := rfl
    have hp : emptyWorld.process .branches [91, 93] [] = .done [] none := by
      simpa using processBranchesStats_eq id (fun _ => .ok []) [91, 93] [] [] rfl
    have := getShape_done_none .branches [91, 93] (emptyWorld.process .branches) Globals.init
      [] [] hp
    rw [← hf, ← World.Get_eq] at this
    simpa [exporterOf, Globals.errors, Globals.init] using this
  refine ⟨hget, ?_⟩
  obtain ⟨duration, errors, up, h, hd, he, _, _, _, hu, _⟩ :=
    collector.runCollector_meta_metrics (exporterOf emptyWorld [.branches] "pdu" "admin" "secret")
      2 "branches" (emptyWorld.Get .branches) Globals.init Globals.init [] [] 0 none hget
  exact ⟨duration, errors, up, by simpa using h, by rw [hd]; rfl, by rw [he]; rfl, hu rfl⟩

/-- C18, as amended. When the scrape counter is below 2^53, `Collect` on an exporter whose
collectors are those of the given categories increments the scrape counter by exactly 1 and
sends the incremented value as the `scrapes_total` counter before anything the collectors send;
when the scrape returns, the counter still holds the incremented value, and with no enabled
collector that metric is all the scrape sends. -/
theorem collector.Collect_scrape_counter (w : World) (cs : List Category)
    (target user pass : String) (elapsed : String → Float64) (g : Globals) (ch : Chan)
    (hlt : g.servertechTotalScrapeCount < 2 ^ 53) :
    (∃ out : List Metric,
      ((exporterOf w cs target user pass).Collect elapsed g ch).sent
        = ch ++ scrapesTotal ((g.servertechTotalScrapeCount + 1 : Nat) : Float64) :: out) ∧
    (∀ g1, ((exporterOf w cs target user pass).Collect elapsed g ch).returned = some g1 →
      g1.servertechTotalScrapeCount = g.servertechTotalScrapeCount + 1) ∧
    (cs = [] →
      (exporterOf w cs target user pass).Collect elapsed g ch
        = .done (ch ++ [scrapesTotal ((g.servertechTotalScrapeCount + 1 : Nat) : Float64)])
            { g with servertechTotalScrapeCount := g.servertechTotalScrapeCount + 1 }) ∧
    (scrapesTotal ((g.servertechTotalScrapeCount + 1 : Nat) : Float64)).valType = .CounterValue ∧
    (scrapesTotal ((g.servertechTotalScrapeCount + 1 : Nat) : Float64)).desc.fqName
      = "servertech_scrapes_total" := by
  have hinc := float64Inc_of_lt _ hlt
  have hcol := Collect_eq (exporterOf w cs target user pass) elapsed g ch
  rw [hinc] at hcol
  refine ⟨?_, ?_, ?_, rfl,
    show (descOf servertechDesc "scrapesTotal").fqName = "servertech_scrapes_total" by decide⟩
  · obtain ⟨out, _, ⟨g1, h, _⟩ | h⟩ :=
      runCollectors_outcome w (exporterOf w cs target user pass) elapsed cs
        { g with servertechTotalScrapeCount := g.servertechTotalScrapeCount + 1 }
        (ch ++ [scrapesTotal ((g.servertechTotalScrapeCount + 1 : Nat) : Float64)])
    all_goals
      refine ⟨out, ?_⟩
      rw [hcol]
      simp only [exporterOf] at h ⊢
      rw [h]
      simp [Exec.sent]
  · intro g1 hg1
    obtain ⟨out, _, ⟨g2, h, hcount⟩ | h⟩ :=
      runCollectors_outcome w (exporterOf w cs target user pass) elapsed cs
        { g with servertechTotalScrapeCount := g.servertechTotalScrapeCount + 1 }
        (ch ++ [scrapesTotal ((g.servertechTotalScrapeCount + 1 : Nat) : Float64)])
    · rw [hcol] at hg1
      simp only [exporterOf] at h hg1
      rw [h] at hg1
      simp only [Exec.returned, Option.some.injEq] at hg1
      rw [← hg1, hcount]
    · rw [hcol] at hg1
      simp only [exporterOf] at h hg1
      rw [h] at hg1
      simp [Exec.returned] at hg1
  · intro hcs
    subst hcs
    rw [hcol]
    rfl

/-- Instance of C18 as amended: the first scrape of an exporter with the branches collector. -/
theorem collector.Collect_scrape_counter_witness :
    (Globals.init.servertechTotalScrapeCount < 2 ^ 53) ∧
    ∃ out : List Metric,
      ((exporterOf emptyWorld [.branches] "pdu" "admin" "secret").Collect (fun _ => 2)
          Globals.init []).sent
        = [] ++ scrapesTotal ((Globals.init.servertechTotalScrapeCount + 1 : Nat) : Float64) :: out :=
  ⟨by decide,
    (collector.Collect_scrape_counter emptyWorld [.branches] "pdu" "admin" "secret" (fun _ => 2)
      Globals.init [] (by decide)).1⟩

/-- Counterexample to C18 as stated: with the scrape counter at 2^53, `Collect` on an exporter
without collectors leaves the counter at 2^53 and sends 2^53, not 2^53 + 1. -/
theorem collector.scrape_counter_stops_at_two_pow_53 :
    (exporterOf emptyWorld [] "pdu" "admin" "secret").Collect (fun _ => 0)
        { Globals.init with servertechTotalScrapeCount := 9007199254740992 } []
      = .done [scrapesTotal 9007199254740992]
          { Globals.init with servertechTotalScrapeCount := 9007199254740992 } ∧
    (9007199254740992 : Nat) ≠ 9007199254740992 + 1 := by
  refine ⟨?_, by decide⟩
  rw [Collect_eq]
  have h : float64Inc 9007199254740992 = 9007199254740992 := by decide
  simp [h, exporterOf, Exporter.runCollectors, Go.pure_eq, Go.ret, Globals.init]

/-- C19, as amended. A category's counter starts at 0 and never exceeds 2^53.  Over any sequence
of `Get` calls of the category that runs to the end from such a counter, the counter does not
decrease and again does not exceed 2^53; it is the counter before the sequence plus the number
of calls that returned an error, or 2^53 if that is less.  So while the counter is below 2^53 a
call that returns an error adds exactly 1, a call that returns no error leaves every counter as
it was, and starting from 0 the counter after at most 2^53 calls is the number of failed
calls. -/
theorem collector.getSequence_error_count (c : Category) (calls : List Call) (g g1 : Globals)
    (ch ch1 : Chan) (errs : List (Option Error))
    (hg : g.errors c ≤ 2 ^ 53)
    (hrun : getSequence c calls g ch = .done ch1 (g1, errs)) :
    errs.length = calls.length ∧
    g.errors c ≤ g1.errors c ∧
    g1.errors c ≤ 2 ^ 53 ∧
    g1.errors c = min (g.errors c + (errs.filter Option.isSome).length) (2 ^ 53) ∧
    (g.errors c + (errs.filter Option.isSome).length ≤ 2 ^ 53 →
      g1.errors c = g.errors c + (errs.filter Option.isSome).length) ∧
    (g.errors c = 0 → calls.length ≤ 2 ^ 53 →
      g1.errors c = (errs.filter Option.isSome).length) ∧
    (∀ (call : Call) (g2 g3 : Globals) (ch2 ch3 : Chan) (n : Float64) (err : Option Error),
      call.world.Get c call.target call.user call.pass g2 ch2 = .done ch3 (g3, n, err) →
        (err = none → g3 = g2) ∧
        (err ≠ none → g2.errors c < 2 ^ 53 → g3.errors c = g2.errors c + 1)) := by
  obtain ⟨hlen, hcount⟩ := getSequence_count c calls g ch ch1 g1 errs hg hrun
  have hle : (errs.filter Option.isSome).length ≤ errs.length := List.length_filter_le _ _
  have hmono : g.errors c ≤ g1.errors c := by
    rw [hcount]
    exact Nat.le_min.mpr ⟨Nat.le_add_right _ _, hg⟩
  have hbound : g1.errors c ≤ 2 ^ 53 := by
    rw [hcount]
    exact Nat.min_le_right _ _
  refine ⟨hlen, hmono, hbound, hcount, fun hfit => ?_, fun h0 hcalls => ?_, ?_⟩
  · rw [hcount]
    exact Nat.min_eq_left hfit
  · rw [hcount, h0, Nat.zero_add]
    exact Nat.min_eq_left (by omega)
  · intro call g2 g3 ch2 ch3 n err hget
    obtain ⟨out, _, h | ⟨e, h⟩ | h⟩ :=
      World.Get_outcome call.world c call.target call.user call.pass g2 ch2
    · rw [h] at hget
      simp only [Exec.done.injEq, Prod.mk.injEq] at hget
      obtain ⟨_, rfl, _, rfl⟩ := hget
      exact ⟨fun _ => rfl, fun hne => absurd rfl hne⟩
    · rw [h] at hget
      simp only [Exec.done.injEq, Prod.mk.injEq] at hget
      obtain ⟨_, rfl, _, rfl⟩ := hget
      refine ⟨fun hnone => Option.noConfusion hnone, fun _ hlt => ?_⟩
      rw [Globals.bump_errors_self, float64Inc_of_lt _ hlt]
    · rw [h] at hget
      cases hget

/-- Instance of C19 as amended: three calls of the units collector, of which the first and the
third meet a device that does not answer. -/
theorem collector.getSequence_error_count_witness :
    (Globals.init.errors .units ≤ 2 ^ 53) ∧
    (∃ g1 errs,
      getSequence .units
          [Call.mk deadWorld "pdu" "admin" "secret", Call.mk emptyWorld "pdu" "admin" "secret",
            Call.mk deadWorld "pdu" "admin" "secret"] Globals.init []
        = .done [] (g1, errs) ∧ g1.errors .units = 2) := by
  refine ⟨by decide, ?_⟩
  have hrun : getSequence .units
      [Call.mk deadWorld "pdu" "admin" "secret", Call.mk emptyWorld "pdu" "admin" "secret",
        Call.mk deadWorld "pdu" "admin" "secret"] Globals.init []
      = .done [] ((Globals.init.bump .units).bump .units,
          [some (.errorf "cannot get unitss: %s" (.errorf "failed to perform http request: %v"
            (.text "context deadline exceeded"))), none,
           some (.errorf "cannot get unitss: %s" (.errorf "failed to perform http request: %v"
            (.text "context deadline exceeded")))]) := by
    rfl
  refine ⟨_, _, hrun, ?_⟩
  rw [(collector.getSequence_error_count .units _ Globals.init _ [] [] _ (by decide) hrun).2.2.2.2.1
    (by decide)]
  rfl

/-- Counterexample to C19 as stated: starting from 0, after 2^53 + 1 calls of the system
collector that all fail, the counter is 2^53, one less than the number of failed calls. -/
theorem collector.error_count_after_two_pow_53_failures :
    ∃ g1 errs,
      getSequence .system (List.replicate (2 ^ 53 + 1) (Call.mk deadWorld "pdu" "admin" "secret"))
          Globals.init []
        = .done [] (g1, errs) ∧
      (errs.filter Option.isSome).length = 2 ^ 53 + 1 ∧
      g1.errors .system = 2 ^ 53 := by
  obtain ⟨g1, h⟩ := getSequence_deadWorld .system "pdu" "admin" "secret" (2 ^ 53 + 1)
    Globals.init []
  refine ⟨g1, _, h, ?_, ?_⟩
  · rw [List.filter_eq_self.mpr (by intro a ha; rw [List.eq_of_mem_replicate ha]; rfl)]
    exact List.length_replicate _ _
  · have hc := (getSequence_count .system _ Globals.init [] [] g1 _ (by decide) h).2
    rw [hc, List.filter_eq_self.mpr (by intro a ha; rw [List.eq_of_mem_replicate ha]; rfl),
      List.length_replicate]
    decide

/-- C20 (not met when the system mapper panics). Whenever the `Get` of category `c` returns,
whatever its fetch and decoding did, the counters are as before or differ in `c`'s own counter
only: the counter of every other category `d` and the scrape counter are unchanged, and what the
`Get` of `d` then sends, the count and error it returns and the counter it leaves are the same as
if `c` had not run.  But on a system record without uptime the `Get` of the system category does
not return: it panics.  In a scrape of the system and lines categories the panic terminates the
process with the scrape counter and the eight system gauges in the sink; the goroutine of the
lines category, whose `Get` sends nothing and returns no error, never moves, so the three
metrics that a scrape of the lines category alone sends are never sent. -/
theorem collector.Get_isolation :
    (∀ (w : World) (c d : Category) (target user pass : String) (g g1 : Globals) (ch ch1 : Chan)
      (n : Float64) (err : Option Error), d ≠ c →
      w.Get c target user pass g ch = .done ch1 (g1, n, err) →
        g1.errors d = g.errors d ∧
        g1.servertechTotalScrapeCount = g.servertechTotalScrapeCount ∧
        (g1 = g ∨ g1 = g.bump c) ∧
        (∀ (w1 : World) (t u p : String) (ch2 : Chan),
          (w1.Get d t u p g1 ch2).sent = (w1.Get d t u p g ch2).sent ∧
          (w1.Get d t u p g1 ch2).returned.map (fun r => (r.2.1, r.2.2))
            = (w1.Get d t u p g ch2).returned.map (fun r => (r.2.1, r.2.2)) ∧
          (w1.Get d t u p g1 ch2).returned.map (fun r => r.1.errors d)
            = (w1.Get d t u p g ch2).returned.map (fun r => r.1.errors d))) ∧
    (noUptimeWorld.Get .system "pdu" "admin" "secret" Globals.init []
        = .panicked (systemHead id systemData.zero) (.indexOutOfRange 1 0) ∧
      noUptimeWorld.Get .lines "pdu" "admin" "secret" Globals.init []
        = .done [] (Globals.init, 0, none)) ∧
    ((exporterOf noUptimeWorld [.lines] "pdu" "admin" "secret").Collect (fun _ => 0)
          Globals.init []
        = .done (scrapesTotal 1 :: metaMetrics "lines" 0 0 1)
            { Globals.init with servertechTotalScrapeCount := 1 } ∧
      (exporterOf noUptimeWorld [.system, .lines] "pdu" "admin" "secret").Collect (fun _ => 0)
          Globals.init []
        = .panicked (scrapesTotal 1 :: systemHead id systemData.zero) (.indexOutOfRange 1 0)) ∧
    (systemPanicScrape.terminated = some (.indexOutOfRange 1 0) ∧
      systemPanicScrape.goroutines.map Goroutine.live = [false, true] ∧
      ∀ schedule : List Thread,
        ((exporterOf noUptimeWorld [.system, .lines] "pdu" "admin" "secret").exec (fun _ => 0)
            schedule systemPanicScrape).ch
          = scrapesTotal 1 :: systemHead id systemData.zero ∧
        ∀ m ∈ metaMetrics "lines" 0 0 1,
          m ∉ ((exporterOf noUptimeWorld [.system, .lines] "pdu" "admin" "secret").exec
            (fun _ => 0) schedule systemPanicScrape).ch) := by
  refine ⟨?_, ⟨rfl, rfl⟩, ⟨rfl, rfl⟩, rfl, rfl, ?_⟩
  · intro w c d target user pass g g1 ch ch1 n err hcd hget
    have hstate : g1 = g ∨ g1 = g.bump c := by
      obtain ⟨out, _, h | ⟨e, h⟩ | h⟩ := World.Get_outcome w c target user pass g ch
      · rw [h] at hget
        simp only [Exec.done.injEq, Prod.mk.injEq] at hget
        exact Or.inl hget.2.1.symm
      · rw [h] at hget
        simp only [Exec.done.injEq, Prod.mk.injEq] at hget
        exact Or.inr hget.2.1.symm
      · rw [h] at hget; cases hget
    have herr : g1.errors d = g.errors d := by
      rcases hstate with h | h
      · rw [h]
      · rw [h, Globals.bump_errors_other g c d hcd]
    have hcount : g1.servertechTotalScrapeCount = g.servertechTotalScrapeCount := by
      rcases hstate with h | h
      · rw [h]
      · rw [h, Globals.bump_scrapeCount]
    refine ⟨herr, hcount, hstate, ?_⟩
    intro w1 t u p ch2
    rw [World.Get_eq, World.Get_eq]
    exact getShape_congr d _ _ g1 g ch2 herr
  · intro schedule
    rw [exec_terminated _ _ schedule systemPanicScrape rfl]
    have hch : systemPanicScrape.ch = scrapesTotal 1 :: systemHead id systemData.zero := by
      decide
    rw [hch]
    exact ⟨rfl, by decide⟩

/-- Instance of C20: the cords collector fails, the lines collector is not affected. -/
theorem collector.Get_isolation_witness :
    (Category.lines ≠ Category.cords) ∧
    (deadWorld.Get .cords "pdu" "admin" "secret" Globals.init []
      = .done [] (Globals.init.bump .cords, 1,
          some (.errorf "cannot get cordss: %s" (.errorf "failed to perform http request: %v"
            (.text "context deadline exceeded"))))) ∧
    (Globals.init.bump .cords).errors .lines = Globals.init.errors .lines ∧
    (Globals.init.bump .cords).servertechTotalScrapeCount
      = Globals.init.servertechTotalScrapeCount := by
  have hget : deadWorld.Get .cords "pdu" "admin" "secret" Globals.init []
      = .done [] (Globals.init.bump .cords, 1,
          some (.errorf "cannot get cordss: %s" (.errorf "failed to perform http request: %v"
            (.text "context deadline exceeded")))) := by
    rw [World.Get_eq, getServerTechJSON_deadWorld, getShape_fetch_error]
    have h : float64Inc 0 = 1 := by decide
    simp [Globals.bump, Globals.errors, Globals.init, Category.cannotGet, h]
  have h := collector.Get_isolation.1 deadWorld .cords .lines "pdu" "admin" "secret" Globals.init
    _ [] [] _ _ (by decide) hget
  exact ⟨by decide, hget, h.1, h.2.1⟩

/-- C21. For every array-valued category, when two payloads decode to the lists `xs` and `ys`
and a third to `xs ++ ys`: the blocks of the third payload are the blocks of the first followed
by those of the second, each mapper sends the concatenation of the blocks of its payload in
array order, and mapping `xs ++ ys` sends what mapping `xs` and then `ys` sends. -/
theorem collector.process_preserves_order (w : World) (c : Category) (p1 p2 p : Bytes)
    (ch : Chan) (h : w.unmarshal.decodesAppend p1 p2 p c) :
    ∃ b1 b2 : List (List Metric),
      w.blocks p1 c = some b1 ∧ w.blocks p2 c = some b2 ∧ w.blocks p c = some (b1 ++ b2) ∧
      w.process c p1 ch = .done (ch ++ b1.flatten) none ∧
      w.process c p2 (ch ++ b1.flatten) = .done (ch ++ b1.flatten ++ b2.flatten) none ∧
      w.process c p ch = .done (ch ++ b1.flatten ++ b2.flatten) none := by
  cases c with
  | branches =>
    obtain ⟨xs, ys, h1, h2, h3⟩ := h
    obtain ⟨e1, e2, e3⟩ := order_of_blocks (branchesMetrics w.lowerCase) xs ys ch
    refine ⟨xs.map (branchesMetrics w.lowerCase), ys.map (branchesMetrics w.lowerCase),
      ?_, ?_, ?_, ?_, ?_, ?_⟩
    · simp only [World.blocks, h1]; exact blocksOf_ok _ _ (processBranchesEntry_eq _) xs
    · simp only [World.blocks, h2]; exact blocksOf_ok _ _ (processBranchesEntry_eq _) ys
    · simp only [World.blocks, h3, ← List.map_append]
      exact blocksOf_ok _ _ (processBranchesEntry_eq _) (xs ++ ys)
    · rw [← e1]; exact processBranchesStats_eq _ _ _ xs ch h1
    · rw [← e2]; exact processBranchesStats_eq _ _ _ ys _ h2
    · rw [← e3]; exact processBranchesStats_eq _ _ _ (xs ++ ys) ch h3
  | cords =>
    obtain ⟨xs, ys, h1, h2, h3⟩ := h
    obtain ⟨e1, e2, e3⟩ := order_of_blocks (cordsMetrics w.lowerCase) xs ys ch
    refine ⟨xs.map (cordsMetrics w.lowerCase), ys.map (cordsMetrics w.lowerCase),
      ?_, ?_, ?_, ?_, ?_, ?_⟩
    · simp only [World.blocks, h1]; exact blocksOf_ok _ _ (processCordsEntry_eq _) xs
    · simp only [World.blocks, h2]; exact blocksOf_ok _ _ (processCordsEntry_eq _) ys
    · simp only [World.blocks, h3, ← List.map_append]
      exact blocksOf_ok _ _ (processCordsEntry_eq _) (xs ++ ys)
    · rw [← e1]; exact processCordsStats_eq _ _ _ xs ch h1
    · rw [← e2]; exact processCordsStats_eq _ _ _ ys _ h2
    · rw [← e3]; exact processCordsStats_eq _ _ _ (xs ++ ys) ch h3
  | lines =>
    obtain ⟨xs, ys, h1, h2, h3⟩ := h
    obtain ⟨e1, e2, e3⟩ := order_of_blocks (linesMetrics w.lowerCase) xs ys ch
    refine ⟨xs.map (linesMetrics w.lowerCase), ys.map (linesMetrics w.lowerCase),
      ?_, ?_, ?_, ?_, ?_, ?_⟩
    · simp only [World.blocks, h1]; exact blocksOf_ok _ _ (processLinesEntry_eq _) xs
    · simp only [World.blocks, h2]; exact blocksOf_ok _ _ (processLinesEntry_eq _) ys
    · simp only [World.blocks, h3, ← List.map_append]
      exact blocksOf_ok _ _ (processLinesEntry_eq _) (xs ++ ys)
    · rw [← e1]; exact processLinesStats_eq _ _ _ xs ch h1
    · rw [← e2]; exact processLinesStats_eq _ _ _ ys _ h2
    · rw [← e3]; exact processLinesStats_eq _ _ _ (xs ++ ys) ch h3
  | ocps =>
    obtain ⟨xs, ys, h1, h2, h3⟩ := h
    obtain ⟨e1, e2, e3⟩ := order_of_blocks (ocpsMetrics w.lowerCase) xs ys ch
    refine ⟨xs.map (ocpsMetrics w.lowerCase), ys.map (ocpsMetrics w.lowerCase),
      ?_, ?_, ?_, ?_, ?_, ?_⟩
    · simp only [World.blocks, h1]; exact blocksOf_ok _ _ (processOcpsEntry_eq _) xs
    · simp only [World.blocks, h2]; exact blocksOf_ok _ _ (processOcpsEntry_eq _) ys
    · simp only [World.blocks, h3, ← List.map_append]
      exact blocksOf_ok _ _ (processOcpsEntry_eq _) (xs ++ ys)
    · rw [← e1]; exact processOcpsStats_eq _ _ _ xs ch h1
    · rw [← e2]; exact processOcpsStats_eq _ _ _ ys _ h2
    · rw [← e3]; exact processOcpsStats_eq _ _ _ (xs ++ ys) ch h3
  | outlets =>
    obtain ⟨xs, ys, h1, h2, h3⟩ := h
    obtain ⟨e1, e2, e3⟩ := order_of_blocks (outletsMetrics w.lowerCase) xs ys ch
    refine ⟨xs.map (outletsMetrics w.lowerCase), ys.map (outletsMetrics w.lowerCase),
      ?_, ?_, ?_, ?_, ?_, ?_⟩
    · simp only [World.blocks, h1]; exact blocksOf_ok _ _ (processOutletsEntry_eq _) xs
    · simp only [World.blocks, h2]; exact blocksOf_ok _ _ (processOutletsEntry_eq _) ys
    · simp only [World.blocks, h3, ← List.map_append]
      exact blocksOf_ok _ _ (processOutletsEntry_eq _) (xs ++ ys)
    · rw [← e1]; exact processOutletsStats_eq _ _ _ xs ch h1
    · rw [← e2]; exact processOutletsStats_eq _ _ _ ys _ h2
    · rw [← e3]; exact processOutletsStats_eq _ _ _ (xs ++ ys) ch h3
  | phases =>
    obtain ⟨xs, ys, h1, h2, h3⟩ := h
    obtain ⟨e1, e2, e3⟩ := order_of_blocks (phasesMetrics w.lowerCase) xs ys ch
    refine ⟨xs.map (phasesMetrics w.lowerCase), ys.map (phasesMetrics w.lowerCase),
      ?_, ?_, ?_, ?_, ?_, ?_⟩
    · simp only [World.blocks, h1]; exact blocksOf_ok _ _ (processPhasesEntry_eq _) xs
    · simp only [World.blocks, h2]; exact blocksOf_ok _ _ (processPhasesEntry_eq _) ys
    · simp only [World.blocks, h3, ← List.map_append]
      exact blocksOf_ok _ _ (processPhasesEntry_eq _) (xs ++ ys)
    · rw [← e1]; exact processPhasesStats_eq _ _ _ xs ch h1
    · rw [← e2]; exact processPhasesStats_eq _ _ _ ys _ h2
    · rw [← e3]; exact processPhasesStats_eq _ _ _ (xs ++ ys) ch h3
  | system => exact absurd h (by simp [Unmarshal.decodesAppend])
  | units =>
    obtain ⟨xs, ys, h1, h2, h3⟩ := h
    obtain ⟨e1, e2, e3⟩ := order_of_blocks (unitsMetrics w.lowerCase) xs ys ch
    refine ⟨xs.map (unitsMetrics w.lowerCase), ys.map (unitsMetrics w.lowerCase),
      ?_, ?_, ?_, ?_, ?_, ?_⟩
    · simp only [World.blocks, h1]; exact blocksOf_ok _ _ (processUnitsEntry_eq _) xs
    · simp only [World.blocks, h2]; exact blocksOf_ok _ _ (processUnitsEntry_eq _) ys
    · simp only [World.blocks, h3, ← List.map_append]
      exact blocksOf_ok _ _ (processUnitsEntry_eq _) (xs ++ ys)
    · rw [← e1]; exact processUnitsStats_eq _ _ _ xs ch h1
    · rw [← e2]; exact processUnitsStats_eq _ _ _ ys _ h2
    · rw [← e3]; exact processUnitsStats_eq _ _ _ (xs ++ ys) ch h3

/-- Instance of C21: the lines mapper on the payloads `[7]`, `[8, 9]` and `[7, 8, 9]` of a
decoder that reads one line per byte. -/
theorem collector.process_preserves_order_witness :
    bytewiseWorld.unmarshal.decodesAppend [7] [8, 9] [7, 8, 9] .lines ∧
    ∃ b1 b2 : List (List Metric),
      bytewiseWorld.blocks [7] .lines = some b1 ∧ bytewiseWorld.blocks [8, 9] .lines = some b2 ∧
      bytewiseWorld.blocks [7, 8, 9] .lines = some (b1 ++ b2) ∧
      bytewiseWorld.process .lines [7] [] = .done ([] ++ b1.flatten) none ∧
      bytewiseWorld.process .lines [8, 9] ([] ++ b1.flatten)
        = .done ([] ++ b1.flatten ++ b2.flatten) none ∧
      bytewiseWorld.process .lines [7, 8, 9] [] = .done ([] ++ b1.flatten ++ b2.flatten) none :=
  ⟨⟨_, _, rfl, rfl, rfl⟩,
    collector.process_preserves_order bytewiseWorld .lines [7] [8, 9] [7, 8, 9] []
      ⟨_, _, rfl, rfl, rfl⟩⟩

/-- C22. For every over-current protector the loop body of `processOcpsStats` sends exactly two
metrics: the gauge `servertech_ocps_amps_capacity` with the value of `current_capacity` and the
labels id, name, type, followed by the gauge `servertech_ocps_status` with the status encoding
and the labels id, name, type, "ocp".  The mapper sends two metrics per decoded entity, and none
of the metrics it ever sends has the `amps` or the `state` descriptor of the table. -/
theorem collector.processOcpsStats_capacity_and_status (lowerCase : Char → Char) :
    (∀ (data : ocpsEntry) (ch : Chan),
      processOcpsEntry lowerCase data ch
        = .done (ch ++
            [gauge (descOf ocpsDesc "amps_capacity") data.CurrentCapacity
               [data.ID, data.Name, data.Type_],
             gauge (descOf ocpsDesc "status") (statusValue lowerCase data.Status)
               [data.ID, data.Name, data.Type_, "ocp"]]) ()) ∧
    ocpsDesc.lookup "amps_capacity"
      = some { fqName := "servertech_ocps_amps_capacity",
               help := "Integer branch current capacity in whole Amps.",
               variableLabels := ["id", "name", "type"] } ∧
    ocpsDesc.lookup "status"
      = some { fqName := "servertech_ocps_status", help := "Status (1 = Normal, 0 = Not Normal).",
               variableLabels := ["id", "name", "type", "status_type"] } ∧
    (∀ (unmarshal : Bytes → Except Error ocpsData) (payload : Bytes) (xs : ocpsData) (ch : Chan),
      unmarshal payload = .ok xs →
        ∃ out, processOcpsStats lowerCase unmarshal payload ch = .done (ch ++ out) none ∧
          out.length = 2 * xs.length) ∧
    (∀ (unmarshal : Bytes → Except Error ocpsData) (payload : Bytes),
      ∀ m ∈ (processOcpsStats lowerCase unmarshal payload []).sent,
        (m.desc.fqName = "servertech_ocps_amps_capacity" ∨ m.desc.fqName = "servertech_ocps_status")
          ∧ some m.desc ≠ ocpsDesc.lookup "amps" ∧ some m.desc ≠ ocpsDesc.lookup "state"
          ∧ m.valType = .GaugeValue) := by
  refine ⟨fun data ch => ?_, by decide, by decide, ?_, ?_⟩
  · rw [processOcpsEntry_eq]; rfl
  · intro u payload xs ch h
    refine ⟨_, processOcpsStats_eq lowerCase u payload xs ch h, ?_⟩
    exact length_flatMap_const (ocpsMetrics lowerCase) 2 (fun _ => rfl) xs
  · intro u payload m hm
    cases h : u payload with
    | error e =>
      have := (processStats_unmarshal_error lowerCase payload []).2.2.2.1 u e h
      rw [this] at hm
      simp [Exec.sent] at hm
    | ok xs =>
      rw [processOcpsStats_eq lowerCase u payload xs [] h] at hm
      simp only [Exec.sent, List.nil_append, List.mem_flatMap] at hm
      obtain ⟨x, _, hx⟩ := hm
      simp only [ocpsMetrics, List.mem_cons, List.mem_singleton, List.not_mem_nil, or_false] at hx
      rcases hx with rfl | rfl
      · exact ⟨Or.inl (show (descOf ocpsDesc "amps_capacity").fqName = _ by decide),
          show some (descOf ocpsDesc "amps_capacity") ≠ _ by decide,
          show some (descOf ocpsDesc "amps_capacity") ≠ _ by decide, rfl⟩
      · exact ⟨Or.inr (show (descOf ocpsDesc "status").fqName = _ by decide),
          show some (descOf ocpsDesc "status") ≠ _ by decide,
          show some (descOf ocpsDesc "status") ≠ _ by decide, rfl⟩

/-- C24. For every cord the loop body of `processCordsStats` sends exactly thirteen metrics:
seven gauges that carry the fields `active_power`, `power_capacity`, `apparent_power`, `energy`,
`frequency`, `three_phase_imbalance` and `power_factor` unchanged, five status gauges with one
descriptor and the status types "active power", "apparent power", "power factor",
"three phase imbalance" and "cord", and one state gauge. -/
theorem collector.processCordsStats_thirteen (lowerCase : Char → Char) :
    (∀ (data : cordsEntry) (ch : Chan),
      processCordsEntry lowerCase data ch
        = .done (ch ++
            [gauge (descOf cordsDesc "watts") data.ActivePower
               [data.ID, data.Name, data.PlugType],
             gauge (descOf cordsDesc "watts_capacity") data.PowerCapacity
               [data.ID, data.Name, data.PlugType],
             gauge (descOf cordsDesc "voltamps") data.ApparentPower
               [data.ID, data.Name, data.PlugType],
             gauge (descOf cordsDesc "kilowatthours") data.Energy
               [data.ID, data.Name, data.PlugType],
             gauge (descOf cordsDesc "hertz") data.Frequency [data.ID, data.Name, data.PlugType],
             gauge (descOf cordsDesc "three_phase_imbalance") data.ThreePhaseImbalance
               [data.ID, data.Name, data.PlugType],
             gauge (descOf cordsDesc "power_factor") data.PowerFactor
               [data.ID, data.Name, data.PlugType],
             gauge (descOf cordsDesc "status") (statusValue lowerCase data.ActivePowerStatus)
               [data.ID, data.Name, data.PlugType, "active power"],
             gauge (descOf cordsDesc "status") (statusValue lowerCase data.ApparentPowerStatus)
               [data.ID, data.Name, data.PlugType, "apparent power"],
             gauge (descOf cordsDesc "status") (statusValue lowerCase data.PowerFactorStatus)
               [data.ID, data.Name, data.PlugType, "power factor"],
             gauge (descOf cordsDesc "status")
               (statusValue lowerCase data.ThreePhaseImbalanceStatus)
               [data.ID, data.Name, data.PlugType, "three phase imbalance"],
             gauge (descOf cordsDesc "status") (statusValue lowerCase data.Status)
               [data.ID, data.Name, data.PlugType, "cord"],
             gauge (descOf cordsDesc "state") (stateValue lowerCase data.State)
               [data.ID, data.Name, data.PlugType]]) ()) ∧
    (["watts", "watts_capacity", "voltamps", "kilowatthours", "hertz", "three_phase_imbalance",
        "power_factor", "status", "state"].map (fun key => (cordsDesc.lookup key).map (·.fqName))
      = [some "servertech_cords_watts", some "servertech_cords_watts_capacity",
         some "servertech_cords_voltamps", some "servertech_cords_kilowatthours",
         some "servertech_cords_hertz", some "servertech_cords_three_phase_imbalance",
         some "servertech_cords_power_factor", some "servertech_cords_status",
         some "servertech_cords_state"]) ∧
    (∀ (unmarshal : Bytes → Except Error cordsData) (payload : Bytes) (xs : cordsData) (ch : Chan),
      unmarshal payload = .ok xs →
        ∃ out, processCordsStats lowerCase unmarshal payload ch = .done (ch ++ out) none ∧
          out.length = 13 * xs.length) := by
  refine ⟨fun data ch => ?_, by decide, ?_⟩
  · rw [processCordsEntry_eq]; rfl
  · intro u payload xs ch h
    refine ⟨_, processCordsStats_eq lowerCase u payload xs ch h, ?_⟩
    exact length_flatMap_const (cordsMetrics lowerCase) 13 (fun _ => rfl) xs

/-- C23. Whenever `processSystemStats` returns without error it has sent exactly nine metrics:
the gauge of `active_users` with the value of that field, seven status gauges with the status
types branches, cords, lines, ocps, outlets, phases and units, each with the status encoding of
the corresponding `status_*` field, and one metric of kind counter under the key
`uptime_seconds`.  All nine carry the firmware and the NIC serial number as their first two
label values; the status gauges carry the status type as a third. -/
theorem collector.processSystemStats_nine_emissions (lowerCase : Char → Char)
    (unmarshal : Bytes → Except Error systemData) (payload : Bytes) (ch ch1 : Chan)
    (h : processSystemStats lowerCase unmarshal payload ch = .done ch1 none) :
    ∃ (data : systemData) (uptime : Float64), unmarshal payload = .ok data ∧
      ch1 = ch ++
        [gauge (descOf systemDesc "active_users") data.ActiveUsers
           [data.Firmware, data.NicSerialNumber],
         gauge (descOf systemDesc "status") (statusValue lowerCase data.StatusBranches)
           [data.Firmware, data.NicSerialNumber, "branches"],
         gauge (descOf systemDesc "status") (statusValue lowerCase data.StatusCords)
           [data.Firmware, data.NicSerialNumber, "cords"],
         gauge (descOf systemDesc "status") (statusValue lowerCase data.StatusLines)
           [data.Firmware, data.NicSerialNumber, "lines"],
         gauge (descOf systemDesc "status") (statusValue lowerCase data.StatusOcps)
           [data.Firmware, data.NicSerialNumber, "ocps"],
         gauge (descOf systemDesc "status") (statusValue lowerCase data.StatusOutlets)
           [data.Firmware, data.NicSerialNumber, "outlets"],
         gauge (descOf systemDesc "status") (statusValue lowerCase data.StatusPhases)
           [data.Firmware, data.NicSerialNumber, "phases"],
         gauge (descOf systemDesc "status") (statusValue lowerCase data.StatusUnits)
           [data.Firmware, data.NicSerialNumber, "units"],
         { desc := descOf systemDesc "uptime_seconds", valType := .CounterValue, value := uptime,
           labelValues := [data.Firmware, data.NicSerialNumber] }] ∧
      (systemDesc.lookup "active_users").map (·.variableLabels)
        = some ["firmware", "nic_serial_number"] ∧
      (systemDesc.lookup "status").map (·.variableLabels)
        = some ["firmware", "nic_serial_number", "status_type"] ∧
      (systemDesc.lookup "uptime_seconds").map (·.variableLabels)
        = some ["firmware", "nic_serial_number"] := by
  cases hdata : unmarshal payload with
  | error e =>
    rw [(processStats_unmarshal_error lowerCase payload ch).2.2.2.2.2.2.2 unmarshal e hdata] at h
    cases h
  | ok data =>
    rcases processSystemStats_outcome lowerCase unmarshal payload data ch hdata
      with hp | ⟨e, he⟩ | ⟨v, hv⟩
    · rw [hp] at h; cases h
    · rw [he] at h; cases h
    · rw [hv] at h
      cases h
      refine ⟨data, v, rfl, ?_, by decide, by decide, by decide⟩
      simp [systemHead, systemStatus, systemUptime, gauge]

/-- Instance of C23: the record with uptime "1 days 2 hours 3 minutes 4 seconds". -/
theorem collector.processSystemStats_nine_emissions_witness :
    processSystemStats id (fun _ => .ok (sampleSystem "1 days 2 hours 3 minutes 4 seconds")) [] []
      = .done ([] ++ systemHead id (sampleSystem "1 days 2 hours 3 minutes 4 seconds")
          ++ [systemUptime (sampleSystem "1 days 2 hours 3 minutes 4 seconds")
            (float64OfInt ((1 * 86400 + 2 * 3600 + 3 * 60 + 4 : Nat) : Int))]) none ∧
    ∃ data : systemData,
      (fun _ => .ok (sampleSystem "1 days 2 hours 3 minutes 4 seconds") :
        Bytes → Except Error systemData) [] = .ok data ∧
      ([] ++ systemHead id (sampleSystem "1 days 2 hours 3 minutes 4 seconds")
          ++ [systemUptime (sampleSystem "1 days 2 hours 3 minutes 4 seconds")
            (float64OfInt ((1 * 86400 + 2 * 3600 + 3 * 60 + 4 : Nat) : Int))]).length = 9 ∧
      data.Firmware = "fw" ∧ data.NicSerialNumber = "sn" :=
  ⟨processSystemStats_full id _ [] (sampleSystem "1 days 2 hours 3 minutes 4 seconds") []
      1 2 3 4 rfl (by decide) (by decide),
    (collector.processSystemStats_nine_emissions id
      (fun _ => .ok (sampleSystem "1 days 2 hours 3 minutes 4 seconds")) [] [] _
      (processSystemStats_full id _ [] (sampleSystem "1 days 2 hours 3 minutes 4 seconds") []
        1 2 3 4 rfl (by decide) (by decide))).elim
      fun data hd => hd.elim fun _ hu =>
        ⟨data, hu.1, rfl, by
          have := hu.1
          cases this
          exact ⟨rfl, rfl⟩⟩⟩

/-- C29. For every reactance string `s` there is one value among 0, 1, 2 and 3 such that the
reactance gauge that the loop body of `processOutletsStats` sends for an outlet with reactance
`s` (computed inline), the reactance gauge that the loop body of `processPhasesStats` sends for
a phase with reactance `s` (computed by `reactanceMetric`), and the gauge that `reactanceMetric`
sends for `s` with any descriptor all have that value. -/
theorem collector.outlets_reactance_agrees (lowerCase : Char → Char) (o : outletsEntry)
    (p : phasesEntry) (s : String) :
    ∃ v : Float64, (v = 0 ∨ v = 1 ∨ v = 2 ∨ v = 3) ∧
      ((processOutletsEntry lowerCase { o with Reactance := s } []).sent.filter
          (fun m => m.desc = descOf outletsDesc "reactance")).map (fun m => m.value) = [v] ∧
      ((processPhasesEntry lowerCase { p with Reactance := s } []).sent.filter
          (fun m => m.desc = descOf phasesDesc "reactance")).map (fun m => m.value) = [v] ∧
      (∀ (d : Desc) (labels : List String) (ch : Chan),
        labels.length = d.variableLabels.length →
          reactanceMetric lowerCase (some d) s labels ch = .done (ch ++ [gauge d v labels]) ()) := by
  refine ⟨reactanceValue lowerCase s, reactanceValue_range lowerCase s, ?_, ?_, ?_⟩
  · rw [processOutletsEntry_eq]
    simp only [Exec.sent, List.nil_append, outletsMetrics, gauge]
    simp +decide [List.filter]
  · rw [processPhasesEntry_eq]
    simp only [Exec.sent, List.nil_append, phasesMetrics, gauge]
    simp +decide [List.filter]
  · intro d labels ch h
    exact reactanceMetric_ok lowerCase d s labels ch h

/-- C30 (not met by the system table). In the descriptor tables of the seven array-valued
categories every descriptor is named `servertech_<subsystem>_<key>`, and so are the descriptors
under the keys `active_users` and `status` of the system table; the descriptor under the key
`uptime_seconds` is named `servertech_system_voltamps`, so that is the name under which the
uptime counter of `processSystemStats` is sent.  Within every table the names are distinct. -/
theorem collector.descriptor_names :
    ((∀ e ∈ branchesDesc, e.2.fqName = "servertech_" ++ branchesSubsystem ++ "_" ++ e.1) ∧
      (∀ e ∈ cordsDesc, e.2.fqName = "servertech_" ++ cordsSubsystem ++ "_" ++ e.1) ∧
      (∀ e ∈ linesDesc, e.2.fqName = "servertech_" ++ linesSubsystem ++ "_" ++ e.1) ∧
      (∀ e ∈ ocpsDesc, e.2.fqName = "servertech_" ++ ocpsSubsystem ++ "_" ++ e.1) ∧
      (∀ e ∈ outletsDesc, e.2.fqName = "servertech_" ++ outletsSubsystem ++ "_" ++ e.1) ∧
      (∀ e ∈ phasesDesc, e.2.fqName = "servertech_" ++ phasesSubsystem ++ "_" ++ e.1) ∧
      (∀ e ∈ unitsDesc, e.2.fqName = "servertech_" ++ unitsSubsystem ++ "_" ++ e.1)) ∧
    (systemDesc.map (fun e => (e.1, e.2.fqName))
      = [("active_users", "servertech_system_active_users"),
         ("uptime_seconds", "servertech_system_voltamps"),
         ("status", "servertech_system_status")]) ∧
    ((systemDesc.lookup "uptime_seconds").map (fun d => d.fqName)
      ≠ some "servertech_system_uptime_seconds") ∧
    (processSystemStats id (fun _ => .ok (sampleSystem "1 days 2 hours 3 minutes 4 seconds")) [] []
      = .done (systemHead id (sampleSystem "1 days 2 hours 3 minutes 4 seconds") ++
          [{ desc := { fqName := "servertech_system_voltamps", help := "System uptime",
                       variableLabels := ["firmware", "nic_serial_number"] },
             valType := .CounterValue, value := 93784, labelValues := ["fw", "sn"] }]) none) ∧
    ((branchesDesc.map (fun e => e.2.fqName)).Nodup ∧ (cordsDesc.map (fun e => e.2.fqName)).Nodup ∧
      (linesDesc.map (fun e => e.2.fqName)).Nodup ∧ (ocpsDesc.map (fun e => e.2.fqName)).Nodup ∧
      (outletsDesc.map (fun e => e.2.fqName)).Nodup ∧
      (phasesDesc.map (fun e => e.2.fqName)).Nodup ∧
      (systemDesc.map (fun e => e.2.fqName)).Nodup ∧
      (unitsDesc.map (fun e => e.2.fqName)).Nodup) := by
  refine ⟨by decide, by decide, by decide, ?_, by decide⟩
  rw [processSystemStats_full id _ [] (sampleSystem "1 days 2 hours 3 minutes 4 seconds") []
    1 2 3 4 rfl (by decide) (by decide)]
  have hv : float64OfInt ((1 * 86400 + 2 * 3600 + 3 * 60 + 4 : Nat) : Int) = 93784 := by decide
  rw [hv]
  rfl

/-- C26. For every category, target, user and password, when `http.NewRequest` accepts the URL:
`Get` hands to the HTTP client the request `GET https://<target>/jaws/monitor/<category>` with
the one header `Authorization: Basic <base64 of user:pass>`, and depends on the device through
the answer to that request only; when the answer has a status code other than 200, the fetch
returns an error and no body, and `Get` returns that error without sending anything.  The path
of each category is its subsystem name. -/
theorem collector.Get_request (w : World) (c : Category) (target user pass : String)
    (g : Globals) (ch : Chan)
    (hreq : w.client.requestError "GET" ("https://" ++ target ++ "/jaws/monitor/" ++ c.path)
      = none) :
    (∀ client : http.Client, client.requestError = w.client.requestError →
      client.Do
          { Method := "GET", URL := "https://" ++ target ++ "/jaws/monitor/" ++ c.path,
            Header := [("Authorization",
              "Basic " ++ base64.EncodeToString (user ++ ":" ++ pass))] }
        = w.client.Do
          { Method := "GET", URL := "https://" ++ target ++ "/jaws/monitor/" ++ c.path,
            Header := [("Authorization",
              "Basic " ++ base64.EncodeToString (user ++ ":" ++ pass))] } →
      World.Get { w with client := client } c target user pass g ch
        = w.Get c target user pass g ch) ∧
    (∀ resp : http.Response,
      w.client.Do
          { Method := "GET", URL := "https://" ++ target ++ "/jaws/monitor/" ++ c.path,
            Header := [("Authorization",
              "Basic " ++ base64.EncodeToString (user ++ ":" ++ pass))] }
        = .ok resp →
      resp.StatusCode ≠ 200 →
        getServerTechJSON w.client target user pass c.path
          = .error (.errorfInt "incorrect status code received from device: %d" resp.StatusCode)
        ∧ w.Get c target user pass g ch
          = .done ch (g.bump c, ((g.bump c).errors c : Float64),
              some (.errorf c.cannotGet
                (.errorfInt "incorrect status code received from device: %d" resp.StatusCode)))) ∧
    ([Category.branches, .cords, .lines, .ocps, .outlets, .phases, .system, .units].map
        Category.path
      = [branchesSubsystem, cordsSubsystem, linesSubsystem, ocpsSubsystem, outletsSubsystem,
         phasesSubsystem, systemSubsystem, unitsSubsystem]) := by
  refine ⟨?_, ?_, rfl⟩
  · intro client hre hdo
    rw [World.Get_eq, World.Get_eq]
    have h1 := getServerTechJSON_eq client target user pass c.path (by rw [hre]; exact hreq)
    have h2 := getServerTechJSON_eq w.client target user pass c.path hreq
    simp only [requestFor] at h1 h2
    rw [hdo] at h1
    show getShape c (getServerTechJSON client target user pass c.path) _ g ch = _
    rw [h1, h2]
    cases c <;> rfl
  · intro resp hdo hcode
    have h := getServerTechJSON_eq w.client target user pass c.path hreq
    simp only [requestFor] at h
    rw [hdo] at h
    simp only [hcode, ne_eq, not_false_eq_true, if_true] at h
    refine ⟨h, ?_⟩
    rw [World.Get_eq, h, getShape_fetch_error]

/-- Instance of C26: the outlets collector facing a device that answers 404, and the request
that the fetch hands to a client that reports it. -/
theorem collector.Get_request_witness :
    ((statusWorld 404).client.requestError "GET"
        ("https://" ++ "pdu" ++ "/jaws/monitor/" ++ Category.outlets.path) = none) ∧
    (statusWorld 404).Get .outlets "pdu" "admin" "secret" Globals.init []
      = .done [] (Globals.init.bump .outlets, ((Globals.init.bump .outlets).errors .outlets : Float64),
          some (.errorf Category.outlets.cannotGet
            (.errorfInt "incorrect status code received from device: %d" 404))) ∧
    getServerTechJSON echoClient "pdu" "admin" "secret" "outlets"
      = .error (.errorf "failed to perform http request: %v"
          (.text "GET https://pdu/jaws/monitor/outlets Authorization: Basic YWRtaW46c2VjcmV0")) :=
  ⟨rfl,
    ((collector.Get_request (statusWorld 404) .outlets "pdu" "admin" "secret" Globals.init [] rfl).2.1
      { StatusCode := 404, Body := .ok [91, 93] } rfl (by decide)).2,
    rfl⟩

/-- C27. For every category and payload there is one sequence of metrics that the mapper
appends to the sink each time it is run on the payload, whatever the sink holds and with the
same result (no error, the same error, or the panic); so a second run after the first sends the
same descriptors, kinds, values and labels in the same order.  The `Get` method, which is where
the counters are read and written, sends that same sequence for a fetched payload whatever the
values of the error counters and of the scrape counter. -/
theorem collector.process_idempotent (w : World) (c : Category) (payload : Bytes) :
    ∃ out : List Metric,
      (∀ ch, (w.process c payload ch).sent = ch ++ out) ∧
      (∀ ch ch1, (w.process c payload ch).returned = (w.process c payload ch1).returned) ∧
      (∀ ch ch1 r, w.process c payload ch = .done ch1 r →
        ch1 = ch ++ out ∧ w.process c payload ch1 = .done (ch ++ out ++ out) r) ∧
      (∀ (target user pass : String) (g g1 : Globals) (ch : Chan),
        getServerTechJSON w.client target user pass c.path = .ok payload →
          (w.Get c target user pass g ch).sent = ch ++ out ∧
          (w.Get c target user pass g1 ch).sent = ch ++ out ∧
          (w.Get c target user pass g ch).returned.map (fun r => r.2.2)
            = (w.Get c target user pass g1 ch).returned.map (fun r => r.2.2)) := by
  obtain ⟨out, h | ⟨e, h⟩ | h⟩ := World.process_uniform w c payload
  · refine ⟨out, fun ch => by rw [h]; rfl, fun ch ch1 => by rw [h, h]; rfl, ?_, ?_⟩
    · intro ch ch1 r hr
      rw [h] at hr
      cases hr
      exact ⟨rfl, h _⟩
    · intro target user pass g g1 ch hf
      rw [World.Get_eq, World.Get_eq, hf, getShape_done_none c payload _ g ch _ (h ch),
        getShape_done_none c payload _ g1 ch _ (h ch)]
      exact ⟨rfl, rfl, rfl⟩
  · refine ⟨out, fun ch => by rw [h]; rfl, fun ch ch1 => by rw [h, h]; rfl, ?_, ?_⟩
    · intro ch ch1 r hr
      rw [h] at hr
      cases hr
      exact ⟨rfl, h _⟩
    · intro target user pass g g1 ch hf
      rw [World.Get_eq, World.Get_eq, hf, getShape_done_some c payload _ g ch _ e (h ch),
        getShape_done_some c payload _ g1 ch _ e (h ch)]
      exact ⟨rfl, rfl, rfl⟩
  · refine ⟨out, fun ch => by rw [h]; rfl, fun ch ch1 => by rw [h, h]; rfl, ?_, ?_⟩
    · intro ch ch1 r hr
      rw [h] at hr
      cases hr
    · intro target user pass g g1 ch hf
      rw [World.Get_eq, World.Get_eq, hf, getShape_panicked c payload _ g ch _ _ (h ch),
        getShape_panicked c payload _ g1 ch _ _ (h ch)]
      exact ⟨rfl, rfl, rfl⟩

/-- C25. For the registry after any sequence of registrations, with any values of the flags,
`NewExporter` returns an exporter that stores target, user and password unchanged and whose
map of collectors has each key once; its keys are exactly the registered names whose switch is
set, and each key is mapped to what the constructor registered (last) under that name returns.
The registry that the `init` functions of the package build gives, with every flag at its
default, the exporter of the eight categories, and with the outlets flag cleared the exporter of
the other seven. -/
theorem collector.NewExporter_enabled (flagBool : String → String → String → Bool)
    (regs : List Registration) (target user pass : String) :
    (∃ e : Exporter, NewExporter (Registry.after flagBool regs) target user pass = .ok e ∧
      e.Target = target ∧ e.User = user ∧ e.Pass = pass ∧
      (e.Collectors.map Prod.fst).Nodup ∧
      (∀ name, name ∈ e.Collectors.map Prod.fst ↔
        (∃ reg ∈ regs, reg.name = name) ∧ (Registry.after flagBool regs).enabled name) ∧
      (∀ name collector, (name, collector) ∈ e.Collectors ↔
        (Registry.after flagBool regs).enabled name ∧
        ∃ constructor, (Registry.after flagBool regs).allCollectors.lookup name
          = some constructor ∧ collector = constructor ())) ∧
    (∀ w : World, NewExporter (initRegistry defaultFlags w) target user pass
      = .ok (exporterOf w [.branches, .cords, .lines, .ocps, .outlets, .phases, .system, .units]
          target user pass)) ∧
    (∀ w : World, NewExporter (initRegistry noOutletsFlags w) target user pass
      = .ok (exporterOf w [.branches, .cords, .lines, .ocps, .phases, .system, .units]
          target user pass)) := by
  refine ⟨?_, fun w => rfl, fun w => rfl⟩
  obtain ⟨hnd, hkeys, hnames⟩ := Registry.after_keys flagBool regs
  generalize Registry.after flagBool regs = r at hnd hkeys hnames
  have hloop := enabledLoop_eq r.collectorState r.allCollectors [] hnd
    (fun k hk => by rw [hkeys]; exact hk) (fun k _ => by simp)
  simp only [List.nil_append] at hloop
  refine ⟨{ Collectors := List.map (fun e => (e.1, e.2 ()))
              (List.filter (fun e => decide (List.lookup e.1 r.collectorState = some true))
                r.allCollectors),
            Target := target, User := user, Pass := pass },
    by simp only [NewExporter, hloop], rfl, rfl, rfl, ?_, ?_, ?_⟩
  · have hsub : ((r.allCollectors.filter fun e => r.collectorState.lookup e.1 = some true).map
        fun e => (e.1, e.2 ())).map Prod.fst
        = (r.allCollectors.filter fun e => r.collectorState.lookup e.1 = some true).map
            Prod.fst := by
      simp [List.map_map, Function.comp_def]
    rw [hsub]
    exact (List.Sublist.map _ (List.filter_sublist _)).nodup hnd
  · intro name
    rw [← hnames]
    simp only [List.mem_map, List.mem_filter, decide_eq_true_eq, Registry.names,
      Registry.enabled, Prod.exists]
    constructor
    · rintro ⟨k, c, ⟨k1, c1, ⟨hmem, hen⟩, hk⟩, rfl⟩
      cases hk
      exact ⟨⟨k, c1, hmem, rfl⟩, hen⟩
    · rintro ⟨⟨k, c, hmem, rfl⟩, hen⟩
      exact ⟨k, c (), ⟨k, c, ⟨hmem, hen⟩, rfl⟩, rfl⟩
  · intro name collector
    simp only [List.mem_map, List.mem_filter, decide_eq_true_eq, Registry.enabled, Prod.exists,
      Prod.mk.injEq]
    constructor
    · rintro ⟨k, c, ⟨hmem, hen⟩, rfl, rfl⟩
      exact ⟨hen, c, lookup_of_mem _ _ _ hnd hmem, rfl⟩
    · rintro ⟨hen, c, hl, rfl⟩
      exact ⟨name, c, ⟨mem_of_lookup _ _ _ hl, hen⟩, rfl, rfl⟩

/-- C28 (not met when a collector panics). Under every schedule of the caller of `Collect` and of
the goroutines it starts: once `Collect` has returned, every entry of `e.Collectors` has its
goroutine, every goroutine has run its `wg.Done()`, all that its `runCollector` sends is in the
sink in order, and for a collector whose `Get` returned that is the metrics of `Get` followed by
the three metrics about the collector.  A scrape of the lines category returns with the scrape
counter and those three metrics in the sink.  But when `Get` panics, as for a system record
without uptime, the deferred `wg.Done()` runs before the panic ends the process: `Collect` can
return with the eight gauges of the system mapper in the sink and none of the three metrics
about the system collector; the next step of the goroutine terminates the process. -/
theorem collector.Collect_waits :
    (∀ (e : Exporter) (elapsed : String → Float64) (g : Globals) (ch : Chan)
      (schedule : List Thread),
      (e.exec elapsed schedule (Scrape.init g ch)).pc.isReturned = true →
        List.Forall₂
          (Goroutine.Finished e elapsed (e.exec elapsed schedule (Scrape.init g ch)).ch)
          e.Collectors (e.exec elapsed schedule (Scrape.init g ch)).goroutines) ∧
    (linesScrape.pc.isReturned = true ∧ linesScrape.terminated = none ∧
      linesScrape.ch = scrapesTotal 1 :: metaMetrics "lines" 0 0 1) ∧
    (noUptimeScrape.pc.isReturned = true ∧ noUptimeScrape.terminated = none ∧
      noUptimeScrape.ch = scrapesTotal 1 :: systemHead id systemData.zero ∧
      (∀ m ∈ noUptimeScrape.ch, m.desc ∉ [descOf servertechDesc "scrapeDuration",
        descOf servertechDesc "scrapeErrTotal", descOf servertechDesc "collectorUp"]) ∧
      ((exporterOf noUptimeWorld [.system] "pdu" "admin" "secret").exec (fun _ => 0)
          [.goroutine 0] noUptimeScrape).terminated = some (.indexOutOfRange 1 0)) := by
  refine ⟨?_, ⟨rfl, rfl, by decide⟩, rfl, rfl, by decide, by decide, rfl⟩
  intro e elapsed g ch schedule hret
  exact Scrape.Inv.finished e elapsed _
    (Scrape.Inv.exec e elapsed schedule _ (Scrape.Inv.init e elapsed g ch)) hret

/-- C31, as amended. When the uptime pattern matches and `strconv.Atoi` reads the four groups as
integers `d`, `h`, `m`, `s` none of which is negative and with `d*86400 + h*3600 + m*60 + s`
below 2^63, `processSystemStats` returns without error and the uptime counter it sends has the
value `float64(d*86400 + h*3600 + m*60 + s)`, which is not negative. -/
theorem collector.processSystemStats_uptime_nonneg (lowerCase : Char → Char)
    (unmarshal : Bytes → Except Error systemData) (payload : Bytes) (data : systemData)
    (ch : Chan) (w g1 g2 g3 g4 : String) (d h m s : Int)
    (hdata : unmarshal payload = .ok data)
    (hre : regexp.uptimeRegexp.FindStringSubmatch data.Uptime = [w, g1, g2, g3, g4])
    (h1 : strconv.Atoi g1 = .ok d) (h2 : strconv.Atoi g2 = .ok h)
    (h3 : strconv.Atoi g3 = .ok m) (h4 : strconv.Atoi g4 = .ok s)
    (hd : 0 ≤ d) (hh : 0 ≤ h) (hm : 0 ≤ m) (hs : 0 ≤ s)
    (hfit : d * 86400 + h * 3600 + m * 60 + s < 2 ^ 63) :
    processSystemStats lowerCase unmarshal payload ch
      = .done (ch ++ systemHead lowerCase data ++ [systemUptime data
          (float64OfInt (d * 86400 + h * 3600 + m * 60 + s))]) none ∧
    0 ≤ float64OfInt (d * 86400 + h * 3600 + m * 60 + s) := by
  have hfit' : d * 86400 + h * 3600 + m * 60 + s < 9223372036854775808 := by
    simpa using hfit
  have w1 : wrapInt64 (d * 86400) = d * 86400 := wrapInt64_of_fits _ (by omega) (by omega)
  have w2 : wrapInt64 (h * 3600) = h * 3600 := wrapInt64_of_fits _ (by omega) (by omega)
  have w3 : wrapInt64 (m * 60) = m * 60 := wrapInt64_of_fits _ (by omega) (by omega)
  have w4 : wrapInt64 (d * 86400 + h * 3600) = d * 86400 + h * 3600 :=
    wrapInt64_of_fits _ (by omega) (by omega)
  have w5 : wrapInt64 (d * 86400 + h * 3600 + m * 60) = d * 86400 + h * 3600 + m * 60 :=
    wrapInt64_of_fits _ (by omega) (by omega)
  have w6 : wrapInt64 (d * 86400 + h * 3600 + m * 60 + s) = d * 86400 + h * 3600 + m * 60 + s :=
    wrapInt64_of_fits _ (by omega) (by omega)
  refine ⟨?_, float64OfInt_nonneg _ (by omega)⟩
  rw [processSystemStats_ok lowerCase unmarshal payload data ch w g1 g2 g3 g4 d h m s hdata hre
    h1 h2 h3 h4, w1, w2, w3, w4, w5, w6]

/-- Instance of C31 as amended: the uptime "+1 days 2 hours 3 minutes 4 seconds", whose first
component is written with a sign. -/
theorem collector.processSystemStats_uptime_nonneg_witness :
    (regexp.uptimeRegexp.FindStringSubmatch
        (sampleSystem "+1 days 2 hours 3 minutes 4 seconds").Uptime
      = ["+1 days 2 hours 3 minutes 4 seconds", "+1", "2", "3", "4"]) ∧
    (strconv.Atoi "+1" = .ok 1 ∧ strconv.Atoi "2" = .ok 2 ∧ strconv.Atoi "3" = .ok 3 ∧
      strconv.Atoi "4" = .ok 4) ∧
    ((1 : Int) * 86400 + 2 * 3600 + 3 * 60 + 4 < 2 ^ 63) ∧
    processSystemStats id (fun _ => .ok (sampleSystem "+1 days 2 hours 3 minutes 4 seconds")) [] []
      = .done ([] ++ systemHead id (sampleSystem "+1 days 2 hours 3 minutes 4 seconds")
          ++ [systemUptime (sampleSystem "+1 days 2 hours 3 minutes 4 seconds")
            (float64OfInt (1 * 86400 + 2 * 3600 + 3 * 60 + 4))]) none ∧
    0 ≤ float64OfInt (1 * 86400 + 2 * 3600 + 3 * 60 + 4) :=
  ⟨by decide, ⟨rfl, rfl, rfl, rfl⟩, by decide,
    collector.processSystemStats_uptime_nonneg id
      (fun _ => .ok (sampleSystem "+1 days 2 hours 3 minutes 4 seconds")) []
      (sampleSystem "+1 days 2 hours 3 minutes 4 seconds") []
      "+1 days 2 hours 3 minutes 4 seconds" "+1" "2" "3" "4" 1 2 3 4 rfl (by decide) rfl rfl rfl
      rfl (by decide) (by decide) (by decide) (by decide) (by decide)⟩

/-- Counterexample to C31 as stated: on "0 days 0 hours 0 minutes -5 seconds" the mapper returns
without error and sends the uptime counter with value -5; on
"9223372036854775807 days 0 hours 0 minutes 0 seconds", where no component has a sign, the
product with 86400 overflows the 64-bit `int` and the counter has value -86400. -/
theorem collector.uptime_counter_can_be_negative :
    processSystemStats id (fun _ => .ok (sampleSystem "0 days 0 hours 0 minutes -5 seconds")) [] []
      = .done (systemHead id (sampleSystem "0 days 0 hours 0 minutes -5 seconds")
          ++ [systemUptime (sampleSystem "0 days 0 hours 0 minutes -5 seconds") (-5)]) none ∧
    processSystemStats id
        (fun _ => .ok (sampleSystem "9223372036854775807 days 0 hours 0 minutes 0 seconds")) [] []
      = .done (systemHead id (sampleSystem "9223372036854775807 days 0 hours 0 minutes 0 seconds")
          ++ [systemUptime (sampleSystem "9223372036854775807 days 0 hours 0 minutes 0 seconds")
            (-86400)]) none ∧
    ¬ (0 : Float64) ≤ -5 ∧ ¬ (0 : Float64) ≤ -86400 := by
  have h5 : regexp.uptimeRegexp.FindStringSubmatch "0 days 0 hours 0 minutes -5 seconds"
      = ["0 days 0 hours 0 minutes -5 seconds", "0", "0", "0", "-5"] := by decide
  have hmax : regexp.uptimeRegexp.FindStringSubmatch
        "9223372036854775807 days 0 hours 0 minutes 0 seconds"
      = ["9223372036854775807 days 0 hours 0 minutes 0 seconds", "9223372036854775807", "0", "0",
          "0"] := by decide
  refine ⟨?_, ?_, by norm_num, by norm_num⟩
  · rw [processSystemStats_ok id _ [] (sampleSystem "0 days 0 hours 0 minutes -5 seconds") []
      "0 days 0 hours 0 minutes -5 seconds" "0" "0" "0" "-5" 0 0 0 (-5) rfl h5 rfl rfl rfl rfl]
    rw [uptime_of_minus_five]
    rfl
  · rw [processSystemStats_ok id _ []
      (sampleSystem "9223372036854775807 days 0 hours 0 minutes 0 seconds") []
      "9223372036854775807 days 0 hours 0 minutes 0 seconds" "9223372036854775807" "0" "0" "0"
      9223372036854775807 0 0 0 rfl hmax rfl rfl rfl rfl]
    rw [uptime_of_overflow]
    rfl

end Claims
